import Mathlib

/-!
# limbo: MultiGP, the loop of BOptimizer, and its collaborators

A shallow embedding of `src/limbo/model/multi_gp.hpp`, of `BOptimizer::optimize` and the
accessors `best_observation` / `best_sample` of `src/limbo/bayes_opt/boptimizer.hpp`, and of
`src/limbo/init/random_sampling.hpp`.

* `Eigen::VectorXd` is the list of its coefficients; the scalar type `R` is a
  parameter (only `-` and `+` are used on it). The type `double` itself is `Double`:
  NaN, the infinities and the finite values, with the comparisons and the rounded
  addition and subtraction of IEEE 754.
* A failed `assert`, an out-of-range index and a `resize` to a negative size
  are the result `none`.
* The mean function object is a value of a type `MF`; how it is built and how
  it is called (with the owning MultiGP as second argument) is the record
  `MeanFunction`.
* The scalar GP is not among the sources: it keeps its training data, its posterior is
  the record `Posterior` and the outcome of its factorisations the record `Cholesky`.
* `optimize` is followed call by call: a run records the calls made to the
  collaborators; a call that throws ends the run with the state it left.
-/

namespace Limbo

/-! ## Definitions -/

/-- Coefficient vector of an `Eigen::VectorXd`. -/
abbrev VectorXd (R : Type) := List R

/-- Modelled from the spec: the helper `limbo::tools::make_vector`, which is missing from the
sources: the vector of one coefficient that a scalar GP takes as observation. -/
def make_vector {R : Type} (x : R) : VectorXd R := [x]

/-! ### The type `double` -/

/-- The type `double` of the source (IEEE 754 binary64): NaN, the two infinities, and the
finite values `± m * 2 ^ e`. A finite value that an operation returns has `m < 2 ^ 53` and
`-1074 <= e <= 971`, with `2 ^ 52 <= m` unless `e = -1074` (the subnormal values and the
two zeros). -/
inductive Double where
  | nan
  | inf (negative : Bool)
  | finite (negative : Bool) (m : Nat) (e : Int)
deriving DecidableEq

/-- The integer `± m`. -/
def Double.signed (negative : Bool) (m : Nat) : Int :=
  if negative then -(m : Int) else (m : Int)

/-- The number of binary digits of `n`, counted with `fuel` halvings at most. -/
def Double.bit_length_from : Nat → Nat → Nat
  | 0, _ => 0
  | fuel + 1, n => if n = 0 then 0 else Double.bit_length_from fuel (n / 2) + 1

/-- The number of binary digits of `n`. -/
def Double.bit_length (n : Nat) : Nat := Double.bit_length_from n n

/-- The double nearest to the exact value `± n * 2 ^ e` (round to nearest, ties to even,
the rounding of every arithmetic operation of the source): `q` is the exponent of the last
place of the result, `m` the digits kept and `r` the digits dropped; a value beyond the
largest finite double becomes an infinity. -/
def Double.round (negative : Bool) (n : Nat) (e : Int) : Double :=
  let q : Int := max ((Double.bit_length n : Int) + e - 53) (-1074)
  let s : Nat := (q - e).toNat
  let scaled : Nat := n * 2 ^ (e - q).toNat
  let m : Nat := scaled / 2 ^ s
  let r : Nat := scaled % 2 ^ s
  let m1 : Nat := if 2 ^ s < 2 * r ∨ (2 * r = 2 ^ s ∧ m % 2 = 1) then m + 1 else m
  let m2 : Nat := if m1 = 2 ^ 53 then 2 ^ 52 else m1
  let q2 : Int := if m1 = 2 ^ 53 then q + 1 else q
  if n = 0 then Double.finite negative 0 (-1074)
  else if 971 < q2 then Double.inf negative
  else Double.finite negative m2 q2

/-- The operator `+` of `double`: the exact sum, rounded; NaN when an operand is NaN or the
operands are the two infinities of opposite sign; an exact sum zero is `+0`, unless both
operands are `-0`. -/
def Double.add : Double → Double → Double
  | Double.nan, _ => Double.nan
  | _, Double.nan => Double.nan
  | Double.inf a, Double.inf b => if a = b then Double.inf a else Double.nan
  | Double.inf a, Double.finite _ _ _ => Double.inf a
  | Double.finite _ _ _, Double.inf b => Double.inf b
  | Double.finite s1 m1 e1, Double.finite s2 m2 e2 =>
    let v : Int := Double.signed s1 (m1 * 2 ^ (e1 - min e1 e2).toNat)
      + Double.signed s2 (m2 * 2 ^ (e2 - min e1 e2).toNat)
    if v = 0 then Double.finite (s1 && s2) 0 (-1074)
    else Double.round (decide (v < 0)) v.natAbs (min e1 e2)

/-- The unary operator `-` of `double`. -/
def Double.neg : Double → Double
  | Double.nan => Double.nan
  | Double.inf a => Double.inf (!a)
  | Double.finite s m e => Double.finite (!s) m e

/-- The operator `-` of `double`. -/
def Double.sub (a b : Double) : Double := Double.add a (Double.neg b)

instance : Add Double := ⟨Double.add⟩

instance : Sub Double := ⟨Double.sub⟩

/-- The operator `<` of `double`: false as soon as an operand is NaN. -/
def Double.lt : Double → Double → Bool
  | Double.nan, _ => false
  | _, Double.nan => false
  | Double.inf a, Double.inf b => a && !b
  | Double.inf a, Double.finite _ _ _ => a
  | Double.finite _ _ _, Double.inf b => !b
  | Double.finite s1 m1 e1, Double.finite s2 m2 e2 =>
    decide (Double.signed s1 (m1 * 2 ^ (e1 - min e1 e2).toNat)
      < Double.signed s2 (m2 * 2 ^ (e2 - min e1 e2).toNat))

/-- The operator `<=` of `double` (and `>=` with the operands exchanged): false as soon as
an operand is NaN. -/
def Double.le : Double → Double → Bool
  | Double.nan, _ => false
  | _, Double.nan => false
  | Double.inf a, Double.inf b => a || !b
  | Double.inf a, Double.finite _ _ _ => a
  | Double.finite _ _ _, Double.inf b => !b
  | Double.finite s1 m1 e1, Double.finite s2 m2 e2 =>
    decide (Double.signed s1 (m1 * 2 ^ (e1 - min e1 e2).toNat)
      ≤ Double.signed s2 (m2 * 2 ^ (e2 - min e1 e2).toNat))

/-- The conversion of an `int` to `double` (exact for the integers used here). -/
def Double.of_int (z : Int) : Double := Double.round (decide (z < 0)) z.natAbs 0

/-- The value of a double that is not NaN, in the rationals extended by the two
infinities (NaN is given the value of the negative infinity: it is never compared). -/
def Double.key : Double → WithBot (WithTop ℚ)
  | Double.nan => ⊥
  | Double.inf true => ⊥
  | Double.inf false => ((⊤ : WithTop ℚ) : WithBot (WithTop ℚ))
  | Double.finite s m e =>
    ((((Double.signed s m : Int) : ℚ) * (2 : ℚ) ^ e : ℚ) : WithTop ℚ)

/-- The scan of `std::max_element` on a range of doubles, compared by `<`, after its first
step: `largest` is the index kept so far, `lv` its value, `first` the index of the head of
`rest`. -/
def Double.max_element_scan : Nat → Double → Nat → List Double → Nat
  | largest, _, _, [] => largest
  | largest, lv, first, r :: rest =>
    if Double.lt lv r = true then Double.max_element_scan first r (first + 1) rest
    else Double.max_element_scan largest lv (first + 1) rest

/-- The distance from `begin` of the iterator returned by `std::max_element` on a range of
doubles: on an empty range the iterator is `last`, which is `begin`, so the distance is
0. -/
def Double.max_element : List Double → Nat
  | [] => 0
  | r :: rest => Double.max_element_scan 0 r 1 rest

/-! ### `std::max_element` on a linear order -/

/-- The scan of `std::max_element` after its first step: `largest` is the index of the
largest element so far, `lv` its value, `first` the index of the head of `rest`. -/
def max_element_scan {K : Type} [LinearOrder K] :
    Nat → K → Nat → List K → Nat
  | largest, _, _, [] => largest
  | largest, lv, first, r :: rest =>
    if lv < r then max_element_scan first r (first + 1) rest
    else max_element_scan largest lv (first + 1) rest

/-- The distance from `begin` of the iterator returned by `std::max_element`: on an empty
range the iterator is `last`, which is `begin`, so the distance is 0. -/
def max_element {K : Type} [LinearOrder K] : List K → Nat
  | [] => 0
  | r :: rest => max_element_scan 0 r 1 rest

/-- The vector of rewards of `best_observation` / `best_sample`: `std::transform` of the
observations by the aggregator. -/
def rewards {R K : Type} (afun : VectorXd R → K) (observations : List (VectorXd R)) : List K :=
  observations.map afun

/-- The index computed by both accessors: `std::distance(rewards.begin(), max_e)`. -/
def best_index {R K : Type} [LinearOrder K] (afun : VectorXd R → K)
    (observations : List (VectorXd R)) : Nat :=
  max_element (rewards afun observations)

/-- The accessor `BOptimizer::best_observation`: the observation at the computed index. -/
def best_observation {R K : Type} [LinearOrder K] (afun : VectorXd R → K)
    (observations : List (VectorXd R)) : Option (VectorXd R) :=
  observations[best_index afun observations]?

/-- The accessor `BOptimizer::best_sample`: the sample at the computed index. -/
def best_sample {R K : Type} [LinearOrder K] (afun : VectorXd R → K)
    (samples observations : List (VectorXd R)) : Option (VectorXd R) :=
  samples[best_index afun observations]?

/-- The aggregator `FirstElem`, as `tests/test_gp.cpp` defines it (`x(0)`), on integer
vectors; 0 stands for the undefined read of an empty vector. -/
def FirstElem (x : VectorXd Int) : Int := x.headD 0

/-- Modelled from the spec: the scalar GP class `GP_t` given to MultiGP
(`limbo/model/gp.hpp` is not among the sources). Of a scalar GP only the training data
are kept: the samples and the targets it was fitted on. -/
structure GP (R : Type) where
  samples : List (VectorXd R)
  observations : List (VectorXd R)
deriving DecidableEq

/-- Modelled from the spec: the scalar GP constructor `GP_t(dim_in, dim_out)`, which is
missing from the sources: an uninitialised GP, without samples. -/
def GP.new {R : Type} (_dim_in _dim_out : Int) : GP R := ⟨[], []⟩

/-- Modelled from the spec: the numerical outcome of the factorisations of the scalar GP,
which depends on the kernel and is left open. `compute_ok` tells whether the Cholesky
factorisation of `compute` can be completed after the jitter ladder (otherwise the call
fails with `NonPositiveDefinite`), `add_sample_ok` whether the rank-one update of
`add_sample` finds a positive diagonal (otherwise the call fails with
`IncrementalUpdateFailed`), and `recompute_ok` whether the factorisation of `recompute` can
be completed. -/
structure Cholesky (R : Type) where
  compute_ok : GP R → List (VectorXd R) → List (VectorXd R) → Bool → Bool
  add_sample_ok : GP R → VectorXd R → VectorXd R → Bool
  recompute_ok : GP R → Bool → Bool → Bool

/-- Modelled from the spec: the scalar `GP_t::compute(samples, observations, compute_kernel)`,
which is missing from the sources: the GP is fitted on exactly these data, unless the
factorisation fails. -/
def GP.compute {R : Type} (C : Cholesky R) (gp : GP R)
    (samples observations : List (VectorXd R)) (compute_kernel : Bool) : Option (GP R) :=
  if C.compute_ok gp samples observations compute_kernel = true then
    some ⟨samples, observations⟩
  else none

/-- Modelled from the spec: the scalar `GP_t::add_sample(sample, observation)`, which is
missing from the sources: one sample and its target are appended, unless the incremental
update fails. -/
def GP.add_sample {R : Type} (C : Cholesky R) (gp : GP R)
    (sample observation : VectorXd R) : Option (GP R) :=
  if C.add_sample_ok gp sample observation = true then
    some ⟨gp.samples ++ [sample], gp.observations ++ [observation]⟩
  else none

/-- Modelled from the spec: the scalar `GP_t::recompute`, which is missing from the sources:
the training data stay as they are, unless the factorisation fails. -/
def GP.recompute {R : Type} (C : Cholesky R) (gp : GP R)
    (update_obs_mean update_full_kernel : Bool) : Option (GP R) :=
  if C.recompute_ok gp update_obs_mean update_full_kernel = true then some gp else none

/-- Modelled from the spec: the scalar `GP_t::nb_samples()`, missing from the sources. -/
def GP.nb_samples {R : Type} (gp : GP R) : Int := gp.samples.length

/-- Modelled from the spec: the posterior of a scalar GP (`GP_t::query`, `GP_t::mu`,
`GP_t::sigma`, missing from the sources). The numerical content is left open: the three
functions are parameters. -/
structure Posterior (R : Type) where
  query : GP R → VectorXd R → VectorXd R × R
  mu : GP R → VectorXd R → VectorXd R
  sigma : GP R → VectorXd R → R

/-- The data members of `MultiGP` (`_hp_optimize` is a stateless functor and is left out);
`MF` is the type of the mean function object. -/
structure MultiGP (R MF : Type) where
  _gp_models : List (GP R)
  _dim_in : Int
  _dim_out : Int
  _mean_function : MF
  _observations : List (VectorXd R)
deriving DecidableEq

/-- The template parameter `MeanFunction`: its default constructor, its constructor from
`dim_out`, and its call operator, which receives the query point and the MultiGP itself. -/
structure MeanFunction (R MF : Type) where
  build_default : MF
  build : Int → MF
  call : MF → VectorXd R → MultiGP R MF → VectorXd R

/-- A loop body run over a list of indices, in that order; a failing body ends the run. -/
def loop_over {σ : Type} (body : Nat → σ → Option σ) : List Nat → σ → Option σ
  | [], s => some s
  | i :: rest, s => (body i s).bind (loop_over body rest)

/-- The loop `for (int i = b; i < e; i++)`: a negative bound gives no iteration. -/
def for_loop {σ : Type} (b : Nat) (e : Int) (body : Nat → σ → Option σ) (s : σ) : Option σ :=
  loop_over body (List.range' b (e.toNat - b)) s

/-- Modelled from the spec: the parallel-for primitive `limbo::tools::par::loop(b, e, f)`,
which is missing from the sources, in its deterministic single-thread form: the body is run
in index order. Its bounds are `size_t`: a negative `int` bound becomes a huge one and the
run leaves every container. -/
def par_loop {σ : Type} (b : Nat) (e : Int) (body : Nat → σ → Option σ) (s : σ) : Option σ :=
  if e < 0 then none else loop_over body (List.range' b (e.toNat - b)) s

/-- An in-place update of element `i` of a vector: out of range is an error, as is a
failing update. -/
def update_at {α : Type} (l : List α) (i : Nat) (f : α → Option α) : Option (List α) :=
  match l[i]? with
  | none => none
  | some a => (f a).map (fun b => l.set i b)

/-- The statements `_gp_models.resize(_dim_out)` and the loop that assigns `GP_t(_dim_in, 1)`
to every model. A negative `_dim_out` is no length a vector can take. -/
def fresh_gp_models {R : Type} (dim_in dim_out : Int) : Option (List (GP R)) :=
  if dim_out < 0 then none else some (List.replicate dim_out.toNat (GP.new dim_in 1))

/-- The default constructor `MultiGP()`. -/
def MultiGP.new0 {R MF : Type} (M : MeanFunction R MF) : MultiGP R MF :=
  { _gp_models := [], _dim_in := -1, _dim_out := -1, _mean_function := M.build_default,
    _observations := [] }

/-- The constructor `MultiGP(dim_in, dim_out)`. -/
def MultiGP.new {R MF : Type} (M : MeanFunction R MF) (dim_in dim_out : Int) :
    Option (MultiGP R MF) :=
  (fresh_gp_models dim_in dim_out).map fun ms =>
    { _gp_models := ms, _dim_in := dim_in, _dim_out := dim_out,
      _mean_function := M.build dim_out, _observations := [] }

/-- The expression `make_vector(observation[i] - mean_vector[i])`. -/
def residual {R : Type} [Sub R] (observation mean_vector : VectorXd R) (i : Nat) :
    Option (VectorXd R) :=
  match observation[i]?, mean_vector[i]? with
  | some a, some b => some (make_vector (a - b))
  | _, _ => none

/-- The inner loop of `compute`: `obs[i].push_back(...)` for every `i < _dim_out`. -/
def push_residuals {R : Type} [Sub R] (dim_out : Int) (observation mean_vector : VectorXd R)
    (obs : List (List (VectorXd R))) : Option (List (List (VectorXd R))) :=
  for_loop 0 dim_out
    (fun i o => update_at o i
      (fun col => (residual observation mean_vector i).map (fun r => col ++ [r]))) obs

/-- The three dimension updates that open `compute`. -/
def MultiGP.compute_dims {R MF : Type} (M : MeanFunction R MF) (g : MultiGP R MF)
    (s0 y0 : VectorXd R) : Option (MultiGP R MF) :=
  let g1 := if g._dim_in ≠ (s0.length : Int) then { g with _dim_in := s0.length } else g
  let g2 :=
    if g1._dim_out ≠ (y0.length : Int) then
      { g1 with _dim_out := y0.length, _mean_function := M.build y0.length }
    else g1
  if (g2._gp_models.length : Int) ≠ g2._dim_out then
    (fresh_gp_models g2._dim_in g2._dim_out).map fun ms => { g2 with _gp_models := ms }
  else some g2

/-- The body of the loop of `compute` over the observations, for the index `j`; `g` is the
MultiGP at that point of `compute`, which the mean function receives. -/
def MultiGP.compute_obs_body {R MF : Type} [Sub R] (M : MeanFunction R MF) (g : MultiGP R MF)
    (samples observations : List (VectorXd R)) (j : Nat) (obs : List (List (VectorXd R))) :
    Option (List (List (VectorXd R))) :=
  match samples[j]?, observations[j]? with
  | some s, some y =>
    let mean_vector := M.call g._mean_function s g
    if (mean_vector.length : Int) ≠ g._dim_out then none
    else push_residuals g._dim_out y mean_vector obs
  | _, _ => none

/-- The loop of `compute` over the observations, which fills `obs`, a vector of `_dim_out`
empty vectors at first. -/
def MultiGP.compute_obs {R MF : Type} [Sub R] (M : MeanFunction R MF) (g : MultiGP R MF)
    (samples observations : List (VectorXd R)) : Option (List (List (VectorXd R))) :=
  for_loop 0 observations.length (MultiGP.compute_obs_body M g samples observations)
    (List.replicate g._dim_out.toNat [])

/-- The MultiGP as it stands in `compute` once the dimensions are settled and the
observations are saved, before the scalar GPs are fitted: the object the mean function
receives in `compute`. -/
def MultiGP.compute_begin {R MF : Type} (M : MeanFunction R MF) (g : MultiGP R MF)
    (s0 y0 : VectorXd R) (observations : List (VectorXd R)) : Option (MultiGP R MF) :=
  (MultiGP.compute_dims M g s0 y0).map fun g3 => { g3 with _observations := observations }

/-- The method `MultiGP::compute(samples, observations, compute_kernel)`. -/
def MultiGP.compute {R MF : Type} [Sub R] (C : Cholesky R) (M : MeanFunction R MF)
    (g : MultiGP R MF)
    (samples observations : List (VectorXd R)) (compute_kernel : Bool) :
    Option (MultiGP R MF) :=
  match samples, observations with
  | s0 :: _, y0 :: _ =>
    if samples.length ≠ observations.length then none
    else
      (MultiGP.compute_begin M g s0 y0 observations).bind fun g4 =>
      (MultiGP.compute_obs M g4 samples observations).bind fun obs =>
      (par_loop 0 g4._dim_out
        (fun i ms => update_at ms i (fun gp =>
          (obs[i]?).bind (fun o => gp.compute C samples o compute_kernel)))
        g4._gp_models).map fun ms =>
      { g4 with _gp_models := ms }
  | _, _ => none

/-- The first part of `add_sample`: dimension discovery when there is no scalar GP, the
two assertions otherwise. -/
def MultiGP.add_sample_dims {R MF : Type} (M : MeanFunction R MF) (g : MultiGP R MF)
    (sample observation : VectorXd R) : Option (MultiGP R MF) :=
  if g._gp_models.length = 0 then
    let g1 := if g._dim_in ≠ (sample.length : Int) then { g with _dim_in := sample.length } else g
    if g1._dim_out ≠ (observation.length : Int) then
      (fresh_gp_models g1._dim_in observation.length).map fun ms =>
        { g1 with _dim_out := observation.length, _gp_models := ms,
                  _mean_function := M.build observation.length }
    else some g1
  else if (sample.length : Int) ≠ g._dim_in then none
  else if (observation.length : Int) ≠ g._dim_out then none
  else some g

/-- The method `MultiGP::add_sample(sample, observation)`. -/
def MultiGP.add_sample {R MF : Type} [Sub R] (C : Cholesky R) (M : MeanFunction R MF)
    (g : MultiGP R MF) (sample observation : VectorXd R) : Option (MultiGP R MF) :=
  (MultiGP.add_sample_dims M g sample observation).bind fun g1 =>
  let g2 := { g1 with _observations := g1._observations ++ [observation] }
  let mean_vector := M.call g2._mean_function sample g2
  if (mean_vector.length : Int) ≠ g2._dim_out then none
  else
    (par_loop 0 g2._dim_out
      (fun i ms => update_at ms i (fun gp =>
        (residual observation mean_vector i).bind (fun r => gp.add_sample C sample r)))
      g2._gp_models).map fun ms =>
    { g2 with _gp_models := ms }

/-- An `Eigen::VectorXd v(n)`: `n` coefficients not yet written; a negative size fails. -/
def uninitialized {R : Type} (n : Int) : Option (List (Option R)) :=
  if n < 0 then none else some (List.replicate n.toNat none)

/-- The assignment `v(i) = x`. -/
def write_at {R : Type} (v : List (Option R)) (i : Nat) (x : R) : Option (List (Option R)) :=
  update_at v i (fun _ => some (some x))

/-- The coefficients of a vector all of whose coefficients have been written. -/
def read_all {R : Type} : List (Option R) → Option (VectorXd R)
  | [] => some []
  | none :: _ => none
  | some x :: rest => (read_all rest).map (fun xs => x :: xs)

/-- The body of the loop of `query` for the index `i`, on the pair `(mu, sigma)`. -/
def MultiGP.query_body {R MF : Type} [Add R] (P : Posterior R) (g : MultiGP R MF)
    (v mean_vector : VectorXd R) (i : Nat) (st : List (Option R) × List (Option R)) :
    Option (List (Option R) × List (Option R)) :=
  match g._gp_models[i]? with
  | none => none
  | some gp =>
    let tmp := (P.query gp v).1
    (write_at st.2 i (P.query gp v).2).bind fun sigma =>
    match tmp[0]?, mean_vector[i]? with
    | some t0, some m => (write_at st.1 i (t0 + m)).map fun mu => (mu, sigma)
    | _, _ => none

/-- The method `MultiGP::query(v)`: the pair `(mu, sigma)`. -/
def MultiGP.query {R MF : Type} [Add R] (M : MeanFunction R MF) (P : Posterior R)
    (g : MultiGP R MF) (v : VectorXd R) : Option (VectorXd R × VectorXd R) :=
  (uninitialized g._dim_out).bind fun mu0 =>
  (uninitialized g._dim_out).bind fun sigma0 =>
  let mean_vector := M.call g._mean_function v g
  (par_loop 0 g._dim_out (MultiGP.query_body P g v mean_vector) (mu0, sigma0)).bind fun st =>
  (read_all st.1).bind fun mu => (read_all st.2).map fun sigma => (mu, sigma)

/-- The body of the loop of `mu` for the index `i`. -/
def MultiGP.mu_body {R MF : Type} [Add R] (P : Posterior R) (g : MultiGP R MF)
    (v mean_vector : VectorXd R) (i : Nat) (mu : List (Option R)) :
    Option (List (Option R)) :=
  match g._gp_models[i]? with
  | none => none
  | some gp =>
    match (P.mu gp v)[0]?, mean_vector[i]? with
    | some t0, some m => write_at mu i (t0 + m)
    | _, _ => none

/-- The method `MultiGP::mu(v)`. -/
def MultiGP.mu {R MF : Type} [Add R] (M : MeanFunction R MF) (P : Posterior R)
    (g : MultiGP R MF) (v : VectorXd R) : Option (VectorXd R) :=
  (uninitialized g._dim_out).bind fun mu0 =>
  let mean_vector := M.call g._mean_function v g
  (par_loop 0 g._dim_out (MultiGP.mu_body P g v mean_vector) mu0).bind read_all

/-- The body of the loop of `sigma` for the index `i`. -/
def MultiGP.sigma_body {R MF : Type} (P : Posterior R) (g : MultiGP R MF)
    (v : VectorXd R) (i : Nat) (sigma : List (Option R)) : Option (List (Option R)) :=
  match g._gp_models[i]? with
  | none => none
  | some gp => write_at sigma i (P.sigma gp v)

/-- The method `MultiGP::sigma(v)`. -/
def MultiGP.sigma {R MF : Type} (P : Posterior R)
    (g : MultiGP R MF) (v : VectorXd R) : Option (VectorXd R) :=
  (uninitialized g._dim_out).bind fun sigma0 =>
  (par_loop 0 g._dim_out (MultiGP.sigma_body P g v) sigma0).bind read_all

/-- The method `MultiGP::dim_in()`, with its assertion. -/
def MultiGP.dim_in {R MF : Type} (g : MultiGP R MF) : Option Int :=
  if g._dim_in ≠ -1 then some g._dim_in else none

/-- The method `MultiGP::dim_out()`, with its assertion. -/
def MultiGP.dim_out {R MF : Type} (g : MultiGP R MF) : Option Int :=
  if g._dim_out ≠ -1 then some g._dim_out else none

/-- The method `MultiGP::nb_samples()`. -/
def MultiGP.nb_samples {R MF : Type} (g : MultiGP R MF) : Int :=
  match g._gp_models with
  | [] => 0
  | gp0 :: _ => gp0.nb_samples

/-- The method `MultiGP::samples()`, with its assertion. -/
def MultiGP.samples {R MF : Type} (g : MultiGP R MF) : Option (List (VectorXd R)) :=
  match g._gp_models with
  | [] => none
  | gp0 :: _ => some gp0.samples

/-- The method `MultiGP::recompute(update_obs_mean, update_full_kernel)`. -/
def MultiGP.recompute {R MF : Type} [Sub R] (C : Cholesky R) (M : MeanFunction R MF)
    (g : MultiGP R MF) (update_obs_mean update_full_kernel : Bool) :
    Option (MultiGP R MF) :=
  match g._gp_models with
  | [] => some g
  | gp0 :: _ =>
    if update_obs_mean then
      MultiGP.compute C M g gp0.samples g._observations update_full_kernel
    else
      (par_loop 0 g._dim_out
        (fun i ms => update_at ms i (fun gp => gp.recompute C false update_full_kernel))
        g._gp_models).map fun ms =>
      { g with _gp_models := ms }

/-- Example numerics: every factorisation can be completed. -/
def always_fits {R : Type} : Cholesky R :=
  { compute_ok := fun _ _ _ _ => true
    add_sample_ok := fun _ _ _ => true
    recompute_ok := fun _ _ _ => true }

/-- Example numerics, as with a kernel without noise: a factorisation can be completed
exactly when no sample is repeated, the Gram matrix being singular otherwise. -/
def distinct_fits : Cholesky Int :=
  { compute_ok := fun _ S _ _ => decide S.Nodup
    add_sample_ok := fun gp x _ => decide (x ∉ gp.samples)
    recompute_ok := fun gp _ _ => decide gp.samples.Nodup }

/-- A mean function in the style of `mean::Constant`: it is built from `dim_out`, and
returns that many times the constant `c`, whatever the MultiGP. -/
def constant_mean (c : Int) : MeanFunction Int Int :=
  { build_default := 1
    build := fun d => d
    call := fun d _ _ => List.replicate d.toNat c }

/-- A mean function that reads the MultiGP it is given: every coefficient is the number
of samples `gp.nb_samples()` the model holds at the time of the call. -/
def nb_samples_mean : MeanFunction Int Int :=
  { build_default := 1
    build := fun d => d
    call := fun d _ g => List.replicate d.toNat g.nb_samples }

/-- A mean function that returns a vector of two coefficients whatever `dim_out` is. -/
def two_mean : MeanFunction Int Int :=
  { build_default := 1
    build := fun d => d
    call := fun _ _ _ => [0, 0] }

/-- A posterior that interpolates: at a training input the scalar GP returns the target it
was fitted on (the last one if the input occurs several times), elsewhere 0; the variance
is 0. It stands for a noise-free fitted scalar GP at its training inputs. -/
def lookup_posterior : Posterior Int :=
  let look : GP Int → VectorXd Int → VectorXd Int := fun gp v =>
    ((gp.samples.zip gp.observations).foldl
      (fun acc so => if so.1 = v then so.2 else acc) [0])
  { query := fun gp v => (look gp v, 0)
    mu := fun gp v => look gp v
    sigma := fun _ _ => 0 }

/-- The double nearest to 0.1, `0x1.999999999999ap-4`. -/
def Double.tenth : Double := Double.finite false 7205759403792794 (-56)

/-- The double nearest to 0.01, `0x1.47ae147ae147bp-7`. -/
def Double.hundredth : Double := Double.finite false 5764607523034235 (-59)

/-- The mean function `mean::Constant` on doubles: it is built from `dim_out`, and returns
that many times the constant `c`, whatever the MultiGP. -/
def double_constant_mean (c : Double) : MeanFunction Double Int :=
  { build_default := 1
    build := fun d => d
    call := fun d _ _ => List.replicate d.toNat c }

/-- A posterior on doubles that interpolates: at a training input the scalar GP returns the
target it was fitted on (the last one if the input occurs several times), elsewhere 0; the
variance is 0. -/
def double_lookup_posterior : Posterior Double :=
  let look : GP Double → VectorXd Double → VectorXd Double := fun gp v =>
    ((gp.samples.zip gp.observations).foldl
      (fun acc so => if so.1 = v then so.2 else acc) [Double.of_int 0])
  { query := fun gp v => (look gp v, Double.of_int 0)
    mu := fun gp v => look gp v
    sigma := fun _ _ => Double.of_int 0 }

/-- Example data in doubles: the two samples 0 and 1, of dimension 1. -/
def ex_double_samples : List (VectorXd Double) := [[Double.of_int 0], [Double.of_int 1]]

/-- Example data in doubles: the two observations 1.0 and 0.01, of dimension 1. -/
def ex_double_observations : List (VectorXd Double) :=
  [[Double.of_int 1], [Double.hundredth]]

/-- Example data in doubles: `MultiGP()` after
`compute(ex_double_samples, ex_double_observations)` with the constant mean 0.1: the scalar
GP holds the two samples and the targets `1.0 - 0.1` and `0.01 - 0.1` as the subtraction of
doubles gives them, `0x1.ccccccccccccdp-1` and `-0x1.70a3d70a3d70bp-4`. -/
def ex_double_fitted : MultiGP Double Int :=
  { _gp_models := [⟨[[Double.of_int 0], [Double.of_int 1]],
      [[Double.finite false 8106479329266893 (-53)],
       [Double.finite true 6485183463413515 (-56)]]⟩]
    _dim_in := 1
    _dim_out := 1
    _mean_function := 1
    _observations := [[Double.of_int 1], [Double.hundredth]] }

/-- The content of `obs` in `compute` after `k` observations have been treated, for `d`
outputs: every mean vector had `d` coefficients, and column `i` holds, for each `j < k`, the residual
of `observations[j]` against the mean at `samples[j]`, in coefficient `i`. -/
def ObsRows {R MF : Type} [Sub R] (M : MeanFunction R MF) (g : MultiGP R MF)
    (samples observations : List (VectorXd R)) (d k : Nat)
    (obs : List (List (VectorXd R))) : Prop :=
  obs.length = d ∧
  (∀ (j : Nat), j < k → ∃ s, samples[j]? = some s ∧
    (M.call g._mean_function s g).length = d) ∧
  ∀ (i : Nat), i < d → ∃ col, obs[i]? = some col ∧ col.length = k ∧
    ∀ (j : Nat), j < k → ∃ s y r, samples[j]? = some s ∧ observations[j]? = some y ∧
      residual y (M.call g._mean_function s g) i = some r ∧ col[j]? = some r

/-- Example data: two samples of dimension 1. -/
def ex_samples : List (VectorXd Int) := [[1], [2]]

/-- Example data: two observations of dimension 2. -/
def ex_observations : List (VectorXd Int) := [[5, 6], [10, 11]]

/-- Example data: `MultiGP()` after `compute(ex_samples, ex_observations)` with the constant
mean 2: both scalar GPs hold the two samples and the residuals against 2. -/
def ex_fitted : MultiGP Int Int :=
  { _gp_models := [⟨[[1], [2]], [[3], [8]]⟩, ⟨[[1], [2]], [[4], [9]]⟩]
    _dim_in := 1
    _dim_out := 2
    _mean_function := 2
    _observations := [[5, 6], [10, 11]] }

/-- Example data: `ex_fitted` after `add_sample([3], [7, 8])`. -/
def ex_extended : MultiGP Int Int :=
  { _gp_models := [⟨[[1], [2], [3]], [[3], [8], [5]]⟩, ⟨[[1], [2], [3]], [[4], [9], [6]]⟩]
    _dim_in := 1
    _dim_out := 2
    _mean_function := 2
    _observations := [[5, 6], [10, 11], [7, 8]] }

/-- Example data: the MultiGP that the mean function receives inside
`compute(ex_samples, ex_observations)` on `MultiGP()`: two fresh scalar GPs, the new
dimensions, the observations saved. -/
def ex_begin : MultiGP Int Int :=
  { _gp_models := [⟨[], []⟩, ⟨[], []⟩]
    _dim_in := 1
    _dim_out := 2
    _mean_function := 2
    _observations := [[5, 6], [10, 11]] }

/-- Example data: `MultiGP()` after `compute(ex_samples, ex_observations)` with the mean
`nb_samples_mean`, which is 0 inside `compute`: the targets are the observations. -/
def ex_fitted_nb : MultiGP Int Int :=
  { _gp_models := [⟨[[1], [2]], [[5], [10]]⟩, ⟨[[1], [2]], [[6], [11]]⟩]
    _dim_in := 1
    _dim_out := 2
    _mean_function := 2
    _observations := [[5, 6], [10, 11]] }

/-- The MultiGP states that a program can reach while the MultiGP keeps at least one
output: from either constructor, by successful calls of `compute` and `add_sample` each of
which leaves at least one scalar GP. -/
inductive Reachable {R MF : Type} [Sub R] (C : Cholesky R) (M : MeanFunction R MF) :
    MultiGP R MF → Prop
  | new0 : Reachable C M (MultiGP.new0 M)
  | new (dim_in dim_out : Int) (g : MultiGP R MF) :
      MultiGP.new M dim_in dim_out = some g → Reachable C M g
  | compute (g g2 : MultiGP R MF) (samples observations : List (VectorXd R)) (ck : Bool) :
      Reachable C M g → MultiGP.compute C M g samples observations ck = some g2 →
      g2._gp_models ≠ [] → Reachable C M g2
  | add_sample (g g2 : MultiGP R MF) (sample observation : VectorXd R) :
      Reachable C M g → MultiGP.add_sample C M g sample observation = some g2 →
      g2._gp_models ≠ [] → Reachable C M g2

/-- Example data: `MultiGP()` after a first `add_sample([4], [7, 8])` with the constant
mean 0. -/
def ex_first : MultiGP Int Int :=
  { _gp_models := [⟨[[4]], [[7]]⟩, ⟨[[4]], [[8]]⟩]
    _dim_in := 1
    _dim_out := 2
    _mean_function := 2
    _observations := [[7, 8]] }

/-- The MultiGP states that a program can reach: from `MultiGP()` or from a constructor
call `MultiGP(dim_in, dim_out)` that succeeds (`dim_out` is not negative), by successful
calls of `compute`, `add_sample` and `recompute`. -/
inductive ReachableState {R MF : Type} [Sub R] (C : Cholesky R) (M : MeanFunction R MF) :
    MultiGP R MF → Prop
  | new0 : ReachableState C M (MultiGP.new0 M)
  | new (dim_in dim_out : Int) (g : MultiGP R MF) :
      0 ≤ dim_out → MultiGP.new M dim_in dim_out = some g → ReachableState C M g
  | compute (g g2 : MultiGP R MF) (samples observations : List (VectorXd R)) (ck : Bool) :
      ReachableState C M g → MultiGP.compute C M g samples observations ck = some g2 →
      ReachableState C M g2
  | add_sample (g g2 : MultiGP R MF) (sample observation : VectorXd R) :
      ReachableState C M g → MultiGP.add_sample C M g sample observation = some g2 →
      ReachableState C M g2
  | recompute (g g2 : MultiGP R MF) (update_obs_mean update_full_kernel : Bool) :
      ReachableState C M g →
      MultiGP.recompute C M g update_obs_mean update_full_kernel = some g2 →
      ReachableState C M g2

/-- Example data: `MultiGP()` after `compute([[1]], [[]])` with the constant mean 0: the
observation has no coefficient, so there is no output and no scalar GP, and the observation
is stored. -/
def ex_no_output : MultiGP Int Int :=
  { _gp_models := []
    _dim_in := 1
    _dim_out := 0
    _mean_function := 0
    _observations := [[]] }

/-- Example data: `ex_no_output` after `add_sample([4], [7, 8])`: two fresh scalar GPs with
one sample each, and two stored observations. -/
def ex_late : MultiGP Int Int :=
  { _gp_models := [⟨[[4]], [[7]]⟩, ⟨[[4]], [[8]]⟩]
    _dim_in := 1
    _dim_out := 2
    _mean_function := 2
    _observations := [[], [7, 8]] }

/-! ### The fan-out of MultiGP in another order -/

/-- The loop `limbo::tools::par::loop(0, e, f)` when the indices `0, ..., e - 1` are treated
in the order `schedule e`, which the scheduler of the parallel-for chooses. -/
def par_loop_in {σ : Type} (schedule : Nat → List Nat) (e : Int)
    (body : Nat → σ → Option σ) (s : σ) : Option σ :=
  if e < 0 then none else loop_over body (schedule e.toNat) s

/-- The method `MultiGP::compute` with its fan-out run in the order of `schedule`. -/
def MultiGP.compute_in {R MF : Type} [Sub R] (schedule : Nat → List Nat)
    (C : Cholesky R) (M : MeanFunction R MF) (g : MultiGP R MF)
    (samples observations : List (VectorXd R)) (compute_kernel : Bool) :
    Option (MultiGP R MF) :=
  match samples, observations with
  | s0 :: _, y0 :: _ =>
    if samples.length ≠ observations.length then none
    else
      (MultiGP.compute_begin M g s0 y0 observations).bind fun g4 =>
      (MultiGP.compute_obs M g4 samples observations).bind fun obs =>
      (par_loop_in schedule g4._dim_out
        (fun i ms => update_at ms i (fun gp =>
          (obs[i]?).bind (fun o => gp.compute C samples o compute_kernel)))
        g4._gp_models).map fun ms =>
      { g4 with _gp_models := ms }
  | _, _ => none

/-- The method `MultiGP::add_sample` with its fan-out run in the order of `schedule`. -/
def MultiGP.add_sample_in {R MF : Type} [Sub R] (schedule : Nat → List Nat)
    (C : Cholesky R) (M : MeanFunction R MF) (g : MultiGP R MF)
    (sample observation : VectorXd R) : Option (MultiGP R MF) :=
  (MultiGP.add_sample_dims M g sample observation).bind fun g1 =>
  let g2 := { g1 with _observations := g1._observations ++ [observation] }
  let mean_vector := M.call g2._mean_function sample g2
  if (mean_vector.length : Int) ≠ g2._dim_out then none
  else
    (par_loop_in schedule g2._dim_out
      (fun i ms => update_at ms i (fun gp =>
        (residual observation mean_vector i).bind (fun r => gp.add_sample C sample r)))
      g2._gp_models).map fun ms =>
    { g2 with _gp_models := ms }

/-- The method `MultiGP::query` with its fan-out run in the order of `schedule`. -/
def MultiGP.query_in {R MF : Type} [Add R] (schedule : Nat → List Nat)
    (M : MeanFunction R MF) (P : Posterior R)
    (g : MultiGP R MF) (v : VectorXd R) : Option (VectorXd R × VectorXd R) :=
  (uninitialized g._dim_out).bind fun mu0 =>
  (uninitialized g._dim_out).bind fun sigma0 =>
  let mean_vector := M.call g._mean_function v g
  (par_loop_in schedule g._dim_out (MultiGP.query_body P g v mean_vector)
    (mu0, sigma0)).bind fun st =>
  (read_all st.1).bind fun mu => (read_all st.2).map fun sigma => (mu, sigma)

/-- The method `MultiGP::mu` with its fan-out run in the order of `schedule`. -/
def MultiGP.mu_in {R MF : Type} [Add R] (schedule : Nat → List Nat)
    (M : MeanFunction R MF) (P : Posterior R)
    (g : MultiGP R MF) (v : VectorXd R) : Option (VectorXd R) :=
  (uninitialized g._dim_out).bind fun mu0 =>
  let mean_vector := M.call g._mean_function v g
  (par_loop_in schedule g._dim_out (MultiGP.mu_body P g v mean_vector) mu0).bind read_all

/-- The method `MultiGP::sigma` with its fan-out run in the order of `schedule`. -/
def MultiGP.sigma_in {R MF : Type} (schedule : Nat → List Nat) (P : Posterior R)
    (g : MultiGP R MF) (v : VectorXd R) : Option (VectorXd R) :=
  (uninitialized g._dim_out).bind fun sigma0 =>
  (par_loop_in schedule g._dim_out (MultiGP.sigma_body P g v) sigma0).bind read_all

/-! ### The loop of `BOptimizer::optimize` -/

/-- The data members that `BOptimizer::optimize` reads and writes: the histories and the
two iteration counters of `BoBase`, and `_model`. -/
structure BOptimizer (R Model : Type) where
  _samples : List (VectorXd R)
  _observations : List (VectorXd R)
  _bl_samples : List (VectorXd R)
  _current_iteration : Int
  _total_iterations : Int
  _model : Model
deriving DecidableEq

/-- The vector `rewards` of `BOptimizer::best_observation` and `BOptimizer::best_sample`:
a `std::vector<double>`, the `std::transform` of the observations by the aggregator. -/
def BOptimizer.rewards {R Model : Type} (afun : VectorXd R → Double)
    (bo : BOptimizer R Model) : List Double :=
  bo._observations.map afun

/-- The index that both accessors compute: `std::distance(rewards.begin(), max_e)`. -/
def BOptimizer.best_index {R Model : Type} (afun : VectorXd R → Double)
    (bo : BOptimizer R Model) : Nat :=
  Double.max_element (bo.rewards afun)

/-- The accessor `BOptimizer::best_observation(afun)`: `_observations` at the computed
index; an index out of range is a failure. -/
def BOptimizer.best_observation {R Model : Type} (afun : VectorXd R → Double)
    (bo : BOptimizer R Model) : Option (VectorXd R) :=
  bo._observations[bo.best_index afun]?

/-- The accessor `BOptimizer::best_sample(afun)`: `_samples` at the computed index; an
index out of range is a failure. -/
def BOptimizer.best_sample {R Model : Type} (afun : VectorXd R → Double)
    (bo : BOptimizer R Model) : Option (VectorXd R) :=
  bo._samples[bo.best_index afun]?

/-- The aggregator `FirstElem` on vectors of doubles: `x(0)`; NaN stands for the undefined
read of an empty vector. -/
def Double.FirstElem (x : VectorXd Double) : Double := x.headD Double.nan

/-- Example data: an optimizer whose three observations have the rewards 3, 5 and 5 under
`FirstElem`. -/
def example_best : BOptimizer Double Unit :=
  { _samples := [[Double.of_int 10], [Double.of_int 20], [Double.of_int 30]]
    _observations := [[Double.of_int 3], [Double.of_int 5], [Double.of_int 5]]
    _bl_samples := [], _current_iteration := 3, _total_iterations := 3, _model := () }

/-- Example data: an optimizer whose three observations have the rewards NaN, 3 and 5 under
`FirstElem`. -/
def example_nan : BOptimizer Double Unit :=
  { _samples := [[Double.of_int 10], [Double.of_int 20], [Double.of_int 30]]
    _observations := [[Double.nan], [Double.of_int 3], [Double.of_int 5]]
    _bl_samples := [], _current_iteration := 3, _total_iterations := 3, _model := () }

/-- The calls that `optimize` makes to its collaborators, as they are recorded in the order
in which they happen: the stop predicate with its answer, the random start, the inner
optimizer, the objective, the stats hook with the optimizer it is shown, and the calls to
the surrogate. -/
inductive Call (R Model : Type) where
  | stop (result : Bool)
  | random_vector (dim : Nat)
  | acqui_optimizer (starting_point : VectorXd R) (bounded : Bool)
  | eval (x : VectorXd R)
  | update_stats (bo : BOptimizer R Model) (blacklisted : Bool)
  | model_new (dim_in dim_out : Int)
  | model_compute (samples observations : List (VectorXd R)) (noise : VectorXd R)
      (bl_samples : List (VectorXd R))
  | add_sample (sample observation : VectorXd R) (noise : R)
  | add_bl_sample (sample : VectorXd R) (noise : R)
  | optimize_hyperparams
deriving DecidableEq

/-- How a call, or a piece of `optimize`, ends: normally, or by a failure (an exception, a
failed assertion) that leaves the function. In both cases the state is the one at that
moment: a method that fails has no obligation to restore the object it was called on. -/
inductive Outcome (σ : Type) where
  | done (s : σ)
  | failed (s : σ)
deriving DecidableEq

/-- Sequencing: what follows a failure is not executed. -/
def Outcome.bind {σ : Type} (o : Outcome σ) (f : σ → Outcome σ) : Outcome σ :=
  match o with
  | Outcome.done s => f s
  | Outcome.failed s => Outcome.failed s

/-- The template parameter `model_t`: its constructor from the dimensions and the four
methods that `optimize` calls. The methods work on the model in place: each returns the
model as it leaves it, `done` when it returns and `failed` when it throws or fails an
assertion. -/
structure Model_t (R Model : Type) where
  make : Int → Int → Model
  compute : Model → List (VectorXd R) → List (VectorXd R) → VectorXd R →
    List (VectorXd R) → Outcome Model
  add_sample : Model → VectorXd R → VectorXd R → R → Outcome Model
  add_bl_sample : Model → VectorXd R → R → Outcome Model
  optimize_hyperparams : Model → Outcome Model

/-- The other parameters of `optimize`: the dimensions declared by the objective
(`StateFunction::dim_in`, `StateFunction::dim_out`), the objective (`none` when it signals
that the input is to be blacklisted), the initialisation `_init(sfun, afun, reset)`, the
stop predicate `_stop`, the inner optimizer applied to the acquisition built from the model
and the iteration counter, the draws of `tools::random_vector`, and the two parameters
`noise` and `hp_period` of `bayes_opt_boptimizer`. -/
structure Policies (R Model : Type) where
  dim_in : Nat
  dim_out : Nat
  sfun : VectorXd R → Option (VectorXd R)
  init : Bool → BOptimizer R Model → BOptimizer R Model
  stop : BOptimizer R Model → Bool
  acqui_optimizer : Model → Int → VectorXd R → Bool → VectorXd R
  random_vector : Nat → Nat → VectorXd R
  noise : R
  hp_period : Int

/-- A run of `optimize` at some point: the optimizer, the calls made so far, and the number
of random vectors drawn so far. -/
structure Run (R Model : Type) where
  bo : BOptimizer R Model
  calls : List (Call R Model)
  draws : Nat
deriving DecidableEq

/-- Modelled from the spec: the method `BoBase::eval_and_add`, which is missing from the
sources: the objective is evaluated at the input; when it signals a blacklisted input the
input is appended to the blacklist and the result is `false`, otherwise the input and the
observation are appended to the histories and the result is `true`. -/
def BOptimizer.eval_and_add {R Model : Type} (P : Policies R Model) (bo : BOptimizer R Model)
    (x : VectorXd R) : BOptimizer R Model × Bool :=
  match P.sfun x with
  | some y =>
    ({ bo with _samples := bo._samples ++ [x], _observations := bo._observations ++ [y] }, true)
  | none => ({ bo with _bl_samples := bo._bl_samples ++ [x] }, false)

/-- The statements of the loop body up to the inner optimizer: the random start and the
maximisation of the acquisition, with `bounded = true`. The result is the new sample. -/
def BOptimizer.propose {R Model : Type} (P : Policies R Model) (run : Run R Model) :
    Run R Model × VectorXd R :=
  let starting_point := P.random_vector run.draws P.dim_in
  let new_sample :=
    P.acqui_optimizer run.bo._model run.bo._current_iteration starting_point true
  ({ run with
      calls := run.calls ++
        [Call.random_vector P.dim_in, Call.acqui_optimizer starting_point true]
      draws := run.draws + 1 }, new_sample)

/-- The statements `blacklisted = !eval_and_add(sfun, new_sample)` and
`_update_stats(*this, afun, blacklisted)`. -/
def BOptimizer.evaluate {R Model : Type} (P : Policies R Model) (run : Run R Model)
    (new_sample : VectorXd R) : Run R Model × Bool :=
  let r := BOptimizer.eval_and_add P run.bo new_sample
  let blacklisted := !r.2
  ({ run with
      bo := r.1
      calls := run.calls ++ [Call.eval new_sample, Call.update_stats r.1 blacklisted] },
    blacklisted)

/-- The statement that extends the surrogate: `add_bl_sample` with the last blacklisted
input when the evaluation was blacklisted, `add_sample` with the last sample and the last
observation otherwise. Reading `back()` of an empty history is a failure. When the call
fails, `_model` is what the call left. -/
def BOptimizer.update_model {R Model : Type} (T : Model_t R Model) (P : Policies R Model)
    (run : Run R Model) (blacklisted : Bool) : Outcome (Run R Model) :=
  if blacklisted then
    match run.bo._bl_samples.getLast? with
    | none => Outcome.failed run
    | some b =>
      let run1 := { run with calls := run.calls ++ [Call.add_bl_sample b P.noise] }
      match T.add_bl_sample run.bo._model b P.noise with
      | Outcome.failed m => Outcome.failed { run1 with bo := { run.bo with _model := m } }
      | Outcome.done m => Outcome.done { run1 with bo := { run.bo with _model := m } }
  else
    match run.bo._samples.getLast?, run.bo._observations.getLast? with
    | some x, some y =>
      let run1 := { run with calls := run.calls ++ [Call.add_sample x y P.noise] }
      match T.add_sample run.bo._model x y P.noise with
      | Outcome.failed m => Outcome.failed { run1 with bo := { run.bo with _model := m } }
      | Outcome.done m => Outcome.done { run1 with bo := { run.bo with _model := m } }
    | _, _ => Outcome.failed run

/-- The statement `if (hp_period() > 0 && _current_iteration % hp_period() == 0)
_model.optimize_hyperparams();`, with the remainder of C++ (truncated division). -/
def BOptimizer.hyperparams {R Model : Type} (T : Model_t R Model) (P : Policies R Model)
    (run : Run R Model) : Outcome (Run R Model) :=
  if 0 < P.hp_period ∧ Int.tmod run.bo._current_iteration P.hp_period = 0 then
    let run1 := { run with calls := run.calls ++ [Call.optimize_hyperparams] }
    match T.optimize_hyperparams run.bo._model with
    | Outcome.failed m => Outcome.failed { run1 with bo := { run.bo with _model := m } }
    | Outcome.done m => Outcome.done { run1 with bo := { run.bo with _model := m } }
  else Outcome.done run

/-- The largest value of the type `int` of the two iteration counters (32 bits). -/
def INT_MAX : Int := 2147483647

/-- The statements `_current_iteration++; _total_iterations++;`. The counters are `int`s:
incrementing `INT_MAX` is undefined behaviour, which is a failure at that statement. -/
def BOptimizer.increment {R Model : Type} (run : Run R Model) : Outcome (Run R Model) :=
  if INT_MAX ≤ run.bo._current_iteration then Outcome.failed run
  else
    let run1 := { run with
      bo := { run.bo with _current_iteration := run.bo._current_iteration + 1 } }
    if INT_MAX ≤ run1.bo._total_iterations then Outcome.failed run1
    else
      Outcome.done { run1 with
        bo := { run1.bo with _total_iterations := run1.bo._total_iterations + 1 } }

/-- The body of the `while` loop of `optimize`. -/
def BOptimizer.iteration {R Model : Type} (T : Model_t R Model) (P : Policies R Model)
    (run : Run R Model) : Outcome (Run R Model) :=
  let p := BOptimizer.propose P run
  let e := BOptimizer.evaluate P p.1 p.2
  ((BOptimizer.update_model T P e.1 e.2).bind (BOptimizer.hyperparams T P)).bind
    BOptimizer.increment

/-- The `while (!_stop(*this, afun))` loop of `optimize`, with a bound on the number of
evaluations of the stop predicate; `none` when the bound is reached. -/
def BOptimizer.loop {R Model : Type} (T : Model_t R Model) (P : Policies R Model) :
    Nat → Run R Model → Option (Outcome (Run R Model))
  | 0, _ => none
  | fuel + 1, run =>
    if P.stop run.bo then
      some (Outcome.done { run with calls := run.calls ++ [Call.stop true] })
    else
      match BOptimizer.iteration T P { run with calls := run.calls ++ [Call.stop false] } with
      | Outcome.failed r => some (Outcome.failed r)
      | Outcome.done r => BOptimizer.loop T P fuel r

/-- The statements of `optimize` between `_init` and the loop: `compute` on the histories
when there is an observation, with the constant noise vector, a fresh model otherwise. -/
def BOptimizer.build_model {R Model : Type} (T : Model_t R Model) (P : Policies R Model)
    (run : Run R Model) : Outcome (Run R Model) :=
  if run.bo._observations.isEmpty = false then
    let noise := List.replicate run.bo._observations.length P.noise
    let run1 := { run with
      calls := run.calls ++
        [Call.model_compute run.bo._samples run.bo._observations noise run.bo._bl_samples] }
    match T.compute run.bo._model run.bo._samples run.bo._observations noise
        run.bo._bl_samples with
    | Outcome.failed m => Outcome.failed { run1 with bo := { run.bo with _model := m } }
    | Outcome.done m => Outcome.done { run1 with bo := { run.bo with _model := m } }
  else
    Outcome.done { run with
      bo := { run.bo with _model := T.make P.dim_in P.dim_out }
      calls := run.calls ++ [Call.model_new P.dim_in P.dim_out] }

/-- The method `BOptimizer::optimize(sfun, afun, reset)`, with a bound on the number of
evaluations of the stop predicate. -/
def BOptimizer.optimize {R Model : Type} (T : Model_t R Model) (P : Policies R Model)
    (fuel : Nat) (bo : BOptimizer R Model) (reset : Bool) : Option (Outcome (Run R Model)) :=
  match BOptimizer.build_model T P { bo := P.init reset bo, calls := [], draws := 0 } with
  | Outcome.failed r => some (Outcome.failed r)
  | Outcome.done r => BOptimizer.loop T P fuel r

/-- The loop of `optimize` unrolled: `k` times, the stop predicate answers `false` and the
body is executed. -/
def BOptimizer.iterations {R Model : Type} (T : Model_t R Model) (P : Policies R Model) :
    Nat → Run R Model → Outcome (Run R Model)
  | 0, run => Outcome.done run
  | k + 1, run =>
    (BOptimizer.iteration T P { run with calls := run.calls ++ [Call.stop false] }).bind
      (BOptimizer.iterations T P k)

/-- The run at the end of a piece of `optimize`, however it ended. -/
def Outcome.run {σ : Type} : Outcome σ → σ
  | Outcome.done s => s
  | Outcome.failed s => s

/-- The calls that extend the surrogate by one point. -/
def Call.is_update {R Model : Type} : Call R Model → Bool
  | Call.add_sample _ _ _ => true
  | Call.add_bl_sample _ _ => true
  | _ => false

/-- The evaluations of the stop predicate. -/
def Call.is_stop {R Model : Type} : Call R Model → Bool
  | Call.stop _ => true
  | _ => false

/-- The calls of the inner optimizer. -/
def Call.is_acqui_optimizer {R Model : Type} : Call R Model → Bool
  | Call.acqui_optimizer _ _ => true
  | _ => false

/-- The calls of the inner optimizer with `bounded = true`. -/
def Call.is_bounded_acqui_optimizer {R Model : Type} : Call R Model → Bool
  | Call.acqui_optimizer _ true => true
  | _ => false

/-- The evaluations of the objective, one per execution of the loop body. -/
def Call.is_eval {R Model : Type} : Call R Model → Bool
  | Call.eval _ => true
  | _ => false

/-- The calls of the full `compute` of the surrogate. -/
def Call.is_compute {R Model : Type} : Call R Model → Bool
  | Call.model_compute _ _ _ _ => true
  | _ => false

/-- A surrogate that only counts: the pair of the number of samples and the number of
blacklisted points it holds. Its `add_sample` fails once it holds `cap` samples, and then
leaves the counters at zero (a model that is no longer fitted). -/
def counting_model (cap : Nat) : Model_t Int (Nat × Nat) :=
  { make := fun _ _ => (0, 0)
    compute := fun _ S _ _ B => Outcome.done (S.length, B.length)
    add_sample := fun m _ _ _ =>
      if m.1 < cap then Outcome.done (m.1 + 1, m.2) else Outcome.failed (0, 0)
    add_bl_sample := fun m _ _ => Outcome.done (m.1, m.2 + 1)
    optimize_hyperparams := fun m => Outcome.done m }

/-- Example policies in dimension 1: the objective returns its input and signals the input
`[2]` as blacklisted; `_init` clears the histories and the current-iteration counter when
`reset` is set and samples nothing; the stop predicate is `max_iter <= _current_iteration`;
the inner optimizer returns the vector of the iteration counter plus one. -/
def example_policies (max_iter hp : Int) : Policies Int (Nat × Nat) :=
  { dim_in := 1
    dim_out := 1
    sfun := fun x => if x = [2] then none else some x
    init := fun reset bo =>
      if reset then
        { bo with _samples := [], _observations := [], _bl_samples := [],
                  _current_iteration := 0 }
      else bo
    stop := fun bo => decide (max_iter ≤ bo._current_iteration)
    acqui_optimizer := fun _ t _ _ => [t + 1]
    random_vector := fun _ d => List.replicate d 0
    noise := 0
    hp_period := hp }

/-- Example data: an optimizer before its first run. -/
def example_bo : BOptimizer Int (Nat × Nat) :=
  { _samples := [], _observations := [], _bl_samples := [], _current_iteration := 0,
    _total_iterations := 0, _model := (0, 0) }

/-- Example data: the run of `optimize` on `example_bo` when the loop is entered: the
histories are empty and the model is a fresh one. -/
def example_run0 : Run Int (Nat × Nat) :=
  { bo := example_bo, calls := [Call.model_new 1 1], draws := 0 }

/-- Example data: the optimizer that the stats hook is shown in the first iteration: the
new sample is in the histories, the model holds no point yet. -/
def example_shown : BOptimizer Int (Nat × Nat) :=
  { _samples := [[1]], _observations := [[1]], _bl_samples := [], _current_iteration := 0,
    _total_iterations := 0, _model := (0, 0) }

/-- Example data: `example_run0` after one execution of the loop body, with the counting
surrogate and `hp_period = 2`. -/
def example_run1 : Run Int (Nat × Nat) :=
  { bo := { _samples := [[1]], _observations := [[1]], _bl_samples := [],
            _current_iteration := 1, _total_iterations := 1, _model := (1, 0) }
    calls := [Call.model_new 1 1, Call.random_vector 1, Call.acqui_optimizer [0] true,
      Call.eval [1], Call.update_stats example_shown false, Call.add_sample [1] [1] 0,
      Call.optimize_hyperparams]
    draws := 1 }

/-- Example data: the run in which `optimize` ends when the surrogate refuses the first
sample (`counting_model 0`): the last call is the failed `add_sample`. -/
def example_failed : Run Int (Nat × Nat) :=
  { bo := example_shown
    calls := [Call.model_new 1 1, Call.stop false, Call.random_vector 1,
      Call.acqui_optimizer [0] true, Call.eval [1], Call.update_stats example_shown false,
      Call.add_sample [1] [1] 0]
    draws := 1 }

/-- Example data: `example_run0` after three executions of the loop body (the second
evaluation is blacklisted), with the counting surrogate, `hp_period = 2` and the stop
predicate `3 <= _current_iteration`. -/
def example_run3 : Run Int (Nat × Nat) :=
  { bo := { _samples := [[1], [3]], _observations := [[1], [3]], _bl_samples := [[2]],
            _current_iteration := 3, _total_iterations := 3, _model := (2, 1) }
    calls := [Call.model_new 1 1,
      Call.stop false, Call.random_vector 1, Call.acqui_optimizer [0] true, Call.eval [1],
      Call.update_stats example_shown false, Call.add_sample [1] [1] 0,
      Call.optimize_hyperparams,
      Call.stop false, Call.random_vector 1, Call.acqui_optimizer [0] true, Call.eval [2],
      Call.update_stats
        { _samples := [[1]], _observations := [[1]], _bl_samples := [[2]],
          _current_iteration := 1, _total_iterations := 1, _model := (1, 0) } true,
      Call.add_bl_sample [2] 0,
      Call.stop false, Call.random_vector 1, Call.acqui_optimizer [0] true, Call.eval [3],
      Call.update_stats
        { _samples := [[1], [3]], _observations := [[1], [3]], _bl_samples := [[2]],
          _current_iteration := 2, _total_iterations := 2, _model := (1, 1) } false,
      Call.add_sample [3] [3] 0, Call.optimize_hyperparams]
    draws := 3 }

/-! ### `init::RandomSampling` -/

/-- The calls that `RandomSampling` makes: the objective, and `add_new_sample` of the
optimizer. -/
inductive InitCall (R : Type) where
  | feval (x : VectorXd R)
  | add_new_sample (x y : VectorXd R)
deriving DecidableEq

/-- A run of `RandomSampling::operator()` at some point: the optimizer `opt`, the calls
made so far, and the number of draws of `tools::rand` made so far. -/
structure SamplingRun (R Opt : Type) where
  opt : Opt
  calls : List (InitCall R)
  draws : Nat

/-- The statements `Eigen::VectorXd new_sample(F::dim_in)` and the loop that assigns a draw
`tools::rand<double>(0, 1)` to every coordinate. The draws are taken from the stream `rand`
(`limbo/tools/rand.hpp` is not among the sources): the draw number `n` is `rand n`. -/
def RandomSampling.new_sample {R : Type} (rand : Nat → R) (dim_in : Nat) (draws : Nat) :
    Option (VectorXd R × Nat) :=
  (uninitialized (dim_in : Int)).bind fun v0 =>
  (for_loop 0 (dim_in : Int)
    (fun i (st : List (Option R) × Nat) =>
      (write_at st.1 i (rand st.2)).map fun v => (v, st.2 + 1))
    (v0, draws)).bind fun st =>
  (read_all st.1).map fun v => (v, st.2)

/-- The body of the loop of `RandomSampling::operator()`: a new sample is drawn, the
objective is evaluated at it, and the pair is given to `opt.add_new_sample`. -/
def RandomSampling.body {R Opt : Type} (rand : Nat → R) (dim_in : Nat)
    (feval : VectorXd R → VectorXd R) (add_new_sample : Opt → VectorXd R → VectorXd R → Opt)
    (_i : Nat) (run : SamplingRun R Opt) : Option (SamplingRun R Opt) :=
  (RandomSampling.new_sample rand dim_in run.draws).map fun s =>
    let y := feval s.1
    { opt := add_new_sample run.opt s.1 y
      calls := run.calls ++ [InitCall.feval s.1, InitCall.add_new_sample s.1 y]
      draws := s.2 }

/-- The functor `RandomSampling::operator()(feval, opt)`: the loop
`for (int i = 0; i < Params::init::nb_samples(); i++)`. -/
def RandomSampling.run {R Opt : Type} (rand : Nat → R) (nb_samples : Int) (dim_in : Nat)
    (feval : VectorXd R → VectorXd R) (add_new_sample : Opt → VectorXd R → VectorXd R → Opt)
    (run : SamplingRun R Opt) : Option (SamplingRun R Opt) :=
  for_loop 0 nb_samples (RandomSampling.body rand dim_in feval add_new_sample) run

/-- The calls made for a list of samples: for each, the objective at the sample, then
`add_new_sample` with the sample and the value of the objective at it. -/
def RandomSampling.calls_for {R : Type} (feval : VectorXd R → VectorXd R) :
    List (VectorXd R) → List (InitCall R)
  | [] => []
  | x :: xs =>
    InitCall.feval x :: InitCall.add_new_sample x (feval x) :: RandomSampling.calls_for feval xs

/-- Modelled from the spec: the method `BoBase::add_new_sample`, which is missing from the
sources: the input and the observation are appended to the histories. -/
def BOptimizer.add_new_sample {R Model : Type} (bo : BOptimizer R Model)
    (x y : VectorXd R) : BOptimizer R Model :=
  { bo with _samples := bo._samples ++ [x], _observations := bo._observations ++ [y] }

/-! ### `opt::GridSearch` -/

/-- Modelled from the spec: the grid of the inner optimizer `opt::GridSearch`
(`limbo/opt/grid_search.hpp` is missing from the sources) for a one-dimensional objective:
the uniform grid with `bins` bins on the unit interval, that is the points `k / bins` for
`k = 0, ..., bins`, as vectors of one coefficient. -/
def GridSearch.grid {K : Type} [LinearOrderedField K] (bins : Nat) : List (VectorXd K) :=
  (List.range (bins + 1)).map fun (k : Nat) => [(k : K) / (bins : K)]

/-- Modelled from the spec: the evaluations of the objective by `opt::GridSearch`, which is
missing from the sources: one at each point of the grid, in the order of the grid. -/
def GridSearch.evaluations {K : Type} [LinearOrderedField K] (f : VectorXd K → K)
    (bins : Nat) : List K :=
  (GridSearch.grid bins).map f

/-- Modelled from the spec: the result of `opt::GridSearch`, which is missing from the
sources: the arg-max over the grid, the first grid point among those of largest value. -/
def GridSearch.search {K : Type} [LinearOrderedField K] (f : VectorXd K → K)
    (bins : Nat) : Option (VectorXd K) :=
  (GridSearch.grid bins)[max_element (GridSearch.evaluations f bins)]?

/-- The objective `acqui_mono` of `tests/test_optimizers.cpp`: `3 * v(0) + 5`. -/
def acqui_mono {K : Type} [LinearOrderedField K] (v : VectorXd K) : K :=
  3 * v.headD 0 + 5

/-! ## Theorems -/

/-- The scan returns an index in range, at which the value is maximal; everything before
that index (from the scan on) is strictly smaller. -/
theorem max_element_scan_spec {K : Type} [LinearOrder K] (rest : List K) :
    ∀ (pre : List K) (largest : Nat) (lv : K),
      largest < pre.length → pre[largest]? = some lv →
      (∀ (j : Nat) (x : K), pre[j]? = some x → x ≤ lv) →
      (∀ (j : Nat) (x : K), j < largest → pre[j]? = some x → x < lv) →
      ∃ i v, max_element_scan largest lv pre.length rest = i ∧
        i < (pre ++ rest).length ∧ (pre ++ rest)[i]? = some v ∧
        (∀ (j : Nat) (x : K), (pre ++ rest)[j]? = some x → x ≤ v) ∧
        (∀ (j : Nat) (x : K), j < i → (pre ++ rest)[j]? = some x → x < v) := by
  induction rest with
  | nil =>
    intro pre largest lv hlt hget hmax hfirst
    refine ⟨largest, lv, rfl, ?_, ?_, ?_, ?_⟩
    · simpa using hlt
    · simpa using hget
    · simpa using hmax
    · simpa using hfirst
  | cons r rest ih =>
    intro pre largest lv hlt hget hmax hfirst
    have hlen : (pre ++ [r]).length = pre.length + 1 := by simp
    have happ : pre ++ r :: rest = (pre ++ [r]) ++ rest := by simp
    by_cases hr : lv < r
    · have h := ih (pre ++ [r]) pre.length r (by simp) (by simp) ?_ ?_
      · rw [hlen] at h
        simp only [max_element_scan, hr, if_true]
        rw [happ]
        exact h
      · intro j x hj
        rcases Nat.lt_or_ge j pre.length with hjl | hjl
        · rw [List.getElem?_append_left hjl] at hj
          exact le_of_lt (lt_of_le_of_lt (hmax j x hj) hr)
        · rw [List.getElem?_append_right hjl] at hj
          rcases Nat.eq_or_lt_of_le hjl with he | hl
          · rw [← he] at hj
            simp at hj
            exact le_of_eq hj.symm
          · have : j - pre.length ≠ 0 := by omega
            obtain ⟨k, hk⟩ := Nat.exists_eq_succ_of_ne_zero this
            rw [hk] at hj
            simp at hj
      · intro j x hjl hj
        rw [List.getElem?_append_left hjl] at hj
        exact lt_of_le_of_lt (hmax j x hj) hr
    · have hle : r ≤ lv := not_lt.mp hr
      have h := ih (pre ++ [r]) largest lv (by simp; omega)
        (by rw [List.getElem?_append_left hlt]; exact hget) ?_ ?_
      · rw [hlen] at h
        simp only [max_element_scan, hr, if_false]
        rw [happ]
        exact h
      · intro j x hj
        rcases Nat.lt_or_ge j pre.length with hjl | hjl
        · rw [List.getElem?_append_left hjl] at hj
          exact hmax j x hj
        · rw [List.getElem?_append_right hjl] at hj
          rcases Nat.eq_or_lt_of_le hjl with he | hl
          · rw [← he] at hj
            simp at hj
            rw [← hj]
            exact hle
          · have : j - pre.length ≠ 0 := by omega
            obtain ⟨k, hk⟩ := Nat.exists_eq_succ_of_ne_zero this
            rw [hk] at hj
            simp at hj
      · intro j x hjl hj
        rw [List.getElem?_append_left (by omega)] at hj
        exact hfirst j x hjl hj

/-- On a non-empty range `max_element` is the first index of a largest element. -/
theorem max_element_spec {K : Type} [LinearOrder K] (l : List K) (hne : l ≠ []) :
    ∃ v, max_element l < l.length ∧ l[max_element l]? = some v ∧
      (∀ (j : Nat) (x : K), l[j]? = some x → x ≤ v) ∧
      (∀ (j : Nat) (x : K), j < max_element l → l[j]? = some x → x < v) := by
  cases l with
  | nil => exact absurd rfl hne
  | cons r rest =>
    obtain ⟨i, v, hi, hlt, hget, hmax, hfirst⟩ :=
      max_element_scan_spec rest [r] 0 r (by simp) (by simp)
        (by
          intro j x hj
          cases j with
          | zero => simp at hj; exact le_of_eq hj.symm
          | succ k => simp at hj)
        (by intro j x hj; omega)
    have hi0 : max_element (r :: rest) = i := by
      simpa [max_element] using hi
    rw [hi0]
    exact ⟨v, by simpa using hlt, by simpa using hget, by simpa using hmax,
      by simpa using hfirst⟩

/-! ### The order of `double` -/

/-- The sign goes through the scaling of the magnitude. -/
theorem signed_mul (s : Bool) (m k : Nat) :
    Double.signed s (m * k) = Double.signed s m * (k : Int) := by
  unfold Double.signed
  cases s <;> simp

/-- The value of an integer scaled to the smaller of two exponents. -/
theorem scaled_value (z e1 e2 : Int) (h : e2 ≤ e1) :
    (((z * ((2 ^ (e1 - e2).toNat : Nat) : Int) : Int) : ℚ)) * (2 : ℚ) ^ e2
      = (z : ℚ) * (2 : ℚ) ^ e1 := by
  have h1 : e1 = ((e1 - e2).toNat : Int) + e2 := by
    rw [Int.toNat_of_nonneg (by omega)]
    omega
  have h2 : (2 : ℚ) ^ e1 = (2 : ℚ) ^ (e1 - e2).toNat * (2 : ℚ) ^ e2 := by
    conv_lhs => rw [h1]
    rw [zpow_add₀ (by norm_num), zpow_natCast]
  rw [h2]
  push_cast
  ring

/-- The comparison of two finite doubles, made on integers at the smaller exponent, is the
comparison of their values. -/
theorem scaled_lt_iff (z1 z2 e1 e2 : Int) :
    z1 * ((2 ^ (e1 - min e1 e2).toNat : Nat) : Int)
        < z2 * ((2 ^ (e2 - min e1 e2).toNat : Nat) : Int) ↔
      (z1 : ℚ) * (2 : ℚ) ^ e1 < (z2 : ℚ) * (2 : ℚ) ^ e2 := by
  rw [← scaled_value z1 e1 (min e1 e2) (min_le_left _ _),
    ← scaled_value z2 e2 (min e1 e2) (min_le_right _ _)]
  rw [mul_lt_mul_right (zpow_pos (by norm_num) _)]
  exact Int.cast_lt.symm

/-- The comparison `<=` of two finite doubles is the comparison of their values. -/
theorem scaled_le_iff (z1 z2 e1 e2 : Int) :
    z1 * ((2 ^ (e1 - min e1 e2).toNat : Nat) : Int)
        ≤ z2 * ((2 ^ (e2 - min e1 e2).toNat : Nat) : Int) ↔
      (z1 : ℚ) * (2 : ℚ) ^ e1 ≤ (z2 : ℚ) * (2 : ℚ) ^ e2 := by
  rw [← scaled_value z1 e1 (min e1 e2) (min_le_left _ _),
    ← scaled_value z2 e2 (min e1 e2) (min_le_right _ _)]
  rw [mul_le_mul_right (zpow_pos (by norm_num) _)]
  exact Int.cast_le.symm

/-- On doubles that are not NaN, `<` is the strict order of the values. -/
theorem double_lt_iff (a b : Double) (ha : a ≠ Double.nan) (hb : b ≠ Double.nan) :
    Double.lt a b = true ↔ a.key < b.key := by
  cases a with
  | nan => exact absurd rfl ha
  | inf sa =>
    cases b with
    | nan => exact absurd rfl hb
    | inf sb => cases sa <;> cases sb <;> simp [Double.lt, Double.key]
    | finite sb mb eb =>
      cases sa
      · simp [Double.lt, Double.key]
      · simp only [Double.lt, Double.key, true_iff]
        exact WithBot.bot_lt_coe _
  | finite sa ma ea =>
    cases b with
    | nan => exact absurd rfl hb
    | inf sb =>
      cases sb
      · simp only [Double.lt, Double.key, Bool.not_false, true_iff, WithBot.coe_lt_coe]
        exact WithTop.coe_lt_top _
      · simp [Double.lt, Double.key]
    | finite sb mb eb =>
      simp only [Double.lt, Double.key, decide_eq_true_eq, WithBot.coe_lt_coe,
        WithTop.coe_lt_coe, signed_mul]
      exact scaled_lt_iff _ _ _ _

/-- On doubles that are not NaN, `<=` is the order of the values. -/
theorem double_le_iff (a b : Double) (ha : a ≠ Double.nan) (hb : b ≠ Double.nan) :
    Double.le a b = true ↔ a.key ≤ b.key := by
  cases a with
  | nan => exact absurd rfl ha
  | inf sa =>
    cases b with
    | nan => exact absurd rfl hb
    | inf sb => cases sa <;> cases sb <;> simp [Double.le, Double.key]
    | finite sb mb eb =>
      cases sa
      · simp only [Double.le, Double.key, Bool.false_eq_true, false_iff,
          WithBot.coe_le_coe, top_le_iff]
        exact WithTop.coe_ne_top
      · simp [Double.le, Double.key]
  | finite sa ma ea =>
    cases b with
    | nan => exact absurd rfl hb
    | inf sb =>
      cases sb
      · simp only [Double.le, Double.key, Bool.not_false, true_iff, WithBot.coe_le_coe]
        exact le_top
      · simp only [Double.le, Double.key, Bool.not_true, Bool.false_eq_true, false_iff,
          le_bot_iff]
        exact WithBot.coe_ne_bot
    | finite sb mb eb =>
      simp only [Double.le, Double.key, decide_eq_true_eq, WithBot.coe_le_coe,
        WithTop.coe_le_coe, signed_mul]
      exact scaled_le_iff _ _ _ _

/-- On a range without NaN, the scan of `std::max_element` on the doubles is the scan on
their values. -/
theorem double_max_element_scan_key (rest : List Double) :
    ∀ (largest first : Nat) (lv : Double), lv ≠ Double.nan →
      (∀ (r : Double), r ∈ rest → r ≠ Double.nan) →
      Double.max_element_scan largest lv first rest
        = max_element_scan largest lv.key first (rest.map Double.key) := by
  induction rest with
  | nil =>
    intro largest first lv _ _
    rfl
  | cons r rest ih =>
    intro largest first lv hlv hrest
    have hr : r ≠ Double.nan := hrest r (List.mem_cons_self _ _)
    have hrest2 : ∀ (x : Double), x ∈ rest → x ≠ Double.nan :=
      fun x hx => hrest x (List.mem_cons_of_mem _ hx)
    simp only [Double.max_element_scan, List.map_cons, max_element_scan]
    by_cases hlt : Double.lt lv r = true
    · have hk : lv.key < r.key := (double_lt_iff lv r hlv hr).mp hlt
      simp only [hlt, hk, if_true]
      exact ih first (first + 1) r hr hrest2
    · have hk : ¬ lv.key < r.key := fun h => hlt ((double_lt_iff lv r hlv hr).mpr h)
      simp only [hlt, hk, if_false]
      exact ih largest (first + 1) lv hlv hrest2

/-- On a range without NaN, `std::max_element` on the doubles is `std::max_element` on
their values. -/
theorem double_max_element_key (l : List Double)
    (h : ∀ (r : Double), r ∈ l → r ≠ Double.nan) :
    Double.max_element l = max_element (l.map Double.key) := by
  cases l with
  | nil => rfl
  | cons r rest =>
    simp only [Double.max_element, List.map_cons, max_element]
    exact double_max_element_scan_key rest 0 1 r (h r (List.mem_cons_self _ _))
      (fun x hx => h x (List.mem_cons_of_mem _ hx))

/-! ### The best-so-far accessors -/

/-- C1, as amended: for an optimizer with a non-empty observation history `Y`, a sample
history `S` of the same length and an aggregator `afun` none of whose rewards on `Y` is NaN,
`best_observation` returns `Y[i]` and `best_sample` returns `S[i]` for one and the same
index `i`, at which the reward `afun (Y[i])` is `>=` every reward and strictly above every
reward at a smaller index (arg-max, first occurrence). -/
theorem best_observation_best_sample_argmax {R Model : Type}
    (afun : VectorXd R → Double) (bo : BOptimizer R Model)
    (hne : bo._observations ≠ []) (hlen : bo._samples.length = bo._observations.length)
    (hnan : ∀ (y : VectorXd R), y ∈ bo._observations → afun y ≠ Double.nan) :
    ∃ (i : Nat) (y s : VectorXd R), i < bo._observations.length ∧
      bo._observations[i]? = some y ∧ bo._samples[i]? = some s ∧
      bo.best_observation afun = some y ∧ bo.best_sample afun = some s ∧
      (∀ (j : Nat) (yj : VectorXd R), bo._observations[j]? = some yj →
        Double.le (afun yj) (afun y) = true) ∧
      (∀ (j : Nat) (yj : VectorXd R), j < i → bo._observations[j]? = some yj →
        Double.lt (afun yj) (afun y) = true) := by
  have hnan2 : ∀ (r : Double), r ∈ bo.rewards afun → r ≠ Double.nan := by
    intro r hr
    simp only [BOptimizer.rewards, List.mem_map] at hr
    obtain ⟨y, hy, hry⟩ := hr
    rw [← hry]
    exact hnan y hy
  have hidx : bo.best_index afun = max_element ((bo.rewards afun).map Double.key) :=
    double_max_element_key _ hnan2
  have hne2 : (bo.rewards afun).map Double.key ≠ [] := by
    simpa [BOptimizer.rewards] using hne
  obtain ⟨v, hlt, hget, hmax, hfirst⟩ := max_element_spec _ hne2
  rw [← hidx] at hlt hget hfirst
  have hltY : bo.best_index afun < bo._observations.length := by
    simpa [BOptimizer.rewards] using hlt
  have hltS : bo.best_index afun < bo._samples.length := by omega
  have hv : (afun (bo._observations[bo.best_index afun])).key = v := by
    simpa [BOptimizer.rewards, List.getElem?_eq_getElem hltY] using hget
  have hmem : bo._observations[bo.best_index afun] ∈ bo._observations :=
    List.getElem_mem _
  refine ⟨bo.best_index afun, bo._observations[bo.best_index afun],
    bo._samples[bo.best_index afun], hltY, List.getElem?_eq_getElem hltY,
    List.getElem?_eq_getElem hltS, List.getElem?_eq_getElem hltY,
    List.getElem?_eq_getElem hltS, ?_, ?_⟩
  · intro j yj hj
    have hyj : yj ∈ bo._observations := List.getElem?_mem hj
    rw [double_le_iff _ _ (hnan yj hyj) (hnan _ hmem), hv]
    apply hmax j
    simp [BOptimizer.rewards, hj]
  · intro j yj hji hj
    have hyj : yj ∈ bo._observations := List.getElem?_mem hj
    rw [double_lt_iff _ _ (hnan yj hyj) (hnan _ hmem), hv]
    apply hfirst j _ hji
    simp [BOptimizer.rewards, hj]

/-- C1 on example data: with the rewards 3, 5, 5 both accessors use the index 1, the first
of the two largest rewards. -/
theorem best_observation_best_sample_argmax_witness :
    example_best._observations ≠ [] ∧
    example_best._samples.length = example_best._observations.length ∧
    (∀ (y : VectorXd Double), y ∈ example_best._observations →
      Double.FirstElem y ≠ Double.nan) ∧
    example_best.best_index Double.FirstElem = 1 ∧
    example_best.best_observation Double.FirstElem = some [Double.of_int 5] ∧
    example_best.best_sample Double.FirstElem = some [Double.of_int 20] ∧
    ∃ (i : Nat) (y s : VectorXd Double), i < example_best._observations.length ∧
      example_best._observations[i]? = some y ∧ example_best._samples[i]? = some s ∧
      example_best.best_observation Double.FirstElem = some y ∧
      example_best.best_sample Double.FirstElem = some s ∧
      (∀ (j : Nat) (yj : VectorXd Double), example_best._observations[j]? = some yj →
        Double.le (Double.FirstElem yj) (Double.FirstElem y) = true) ∧
      (∀ (j : Nat) (yj : VectorXd Double), j < i →
        example_best._observations[j]? = some yj →
        Double.lt (Double.FirstElem yj) (Double.FirstElem y) = true) :=
  ⟨by decide, by decide, by decide, by decide, by decide, by decide,
    best_observation_best_sample_argmax Double.FirstElem example_best (by decide)
      (by decide) (by decide)⟩

/-- C1 fails as stated: with the rewards NaN, 3, 5 every comparison of the scan with the
first reward is false, so both accessors use the index 0, although the reward there is not
`>=` the reward 3 at index 1 (nor any other); the largest reward, 5, is at index 2. -/
theorem best_observation_nan_counterexample :
    example_nan._observations ≠ [] ∧
    example_nan._samples.length = example_nan._observations.length ∧
    example_nan.rewards Double.FirstElem = [Double.nan, Double.of_int 3, Double.of_int 5] ∧
    example_nan.best_index Double.FirstElem = 0 ∧
    example_nan.best_observation Double.FirstElem = some [Double.nan] ∧
    example_nan.best_sample Double.FirstElem = some [Double.of_int 10] ∧
    Double.le (Double.of_int 3) Double.nan = false ∧
    Double.le (Double.of_int 3) (Double.of_int 5) = true ∧
    Double.le Double.nan (Double.of_int 5) = false ∧
    ¬ ∃ (i : Nat), i < 3 ∧ ∀ (j : Nat), j < 3 →
      ∃ (ri rj : Double), (example_nan.rewards Double.FirstElem)[i]? = some ri ∧
        (example_nan.rewards Double.FirstElem)[j]? = some rj ∧ Double.le rj ri = true := by
  refine ⟨by decide, by decide, by decide, by decide, by decide, by decide, by decide,
    by decide, by decide, ?_⟩
  rintro ⟨i, hi, h⟩
  obtain ⟨ri, rj, hri, hrj, hle⟩ := h 0 (by omega)
  have hrj2 : rj = Double.nan := by
    have h0 : (example_nan.rewards Double.FirstElem)[0]? = some Double.nan := by decide
    rw [h0] at hrj
    exact (Option.some.inj hrj).symm
  rw [hrj2] at hle
  cases ri <;> cases hle

/-! ### Loops -/

/-- One in-place update succeeds exactly when the element exists and its update succeeds. -/
theorem update_at_eq_some {α : Type} (l l2 : List α) (i : Nat) (f : α → Option α) :
    update_at l i f = some l2 ↔ ∃ a b, l[i]? = some a ∧ f a = some b ∧ l2 = l.set i b := by
  unfold update_at
  cases h : l[i]? with
  | none => simp
  | some a =>
    cases hf : f a with
    | none => simp [hf]
    | some b => simp [hf, eq_comm]

/-- A loop that updates element `i` in iteration `i` succeeds when each of the elements
exists at the start and its update succeeds. -/
theorem loop_update_at_succeeds {α : Type} (F : Nat → α → Option α) :
    ∀ (n b : Nat) (l : List α),
      (∀ (i : Nat), b ≤ i → i < b + n → ∃ a c, l[i]? = some a ∧ F i a = some c) →
      ∃ l2, loop_over (fun i o => update_at o i (F i)) (List.range' b n) l = some l2 := by
  intro n
  induction n with
  | zero =>
    intro b l _
    exact ⟨l, rfl⟩
  | succ n ih =>
    intro b l h
    obtain ⟨a, c, ha, hc⟩ := h b (Nat.le_refl _) (by omega)
    have hupd : update_at l b (F b) = some (l.set b c) := by
      simp [update_at, ha, hc]
    obtain ⟨l2, hl2⟩ := ih (b + 1) (l.set b c) (by
      intro i hi1 hi2
      obtain ⟨a2, c2, ha2, hc2⟩ := h i (by omega) (by omega)
      exact ⟨a2, c2, by rw [List.getElem?_set_ne (by omega)]; exact ha2, hc2⟩)
    refine ⟨l2, ?_⟩
    rw [List.range'_succ]
    simp only [loop_over, hupd, Option.some_bind]
    exact hl2

/-- A loop that updates element `i` in iteration `i`, over the indices `b, ..., b + n - 1`:
it succeeds exactly when each of these elements exists and its update succeeds, and then it
has replaced each of them by its update and left the others alone. -/
theorem loop_update_at_iff {α : Type} (F : Nat → α → Option α) :
    ∀ (n b : Nat) (l l2 : List α),
      loop_over (fun i o => update_at o i (F i)) (List.range' b n) l = some l2 ↔
        (∀ (i : Nat), b ≤ i → i < b + n →
            ∃ a c, l[i]? = some a ∧ F i a = some c ∧ l2[i]? = some c) ∧
          (∀ (i : Nat), (i < b ∨ b + n ≤ i) → l2[i]? = l[i]?) := by
  intro n
  induction n with
  | zero =>
    intro b l l2
    simp only [List.range'_zero, loop_over, Option.some.injEq]
    constructor
    · intro h
      subst h
      exact ⟨fun i h1 h2 => by omega, fun i _ => rfl⟩
    · rintro ⟨_, h⟩
      exact (List.ext_getElem? (fun i => h i (by omega))).symm
  | succ n ih =>
    intro b l l2
    rw [List.range'_succ]
    simp only [loop_over, Option.bind_eq_some, update_at_eq_some]
    constructor
    · rintro ⟨m, ⟨a, c, ha, hc, hm⟩, hloop⟩
      obtain ⟨h1, h2⟩ := (ih (b + 1) m l2).mp hloop
      have hb : b < l.length := by
        rcases List.getElem?_eq_some.mp ha with ⟨h, _⟩
        exact h
      constructor
      · intro i hbi hin
        rcases Nat.eq_or_lt_of_le hbi with he | hl
        · subst he
          refine ⟨a, c, ha, hc, ?_⟩
          rw [h2 b (by omega), hm]
          exact List.getElem?_set_self hb
        · obtain ⟨a2, c2, ha2, hc2, hl2⟩ := h1 i (by omega) (by omega)
          refine ⟨a2, c2, ?_, hc2, hl2⟩
          rw [hm, List.getElem?_set_ne (by omega)] at ha2
          exact ha2
      · intro i hi
        rw [h2 i (by omega), hm, List.getElem?_set_ne (by omega)]
    · rintro ⟨h1, h2⟩
      obtain ⟨a, c, ha, hc, hl2⟩ := h1 b (by omega) (by omega)
      have hb : b < l.length := by
        rcases List.getElem?_eq_some.mp ha with ⟨h, _⟩
        exact h
      refine ⟨l.set b c, ⟨a, c, ha, hc, rfl⟩, ?_⟩
      apply (ih (b + 1) (l.set b c) l2).mpr
      constructor
      · intro i hbi hin
        obtain ⟨a2, c2, ha2, hc2, hl2i⟩ := h1 i (by omega) (by omega)
        refine ⟨a2, c2, ?_, hc2, hl2i⟩
        rw [List.getElem?_set_ne (by omega)]
        exact ha2
      · intro i hi
        rcases Nat.lt_or_ge i b with hlt | hge
        · rw [List.getElem?_set_ne (by omega)]
          exact h2 i (by omega)
        · rcases Nat.eq_or_lt_of_le hge with he | hl
          · subst he
            rw [hl2]
            exact (List.getElem?_set_self hb).symm
          · rw [List.getElem?_set_ne (by omega)]
            exact h2 i (by omega)

/-- The update loop keeps the length of the vector. -/
theorem loop_update_at_length {α : Type} (F : Nat → α → Option α) :
    ∀ (n b : Nat) (l l2 : List α),
      loop_over (fun i o => update_at o i (F i)) (List.range' b n) l = some l2 →
      l2.length = l.length := by
  intro n
  induction n with
  | zero =>
    intro b l l2 h
    simp only [List.range'_zero, loop_over, Option.some.injEq] at h
    rw [h]
  | succ n ih =>
    intro b l l2 h
    rw [List.range'_succ] at h
    simp only [loop_over, Option.bind_eq_some, update_at_eq_some] at h
    obtain ⟨m, ⟨a, c, _, _, hm⟩, hloop⟩ := h
    rw [ih (b + 1) m l2 hloop, hm, List.length_set]

/-- Invariant rule for a loop over `b, ..., b + n - 1`: a result satisfies the invariant. -/
theorem loop_over_invariant {σ : Type} (body : Nat → σ → Option σ) (Inv : Nat → σ → Prop) :
    ∀ (n b : Nat) (s s2 : σ), Inv b s →
      (∀ (k : Nat) (t t2 : σ), b ≤ k → k < b + n → Inv k t → body k t = some t2 →
        Inv (k + 1) t2) →
      loop_over body (List.range' b n) s = some s2 → Inv (b + n) s2 := by
  intro n
  induction n with
  | zero =>
    intro b s s2 h0 _ h
    simp only [List.range'_zero, loop_over, Option.some.injEq] at h
    rw [← h]
    exact h0
  | succ n ih =>
    intro b s s2 h0 hstep h
    rw [List.range'_succ] at h
    simp only [loop_over, Option.bind_eq_some] at h
    obtain ⟨m, hm, hloop⟩ := h
    have h1 : Inv (b + 1) m := hstep b s m (Nat.le_refl _) (by omega) h0 hm
    have h2 := ih (b + 1) m s2 h1
      (fun k t t2 hk1 hk2 => hstep k t t2 (by omega) (by omega)) hloop
    have he : b + 1 + n = b + (n + 1) := by omega
    rw [← he]
    exact h2

/-- Invariant rule for a loop over `b, ..., b + n - 1`: when every step succeeds from a
state that satisfies the invariant, the loop succeeds. -/
theorem loop_over_succeeds {σ : Type} (body : Nat → σ → Option σ) (Inv : Nat → σ → Prop) :
    ∀ (n b : Nat) (s : σ), Inv b s →
      (∀ (k : Nat) (t : σ), b ≤ k → k < b + n → Inv k t →
        ∃ t2, body k t = some t2 ∧ Inv (k + 1) t2) →
      ∃ s2, loop_over body (List.range' b n) s = some s2 ∧ Inv (b + n) s2 := by
  intro n
  induction n with
  | zero =>
    intro b s h0 _
    exact ⟨s, by simp [loop_over], h0⟩
  | succ n ih =>
    intro b s h0 hstep
    obtain ⟨m, hm, h1⟩ := hstep b s (Nat.le_refl _) (by omega) h0
    obtain ⟨s2, hs2, h2⟩ := ih (b + 1) m h1
      (fun k t hk1 hk2 => hstep k t (by omega) (by omega))
    refine ⟨s2, ?_, ?_⟩
    · rw [List.range'_succ]
      simp only [loop_over, hm, Option.some_bind]
      exact hs2
    · have he : b + 1 + n = b + (n + 1) := by omega
      rw [← he]
      exact h2

/-- The loop `par::loop(0, e, f)` succeeds only for a bound that is not negative, and is
then the loop over `0, ..., e - 1`. -/
theorem par_loop_eq_some {σ : Type} (e : Int) (body : Nat → σ → Option σ) (s s2 : σ) :
    par_loop 0 e body s = some s2 ↔
      0 ≤ e ∧ loop_over body (List.range' 0 e.toNat) s = some s2 := by
  unfold par_loop
  by_cases h : e < 0
  · simp [h]
  · simp only [h, if_false, Nat.sub_zero]
    constructor
    · intro h2
      exact ⟨by omega, h2⟩
    · intro h2
      exact h2.2

/-! ### The residuals computed by `compute` -/

/-- The inner loop of `compute` appends to each of the first `dim_out` columns the residual
of its coefficient, and fails when a coefficient or a column is missing. -/
theorem push_residuals_eq_some {R : Type} [Sub R] (d : Int) (y mv : VectorXd R)
    (obs obs2 : List (List (VectorXd R))) :
    push_residuals d y mv obs = some obs2 ↔
      (∀ (i : Nat), i < d.toNat →
          ∃ col r, obs[i]? = some col ∧ residual y mv i = some r ∧
            obs2[i]? = some (col ++ [r])) ∧
        (∀ (i : Nat), d.toNat ≤ i → obs2[i]? = obs[i]?) := by
  unfold push_residuals for_loop
  rw [Nat.sub_zero, loop_update_at_iff]
  constructor
  · rintro ⟨h1, h2⟩
    refine ⟨?_, fun i hi => h2 i (Or.inr (by omega))⟩
    intro i hi
    obtain ⟨col, c, hcol, hc, hc2⟩ := h1 i (Nat.zero_le _) (by omega)
    cases hr : residual y mv i with
    | none => simp [hr] at hc
    | some r =>
      simp only [hr, Option.map_some', Option.some.injEq] at hc
      exact ⟨col, r, hcol, rfl, by rw [hc2, hc]⟩
  · rintro ⟨h1, h2⟩
    refine ⟨?_, ?_⟩
    · intro i _ hi
      obtain ⟨col, r, hcol, hr, hc2⟩ := h1 i (by omega)
      exact ⟨col, col ++ [r], hcol, by simp [hr], hc2⟩
    · intro i hi
      rcases hi with hi | hi
      · omega
      · exact h2 i (by omega)

/-- The residual exists exactly when both coefficients do. -/
theorem residual_eq_some {R : Type} [Sub R] (y mv : VectorXd R) (i : Nat) (r : VectorXd R) :
    residual y mv i = some r ↔ ∃ a b, y[i]? = some a ∧ mv[i]? = some b ∧ r = [a - b] := by
  unfold residual make_vector
  cases hy : y[i]? with
  | none => simp
  | some a =>
    cases hm : mv[i]? with
    | none => simp
    | some b => simp [eq_comm]

/-- The columns before any observation is treated. -/
theorem obsRows_zero {R MF : Type} [Sub R] (M : MeanFunction R MF) (g : MultiGP R MF)
    (S Y : List (VectorXd R)) (d : Nat) :
    ObsRows M g S Y d 0 (List.replicate d []) := by
  refine ⟨by simp, fun j hj => by omega, ?_⟩
  intro i hi
  refine ⟨[], by simp [List.getElem?_replicate, hi], rfl, ?_⟩
  intro j hj
  omega

/-- One observation more: the columns after `push_residuals`. -/
theorem obsRows_step {R MF : Type} [Sub R] (M : MeanFunction R MF) (g : MultiGP R MF)
    (S Y : List (VectorXd R)) (k : Nat) (s y : VectorXd R)
    (obs obs2 : List (List (VectorXd R)))
    (hs : S[k]? = some s) (hy : Y[k]? = some y)
    (hm : (M.call g._mean_function s g).length = g._dim_out.toNat)
    (hinv : ObsRows M g S Y g._dim_out.toNat k obs)
    (hpush : push_residuals g._dim_out y (M.call g._mean_function s g) obs = some obs2) :
    ObsRows M g S Y g._dim_out.toNat (k + 1) obs2 := by
  have hlen : obs2.length = obs.length := by
    unfold push_residuals for_loop at hpush
    exact loop_update_at_length _ _ _ _ _ hpush
  obtain ⟨h1, h2⟩ := (push_residuals_eq_some _ _ _ _ _).mp hpush
  obtain ⟨hl, hmeans, hcols⟩ := hinv
  refine ⟨by rw [hlen, hl], ?_, ?_⟩
  · intro j hj
    rcases Nat.lt_or_ge j k with hjk | hjk
    · exact hmeans j hjk
    · have hjk2 : j = k := by omega
      subst hjk2
      exact ⟨s, hs, hm⟩
  intro i hi
  obtain ⟨col, r, hcol, hr, hcol2⟩ := h1 i hi
  obtain ⟨col0, hcol0, hlen0, hrows⟩ := hcols i hi
  rw [hcol] at hcol0
  cases hcol0
  refine ⟨col ++ [r], hcol2, by simp [hlen0], ?_⟩
  intro j hj
  rcases Nat.lt_or_ge j k with hjk | hjk
  · obtain ⟨s1, y1, r1, hs1, hy1, hr1, hc1⟩ := hrows j hjk
    refine ⟨s1, y1, r1, hs1, hy1, hr1, ?_⟩
    rw [List.getElem?_append_left (by omega)]
    exact hc1
  · have hjk2 : j = k := by omega
    subst hjk2
    refine ⟨s, y, r, hs, hy, hr, ?_⟩
    rw [List.getElem?_append_right (by omega)]
    simp [hlen0]

/-- What `compute` has in `obs` after its loop over the observations. -/
theorem compute_obs_spec {R MF : Type} [Sub R] (M : MeanFunction R MF) (g : MultiGP R MF)
    (S Y : List (VectorXd R)) (obs : List (List (VectorXd R)))
    (h : MultiGP.compute_obs M g S Y = some obs) :
    ObsRows M g S Y g._dim_out.toNat Y.length obs := by
  unfold MultiGP.compute_obs for_loop at h
  simp only [Int.toNat_ofNat, Nat.sub_zero] at h
  have h2 := loop_over_invariant _ (fun k o => ObsRows M g S Y g._dim_out.toNat k o)
    Y.length 0 _ obs (obsRows_zero M g S Y _) ?_ h
  · simpa using h2
  · intro k t t2 _ _ hinv hbody
    unfold MultiGP.compute_obs_body at hbody
    cases hs : S[k]? with
    | none => simp [hs] at hbody
    | some s =>
      cases hy : Y[k]? with
      | none => simp [hs, hy] at hbody
      | some y =>
        simp only [hs, hy] at hbody
        split at hbody
        · cases hbody
        · rename_i hm
          have hm2 : (M.call g._mean_function s g).length = g._dim_out.toNat := by
            simp only [ne_eq, not_not] at hm
            omega
          exact obsRows_step M g S Y k s y t t2 hs hy hm2 hinv hbody

/-- The loop of `compute` over the observations succeeds when every sample has its
observation, every mean vector has `dim_out` coefficients and every observation has at
least that many. -/
theorem compute_obs_succeeds {R MF : Type} [Sub R] (M : MeanFunction R MF)
    (g : MultiGP R MF) (S Y : List (VectorXd R))
    (hwf : ∀ (j : Nat), j < Y.length → ∃ s y, S[j]? = some s ∧ Y[j]? = some y ∧
      ((M.call g._mean_function s g).length : Int) = g._dim_out ∧
      g._dim_out.toNat ≤ y.length) :
    ∃ obs, MultiGP.compute_obs M g S Y = some obs := by
  unfold MultiGP.compute_obs for_loop
  simp only [Int.toNat_ofNat, Nat.sub_zero]
  have hstep : ∀ (k : Nat) (t : List (List (VectorXd R))), 0 ≤ k → k < 0 + Y.length →
      ObsRows M g S Y g._dim_out.toNat k t →
      ∃ t2, MultiGP.compute_obs_body M g S Y k t = some t2 ∧
        ObsRows M g S Y g._dim_out.toNat (k + 1) t2 := ?_
  · obtain ⟨obs, hobs, _⟩ := loop_over_succeeds (MultiGP.compute_obs_body M g S Y)
      (fun k o => ObsRows M g S Y g._dim_out.toNat k o)
      Y.length 0 _ (obsRows_zero M g S Y _) hstep
    exact ⟨obs, hobs⟩
  · intro k t _ hk hinv
    obtain ⟨s, y, hs, hy, hm, hylen⟩ := hwf k (by omega)
    have hpush : ∃ t2, push_residuals g._dim_out y (M.call g._mean_function s g) t
        = some t2 := by
      unfold push_residuals for_loop
      rw [Nat.sub_zero]
      have hstep2 : ∀ (i : Nat) (o : List (List (VectorXd R))), 0 ≤ i →
          i < 0 + g._dim_out.toNat → o.length = t.length →
          ∃ o2, update_at o i (fun col =>
              (residual y (M.call g._mean_function s g) i).map (fun r => col ++ [r])) = some o2 ∧
            o2.length = t.length := ?_
      · obtain ⟨t2, ht2, _⟩ := loop_over_succeeds
          (fun i o => update_at o i
            (fun col => (residual y (M.call g._mean_function s g) i).map (fun r => col ++ [r])))
          (fun _ o => o.length = t.length) g._dim_out.toNat 0 t rfl hstep2
        exact ⟨t2, ht2⟩
      · intro i o _ hi ho
        have hio : i < o.length := by rw [ho, hinv.1]; omega
        have hiy : i < y.length := by omega
        have him : i < (M.call g._mean_function s g).length := by omega
        refine ⟨o.set i (o[i] ++ [make_vector (y[i] - (M.call g._mean_function s g)[i])]),
          ?_, by simp [ho]⟩
        simp [update_at, residual, List.getElem?_eq_getElem hio,
          List.getElem?_eq_getElem hiy, List.getElem?_eq_getElem him]
    obtain ⟨t2, ht2⟩ := hpush
    refine ⟨t2, ?_, obsRows_step M g S Y k s y t t2 hs hy (by omega) hinv ht2⟩
    unfold MultiGP.compute_obs_body
    simp only [hs, hy]
    rw [if_neg (by simp [hm])]
    exact ht2

/-! ### `compute` -/

/-- The dimension updates of `compute` never fail; their result in closed form. -/
theorem compute_dims_eq {R MF : Type} (M : MeanFunction R MF) (g : MultiGP R MF)
    (s0 y0 : VectorXd R) :
    MultiGP.compute_dims M g s0 y0 = some
      { _gp_models :=
          if (g._gp_models.length : Int) ≠ (y0.length : Int) then
            List.replicate y0.length (GP.new s0.length 1)
          else g._gp_models
        _dim_in := s0.length
        _dim_out := y0.length
        _mean_function :=
          if g._dim_out ≠ (y0.length : Int) then M.build y0.length else g._mean_function
        _observations := g._observations } := by
  obtain ⟨ms, di, dout, mf, ob⟩ := g
  unfold MultiGP.compute_dims fresh_gp_models
  by_cases h1 : di = (s0.length : Int) <;> by_cases h2 : dout = (y0.length : Int) <;>
    by_cases h3 : (ms.length : Int) = (y0.length : Int) <;>
    simp [h1, h2, h3]

/-- The MultiGP that the mean function receives in `compute`, in closed form. -/
theorem compute_begin_eq {R MF : Type} (M : MeanFunction R MF) (g : MultiGP R MF)
    (s0 y0 : VectorXd R) (Y : List (VectorXd R)) :
    MultiGP.compute_begin M g s0 y0 Y = some
      { _gp_models :=
          if (g._gp_models.length : Int) ≠ (y0.length : Int) then
            List.replicate y0.length (GP.new s0.length 1)
          else g._gp_models
        _dim_in := s0.length
        _dim_out := y0.length
        _mean_function :=
          if g._dim_out ≠ (y0.length : Int) then M.build y0.length else g._mean_function
        _observations := Y } := by
  unfold MultiGP.compute_begin
  rw [compute_dims_eq]
  rfl

/-- The number of scalar GPs at that point is the new `dim_out`. -/
theorem compute_begin_length {R MF : Type} (M : MeanFunction R MF) (g g4 : MultiGP R MF)
    (s0 y0 : VectorXd R) (Y : List (VectorXd R))
    (h : MultiGP.compute_begin M g s0 y0 Y = some g4) :
    g4._gp_models.length = y0.length ∧ g4._dim_out = (y0.length : Int) := by
  rw [compute_begin_eq] at h
  cases h
  by_cases h3 : (g._gp_models.length : Int) = (y0.length : Int)
  · simp only [h3, ne_eq, not_true_eq_false, if_false]
    exact ⟨by exact_mod_cast h3, trivial⟩
  · simp [h3]

/-- The fitting loop of `compute`: scalar GP `i` is fitted on the samples and on column `i`
of `obs`, and the factorisation of each of these fits could be completed. -/
theorem fit_loop_eq_some {R : Type} (C : Cholesky R) (S : List (VectorXd R)) (ck : Bool)
    (obs : List (List (VectorXd R))) (ms ms2 : List (GP R)) (d : Int)
    (hd : d.toNat = ms.length) (hobs : obs.length = ms.length)
    (h : par_loop 0 d
      (fun i m => update_at m i (fun gp => (obs[i]?).bind (fun o => gp.compute C S o ck))) ms
        = some ms2) :
    ms2 = obs.map (fun o => GP.mk S o) ∧
      ∀ (i : Nat) (gp : GP R) (o : List (VectorXd R)), ms[i]? = some gp → obs[i]? = some o →
        C.compute_ok gp S o ck = true := by
  rw [par_loop_eq_some] at h
  obtain ⟨_, h⟩ := h
  have hlen := loop_update_at_length _ _ _ _ _ h
  obtain ⟨h1, _⟩ := (loop_update_at_iff _ _ _ _ _).mp h
  have hfit : ∀ (i : Nat) (gp c : GP R) (o : List (VectorXd R)),
      gp.compute C S o ck = some c → c = GP.mk S o ∧ C.compute_ok gp S o ck = true := by
    intro i gp c o hc
    unfold GP.compute at hc
    by_cases hok : C.compute_ok gp S o ck = true
    · rw [if_pos hok] at hc
      exact ⟨(Option.some.inj hc).symm, hok⟩
    · rw [if_neg hok] at hc
      cases hc
  constructor
  · apply List.ext_getElem?
    intro i
    rcases Nat.lt_or_ge i ms.length with hi | hi
    · obtain ⟨a, c, _, hc, hc2⟩ := h1 i (Nat.zero_le _) (by omega)
      have hio : i < obs.length := by omega
      rw [hc2, List.getElem?_map, List.getElem?_eq_getElem hio]
      rw [List.getElem?_eq_getElem hio] at hc
      simp only [Option.some_bind] at hc
      rw [(hfit i a c _ hc).1]
      rfl
    · rw [List.getElem?_eq_none (by omega), List.getElem?_eq_none (by simp; omega)]
  · intro i gp o hgp ho
    have hi : i < ms.length := by
      by_contra hcon
      rw [List.getElem?_eq_none (by omega)] at hgp
      cases hgp
    obtain ⟨a, c, ha, hc, _⟩ := h1 i (Nat.zero_le _) (by omega)
    rw [hgp] at ha
    rw [← Option.some.inj ha, ho] at hc
    simp only [Option.some_bind] at hc
    exact (hfit i gp c o hc).2

/-- The fitting loop succeeds when there is one column per scalar GP and the factorisation
of each fit can be completed. -/
theorem fit_loop_succeeds {R : Type} (C : Cholesky R) (S : List (VectorXd R)) (ck : Bool)
    (obs : List (List (VectorXd R))) (ms : List (GP R)) (d : Int)
    (hd0 : 0 ≤ d) (hd : d.toNat = ms.length) (hobs : obs.length = ms.length)
    (hok : ∀ (i : Nat) (gp : GP R) (o : List (VectorXd R)), ms[i]? = some gp →
      obs[i]? = some o → C.compute_ok gp S o ck = true) :
    par_loop 0 d
      (fun i m => update_at m i (fun gp => (obs[i]?).bind (fun o => gp.compute C S o ck))) ms
        = some (obs.map (fun o => GP.mk S o)) := by
  rw [par_loop_eq_some]
  refine ⟨hd0, (loop_update_at_iff _ _ _ _ _).mpr ⟨?_, ?_⟩⟩
  · intro i _ hi
    have him : i < ms.length := by omega
    have hio : i < obs.length := by omega
    refine ⟨ms[i], GP.mk S obs[i], List.getElem?_eq_getElem him, ?_, ?_⟩
    · rw [List.getElem?_eq_getElem hio]
      simp only [Option.some_bind]
      unfold GP.compute
      rw [if_pos (hok i ms[i] obs[i] (List.getElem?_eq_getElem him)
        (List.getElem?_eq_getElem hio))]
    · rw [List.getElem?_map, List.getElem?_eq_getElem hio]
      rfl
  · intro i hi
    have hi2 : ms.length ≤ i := by omega
    rw [List.getElem?_eq_none (by simp; omega), List.getElem?_eq_none hi2]

/-- What a successful `compute` leaves: the MultiGP of `compute_begin` (new dimensions, mean
function rebuilt when `dim_out` changed, observations saved), with scalar GP `i` fitted on
the samples and on column `i` of the residuals. -/
theorem compute_spec {R MF : Type} [Sub R] (C : Cholesky R) (M : MeanFunction R MF)
    (g g2 : MultiGP R MF)
    (s0 y0 : VectorXd R) (St Yt : List (VectorXd R)) (ck : Bool)
    (h : MultiGP.compute C M g (s0 :: St) (y0 :: Yt) ck = some g2) :
    St.length = Yt.length ∧
    ∃ g4 obs, MultiGP.compute_begin M g s0 y0 (y0 :: Yt) = some g4 ∧
      ObsRows M g4 (s0 :: St) (y0 :: Yt) y0.length (Yt.length + 1) obs ∧
      g2 = { g4 with _gp_models := obs.map (fun o => GP.mk (s0 :: St) o) } := by
  unfold MultiGP.compute at h
  by_cases hl : (s0 :: St).length = (y0 :: Yt).length
  · simp only [hl, ne_eq, not_true_eq_false, if_false, Option.bind_eq_some,
      Option.map_eq_some'] at h
    obtain ⟨g4, hg4, obs, hobs, ms, hms, hg2⟩ := h
    obtain ⟨hlen4, hd4⟩ := compute_begin_length M g g4 s0 y0 _ hg4
    have hrows := compute_obs_spec M g4 _ _ obs hobs
    rw [hd4] at hrows
    simp only [Int.toNat_ofNat, List.length_cons] at hrows
    obtain ⟨hms2, hok⟩ := fit_loop_eq_some C (s0 :: St) ck obs g4._gp_models ms g4._dim_out
      (by rw [hd4, hlen4]; simp) (by rw [hrows.1, hlen4]) hms
    refine ⟨by simpa using hl, g4, obs, hg4, hrows, ?_⟩
    rw [← hg2, hms2]
  · have hl2 : ¬ St.length = Yt.length := by simpa using hl
    simp [hl2] at h

/-- In a successful `compute` the factorisation of the fit of every scalar GP on its column
of residuals could be completed. -/
theorem compute_fits {R MF : Type} [Sub R] (C : Cholesky R) (M : MeanFunction R MF)
    (g g2 : MultiGP R MF)
    (s0 y0 : VectorXd R) (St Yt : List (VectorXd R)) (ck : Bool)
    (h : MultiGP.compute C M g (s0 :: St) (y0 :: Yt) ck = some g2) :
    ∃ g4 obs, MultiGP.compute_begin M g s0 y0 (y0 :: Yt) = some g4 ∧
      ObsRows M g4 (s0 :: St) (y0 :: Yt) y0.length (Yt.length + 1) obs ∧
      g2 = { g4 with _gp_models := obs.map (fun o => GP.mk (s0 :: St) o) } ∧
      ∀ (i : Nat) (gp : GP R) (o : List (VectorXd R)), g4._gp_models[i]? = some gp →
        obs[i]? = some o → C.compute_ok gp (s0 :: St) o ck = true := by
  unfold MultiGP.compute at h
  by_cases hl : (s0 :: St).length = (y0 :: Yt).length
  · simp only [hl, ne_eq, not_true_eq_false, if_false, Option.bind_eq_some,
      Option.map_eq_some'] at h
    obtain ⟨g4, hg4, obs, hobs, ms, hms, hg2⟩ := h
    obtain ⟨hlen4, hd4⟩ := compute_begin_length M g g4 s0 y0 _ hg4
    have hrows := compute_obs_spec M g4 _ _ obs hobs
    rw [hd4] at hrows
    simp only [Int.toNat_ofNat, List.length_cons] at hrows
    obtain ⟨hms2, hok⟩ := fit_loop_eq_some C (s0 :: St) ck obs g4._gp_models ms g4._dim_out
      (by rw [hd4, hlen4]; simp) (by rw [hrows.1, hlen4]) hms
    refine ⟨g4, obs, hg4, hrows, ?_, hok⟩
    rw [← hg2, hms2]
  · have hl2 : ¬ St.length = Yt.length := by simpa using hl
    simp [hl2] at h

/-- When `compute` succeeds: the two histories have the same length, every mean vector has
`dim_out` coefficients, every observation has at least as many, and the factorisation of
the fit of every scalar GP on its column of residuals can be completed. -/
theorem compute_succeeds {R MF : Type} [Sub R] (C : Cholesky R) (M : MeanFunction R MF)
    (g g4 : MultiGP R MF)
    (s0 y0 : VectorXd R) (St Yt : List (VectorXd R)) (ck : Bool)
    (hl : St.length = Yt.length)
    (hg4 : MultiGP.compute_begin M g s0 y0 (y0 :: Yt) = some g4)
    (hmean : ∀ (s : VectorXd R), s ∈ s0 :: St →
      (M.call g4._mean_function s g4).length = y0.length)
    (hy : ∀ (y : VectorXd R), y ∈ y0 :: Yt → y0.length ≤ y.length)
    (hok : ∀ (obs : List (List (VectorXd R))),
      ObsRows M g4 (s0 :: St) (y0 :: Yt) y0.length (Yt.length + 1) obs →
      ∀ (i : Nat) (gp : GP R) (o : List (VectorXd R)), g4._gp_models[i]? = some gp →
        obs[i]? = some o → C.compute_ok gp (s0 :: St) o ck = true) :
    ∃ obs, ObsRows M g4 (s0 :: St) (y0 :: Yt) y0.length (Yt.length + 1) obs ∧
      MultiGP.compute C M g (s0 :: St) (y0 :: Yt) ck
        = some { g4 with _gp_models := obs.map (fun o => GP.mk (s0 :: St) o) } := by
  obtain ⟨hlen4, hd4⟩ := compute_begin_length M g g4 s0 y0 _ hg4
  have hwf : ∀ (j : Nat), j < (y0 :: Yt).length →
      ∃ s y, (s0 :: St)[j]? = some s ∧ (y0 :: Yt)[j]? = some y ∧
        ((M.call g4._mean_function s g4).length : Int) = g4._dim_out ∧
        g4._dim_out.toNat ≤ y.length := by
    intro j hj
    have hjs : j < (s0 :: St).length := by simpa [hl] using hj
    refine ⟨(s0 :: St)[j], (y0 :: Yt)[j], List.getElem?_eq_getElem hjs,
      List.getElem?_eq_getElem hj, ?_, ?_⟩
    · rw [hd4, hmean _ (List.getElem_mem hjs)]
    · rw [hd4]
      simpa using hy _ (List.getElem_mem hj)
  obtain ⟨obs, hobs⟩ := compute_obs_succeeds M g4 _ _ hwf
  have hrows := compute_obs_spec M g4 _ _ obs hobs
  have hrows2 : ObsRows M g4 (s0 :: St) (y0 :: Yt) y0.length (Yt.length + 1) obs := by
    rw [hd4] at hrows
    simpa using hrows
  have hms := fit_loop_succeeds C (s0 :: St) ck obs g4._gp_models g4._dim_out
    (by rw [hd4]; omega) (by rw [hd4, hlen4]; simp)
    (by rw [hrows.1, hd4, hlen4]; simp) (hok obs hrows2)
  refine ⟨obs, hrows2, ?_⟩
  unfold MultiGP.compute
  simp [hl, hg4, hobs, hms]

/-! ### `add_sample` -/

/-- What a successful scalar `add_sample` returns. -/
theorem gp_add_sample_eq_some {R : Type} (C : Cholesky R) (gp c : GP R) (x r : VectorXd R) :
    gp.add_sample C x r = some c ↔
      C.add_sample_ok gp x r = true ∧ c = GP.mk (gp.samples ++ [x]) (gp.observations ++ [r]) := by
  unfold GP.add_sample
  by_cases hok : C.add_sample_ok gp x r = true
  · rw [if_pos hok]
    simp only [Option.some.injEq, hok, true_and]
    exact eq_comm
  · rw [if_neg hok]
    simp [hok]

/-- What a successful `add_sample` leaves: the MultiGP `g1` after the dimension part, with
the observation appended, and each of the first `dim_out` scalar GPs extended by the sample
and by the residual of its coefficient against the mean vector; the mean function received
the MultiGP with the observation already appended. -/
theorem add_sample_spec {R MF : Type} [Sub R] (C : Cholesky R) (M : MeanFunction R MF)
    (g g2 : MultiGP R MF)
    (x y : VectorXd R) (h : MultiGP.add_sample C M g x y = some g2) :
    ∃ g1 ms, MultiGP.add_sample_dims M g x y = some g1 ∧
      g2 = { g1 with _observations := g1._observations ++ [y], _gp_models := ms } ∧
      0 ≤ g1._dim_out ∧
      ((M.call g1._mean_function x
        { g1 with _observations := g1._observations ++ [y] }).length : Int) = g1._dim_out ∧
      ms.length = g1._gp_models.length ∧
      (∀ (i : Nat), i < g1._dim_out.toNat → ∃ gp r, g1._gp_models[i]? = some gp ∧
        residual y (M.call g1._mean_function x
          { g1 with _observations := g1._observations ++ [y] }) i = some r ∧
        ms[i]? = some (GP.mk (gp.samples ++ [x]) (gp.observations ++ [r]))) ∧
      (∀ (i : Nat), g1._dim_out.toNat ≤ i → ms[i]? = g1._gp_models[i]?) := by
  unfold MultiGP.add_sample at h
  simp only [Option.bind_eq_some] at h
  obtain ⟨g1, hg1, h⟩ := h
  split at h
  · cases h
  · rename_i hmean
    simp only [Option.map_eq_some'] at h
    obtain ⟨ms, hms, hg2⟩ := h
    rw [par_loop_eq_some] at hms
    obtain ⟨hd0, hms⟩ := hms
    have hlen := loop_update_at_length _ _ _ _ _ hms
    obtain ⟨h1, h2⟩ := (loop_update_at_iff _ _ _ _ _).mp hms
    refine ⟨g1, ms, hg1, hg2.symm, hd0, by simpa using hmean, hlen, ?_, ?_⟩
    · intro i hi
      obtain ⟨gp, c, hgp, hc, hc2⟩ := h1 i (Nat.zero_le _) (by omega)
      simp only [Option.bind_eq_some] at hc
      obtain ⟨r, hr, hrc⟩ := hc
      rw [gp_add_sample_eq_some] at hrc
      exact ⟨gp, r, hgp, hr, by rw [hc2, hrc.2]⟩
    · intro i hi
      exact h2 i (Or.inr (by omega))

/-- In a successful `add_sample` the incremental update of each of the first `dim_out`
scalar GPs could be completed. -/
theorem add_sample_updates {R MF : Type} [Sub R] (C : Cholesky R) (M : MeanFunction R MF)
    (g g1 g2 : MultiGP R MF) (x y : VectorXd R)
    (h : MultiGP.add_sample C M g x y = some g2)
    (hg1 : MultiGP.add_sample_dims M g x y = some g1) :
    ∀ (i : Nat) (gp : GP R) (r : VectorXd R), i < g1._dim_out.toNat →
      g1._gp_models[i]? = some gp →
      residual y (M.call g1._mean_function x
        { g1 with _observations := g1._observations ++ [y] }) i = some r →
      C.add_sample_ok gp x r = true := by
  unfold MultiGP.add_sample at h
  simp only [hg1, Option.some_bind] at h
  split at h
  · cases h
  · simp only [Option.map_eq_some'] at h
    obtain ⟨ms, hms, _⟩ := h
    rw [par_loop_eq_some] at hms
    obtain ⟨_, hms⟩ := hms
    obtain ⟨h1, _⟩ := (loop_update_at_iff _ _ _ _ _).mp hms
    intro i gp r hi hgp hr
    obtain ⟨gp2, c, hgp2, hc, _⟩ := h1 i (Nat.zero_le _) (by omega)
    rw [hgp] at hgp2
    rw [← Option.some.inj hgp2, hr] at hc
    simp only [Option.some_bind] at hc
    exact ((gp_add_sample_eq_some C gp c x r).mp hc).1

/-- The dimension part of `add_sample` on a MultiGP that holds a scalar GP: the two
assertions. -/
theorem add_sample_dims_nonempty {R MF : Type} (M : MeanFunction R MF) (g : MultiGP R MF)
    (x y : VectorXd R) (hne : g._gp_models ≠ []) :
    MultiGP.add_sample_dims M g x y =
      if (x.length : Int) = g._dim_in ∧ (y.length : Int) = g._dim_out then some g
      else none := by
  unfold MultiGP.add_sample_dims
  have h0 : ¬ g._gp_models.length = 0 := by
    simpa [List.length_eq_zero] using hne
  by_cases h1 : (x.length : Int) = g._dim_in <;> by_cases h2 : (y.length : Int) = g._dim_out <;>
    simp [h0, h1, h2]

/-- The dimension part of `add_sample` on a MultiGP without scalar GP: `dim_in` becomes the
length of the sample; when `dim_out` is not the length of the observation, it becomes that
length, that many fresh scalar GPs are made and the mean function is rebuilt. -/
theorem add_sample_dims_empty {R MF : Type} (M : MeanFunction R MF) (g : MultiGP R MF)
    (x y : VectorXd R) (he : g._gp_models = []) :
    MultiGP.add_sample_dims M g x y = some
      (if g._dim_out ≠ (y.length : Int) then
        { _gp_models := List.replicate y.length (GP.new x.length 1)
          _dim_in := x.length
          _dim_out := y.length
          _mean_function := M.build y.length
          _observations := g._observations }
      else { g with _dim_in := x.length }) := by
  obtain ⟨ms, di, dout, mf, ob⟩ := g
  simp only at he
  subst he
  unfold MultiGP.add_sample_dims fresh_gp_models
  by_cases h1 : di = (x.length : Int) <;> by_cases h2 : dout = (y.length : Int) <;>
    simp [h1, h2]

/-- When `add_sample` succeeds: the dimension part passes, the mean vector has `dim_out`
coefficients, there are `dim_out` scalar GPs, and the incremental update of each of them
can be completed. -/
theorem add_sample_succeeds {R MF : Type} [Sub R] (C : Cholesky R) (M : MeanFunction R MF)
    (g g1 : MultiGP R MF) (x y : VectorXd R)
    (hg1 : MultiGP.add_sample_dims M g x y = some g1)
    (hy : (y.length : Int) = g1._dim_out)
    (hn : (g1._gp_models.length : Int) = g1._dim_out)
    (hmean : ((M.call g1._mean_function x
      { g1 with _observations := g1._observations ++ [y] }).length : Int) = g1._dim_out)
    (hok : ∀ (i : Nat) (gp : GP R) (r : VectorXd R), g1._gp_models[i]? = some gp →
      residual y (M.call g1._mean_function x
        { g1 with _observations := g1._observations ++ [y] }) i = some r →
      C.add_sample_ok gp x r = true) :
    ∃ g2, MultiGP.add_sample C M g x y = some g2 := by
  have hstep : ∀ (i : Nat), 0 ≤ i → i < 0 + g1._dim_out.toNat →
      ∃ a c, g1._gp_models[i]? = some a ∧
        (residual y (M.call g1._mean_function x
          { g1 with _observations := g1._observations ++ [y] }) i).bind
          (fun r => a.add_sample C x r) = some c := by
    intro i _ hi
    have him : i < g1._gp_models.length := by omega
    have hiy : i < y.length := by omega
    have hiv : i < (M.call g1._mean_function x
      { g1 with _observations := g1._observations ++ [y] }).length := by omega
    have hres : residual y (M.call g1._mean_function x
        { g1 with _observations := g1._observations ++ [y] }) i
        = some (make_vector (y[i] - (M.call g1._mean_function x
          { g1 with _observations := g1._observations ++ [y] })[i])) := by
      simp [residual, List.getElem?_eq_getElem hiy, List.getElem?_eq_getElem hiv]
    refine ⟨g1._gp_models[i],
      GP.mk (g1._gp_models[i].samples ++ [x]) (g1._gp_models[i].observations ++
        [make_vector (y[i] - (M.call g1._mean_function x
          { g1 with _observations := g1._observations ++ [y] })[i])]),
      List.getElem?_eq_getElem him, ?_⟩
    rw [hres]
    simp only [Option.some_bind]
    exact (gp_add_sample_eq_some C _ _ _ _).mpr
      ⟨hok i _ _ (List.getElem?_eq_getElem him) hres, rfl⟩
  obtain ⟨ms, hms⟩ := loop_update_at_succeeds
    (fun i gp => (residual y (M.call g1._mean_function x
      { g1 with _observations := g1._observations ++ [y] }) i).bind
      (fun r => gp.add_sample C x r)) g1._dim_out.toNat 0 g1._gp_models hstep
  have hpar := (par_loop_eq_some g1._dim_out _ g1._gp_models ms).mpr ⟨by omega, hms⟩
  refine ⟨{ g1 with _observations := g1._observations ++ [y], _gp_models := ms }, ?_⟩
  unfold MultiGP.add_sample
  simp only [hg1, Option.some_bind]
  rw [if_neg (by simp [hmean]), hpar]
  rfl

/-- C2: a successful `compute(S, Y)` has non-empty histories of equal length and leaves one
scalar GP per output; scalar GP `i` holds the sample list `S` unchanged and, in order, the
targets `Y[j][i] - m(S[j])[i]`, where `m` is the shared mean function called with the
MultiGP `g4` as it stands at that point of `compute`. A successful `add_sample(x, y)` gives
scalar GP `i` the sample `x` and the single target `y[i] - m(x)[i]`, where `m` receives the
MultiGP with `y` already stored. -/
theorem compute_add_sample_targets {R MF : Type} [Sub R] (C : Cholesky R)
    (M : MeanFunction R MF) (g g2 ga ga2 : MultiGP R MF) (S Y : List (VectorXd R))
    (ck : Bool) (x y : VectorXd R)
    (hC : MultiGP.compute C M g S Y ck = some g2)
    (hA : MultiGP.add_sample C M ga x y = some ga2) :
    (S ≠ [] ∧ S.length = Y.length ∧
      ∃ g4, (∃ s0 y0, S.head? = some s0 ∧ Y.head? = some y0 ∧
          MultiGP.compute_begin M g s0 y0 Y = some g4) ∧
        (g2._gp_models.length : Int) = g2._dim_out ∧
        ∀ (i : Nat), i < g2._gp_models.length →
          ∃ gp, g2._gp_models[i]? = some gp ∧ gp.samples = S ∧
            gp.observations.length = S.length ∧
            ∀ (j : Nat), j < S.length →
              ∃ s yj a b, S[j]? = some s ∧ Y[j]? = some yj ∧ yj[i]? = some a ∧
                (M.call g4._mean_function s g4)[i]? = some b ∧
                gp.observations[j]? = some (make_vector (a - b))) ∧
    (∃ g1, MultiGP.add_sample_dims M ga x y = some g1 ∧
      (ga2._gp_models.length : Int) = (g1._gp_models.length : Int) ∧
      ∀ (i : Nat), (i : Int) < ga2._dim_out →
        ∃ gp a b, g1._gp_models[i]? = some gp ∧ y[i]? = some a ∧
          (M.call g1._mean_function x
            { g1 with _observations := g1._observations ++ [y] })[i]? = some b ∧
          ga2._gp_models[i]? = some (GP.mk (gp.samples ++ [x])
            (gp.observations ++ [make_vector (a - b)]))) := by
  constructor
  · cases S with
    | nil => simp [MultiGP.compute] at hC
    | cons s0 St =>
      cases Y with
      | nil => simp [MultiGP.compute] at hC
      | cons y0 Yt =>
        obtain ⟨hl, g4, obs, hg4, hrows, hg2⟩ := compute_spec C M g g2 s0 y0 St Yt ck hC
        obtain ⟨hlen4, hd4⟩ := compute_begin_length M g g4 s0 y0 _ hg4
        refine ⟨by simp, by simp [hl], g4, ⟨s0, y0, rfl, rfl, hg4⟩, ?_, ?_⟩
        · rw [hg2]
          simp [hrows.1, hd4]
        · intro i hi
          have hi2 : i < y0.length := by
            rw [hg2] at hi
            simpa [hrows.1] using hi
          obtain ⟨col, hcol, hcl, hcrows⟩ := hrows.2.2 i hi2
          refine ⟨⟨s0 :: St, col⟩, ?_, rfl, by simp [hcl, hl], ?_⟩
          · rw [hg2]
            simp [List.getElem?_map, hcol]
          · intro j hj
            obtain ⟨s, yj, r, hs, hyj, hr, hcj⟩ := hcrows j (by simpa [hl] using hj)
            obtain ⟨a, b, ha, hb, hab⟩ := (residual_eq_some _ _ _ _).mp hr
            exact ⟨s, yj, a, b, hs, hyj, ha, hb, by rw [hcj, hab]; rfl⟩
  · obtain ⟨g1, ms, hg1, hg2, hd0, _, hlen, h1, _⟩ := add_sample_spec C M ga ga2 x y hA
    refine ⟨g1, hg1, by rw [hg2]; simp [hlen], ?_⟩
    intro i hi
    have hi2 : i < g1._dim_out.toNat := by
      rw [hg2] at hi
      simp only at hi
      omega
    obtain ⟨gp, r, hgp, hr, hms⟩ := h1 i hi2
    obtain ⟨a, b, ha, hb, hab⟩ := (residual_eq_some _ _ _ _).mp hr
    refine ⟨gp, a, b, hgp, ha, hb, ?_⟩
    rw [hg2]
    simp only
    rw [hms, hab]
    rfl

/-- C2 on example data: the default-constructed MultiGP with the constant mean 2 is fitted
on two samples, then extended by a third. -/
theorem compute_add_sample_targets_witness :
    MultiGP.compute always_fits (constant_mean 2) (MultiGP.new0 (constant_mean 2))
      ex_samples ex_observations true = some ex_fitted ∧
    MultiGP.add_sample always_fits (constant_mean 2) ex_fitted [3] [7, 8] = some ex_extended ∧
    ((ex_samples ≠ [] ∧ ex_samples.length = ex_observations.length ∧
      ∃ g4, (∃ s0 y0, ex_samples.head? = some s0 ∧ ex_observations.head? = some y0 ∧
          MultiGP.compute_begin (constant_mean 2) (MultiGP.new0 (constant_mean 2)) s0 y0
            ex_observations = some g4) ∧
        (ex_fitted._gp_models.length : Int) = ex_fitted._dim_out ∧
        ∀ (i : Nat), i < ex_fitted._gp_models.length →
          ∃ gp, ex_fitted._gp_models[i]? = some gp ∧ gp.samples = ex_samples ∧
            gp.observations.length = ex_samples.length ∧
            ∀ (j : Nat), j < ex_samples.length →
              ∃ s yj a b, ex_samples[j]? = some s ∧ ex_observations[j]? = some yj ∧
                yj[i]? = some a ∧
                ((constant_mean 2).call g4._mean_function s g4)[i]? = some b ∧
                gp.observations[j]? = some (make_vector (a - b))) ∧
    (∃ g1, MultiGP.add_sample_dims (constant_mean 2) ex_fitted [3] [7, 8] = some g1 ∧
      (ex_extended._gp_models.length : Int) = (g1._gp_models.length : Int) ∧
      ∀ (i : Nat), (i : Int) < ex_extended._dim_out →
        ∃ gp a b, g1._gp_models[i]? = some gp ∧ ([7, 8] : VectorXd Int)[i]? = some a ∧
          ((constant_mean 2).call g1._mean_function [3]
            { g1 with _observations := g1._observations ++ [[7, 8]] })[i]? = some b ∧
          ex_extended._gp_models[i]? = some (GP.mk (gp.samples ++ [[3]])
            (gp.observations ++ [make_vector (a - b)])))) :=
  ⟨by decide, by decide,
    compute_add_sample_targets always_fits (constant_mean 2)
      (MultiGP.new0 (constant_mean 2)) ex_fitted
      ex_fitted ex_extended ex_samples ex_observations true [3] [7, 8]
      (by decide) (by decide)⟩

/-! ### `query`, `mu` and `sigma` -/

/-- An assignment `v(i) = x` succeeds exactly in range. -/
theorem write_at_eq_some {R : Type} (v v2 : List (Option R)) (i : Nat) (x : R) :
    write_at v i x = some v2 ↔ i < v.length ∧ v2 = v.set i (some x) := by
  unfold write_at
  rw [update_at_eq_some]
  constructor
  · rintro ⟨a, b, ha, hb, hv⟩
    simp only [Option.some.injEq] at hb
    rcases List.getElem?_eq_some.mp ha with ⟨h, _⟩
    exact ⟨h, by rw [hv, hb]⟩
  · rintro ⟨h, hv⟩
    exact ⟨v[i], some x, List.getElem?_eq_getElem h, rfl, hv⟩

/-- A vector can be read exactly when all its coefficients have been written. -/
theorem read_all_eq_some {R : Type} (l : List (Option R)) :
    ∀ (v : VectorXd R), read_all l = some v ↔ l = v.map some := by
  induction l with
  | nil =>
    intro v
    cases v <;> simp [read_all]
  | cons o rest ih =>
    intro v
    cases o with
    | none => cases v <;> simp [read_all]
    | some x =>
      cases v with
      | nil => simp [read_all]
      | cons y ys =>
        simp only [read_all, Option.map_eq_some', List.map_cons, List.cons.injEq,
          Option.some.injEq]
        constructor
        · rintro ⟨a, ha, hxa, hay⟩
          exact ⟨hxa, by rw [← hay]; exact (ih a).mp ha⟩
        · rintro ⟨hxy, hr⟩
          exact ⟨ys, (ih ys).mpr hr, hxy, rfl⟩

/-- The coefficients read are the coefficients written. -/
theorem read_all_getElem {R : Type} (l : List (Option R)) (v : VectorXd R)
    (h : read_all l = some v) :
    v.length = l.length ∧
      ∀ (i : Nat) (x : R), l[i]? = some (some x) → v[i]? = some x := by
  rw [read_all_eq_some] at h
  subst h
  refine ⟨by simp, ?_⟩
  intro i x hx
  rw [List.getElem?_map] at hx
  cases hv : v[i]? with
  | none => simp [hv] at hx
  | some z =>
    simp only [hv, Option.map_some', Option.some.injEq] at hx
    rw [hx]

/-- A vector all of whose coefficients are written can be read. -/
theorem read_all_succeeds {R : Type} (l : List (Option R))
    (h : ∀ (i : Nat), i < l.length → ∃ x, l[i]? = some (some x)) :
    ∃ v, read_all l = some v := by
  induction l with
  | nil => exact ⟨[], rfl⟩
  | cons o rest ih =>
    obtain ⟨x, hx⟩ := h 0 (by simp)
    simp only [List.getElem?_cons_zero, Option.some.injEq] at hx
    subst hx
    obtain ⟨v, hv⟩ := ih (fun i hi => by
      obtain ⟨z, hz⟩ := h (i + 1) (by simpa using hi)
      exact ⟨z, by simpa using hz⟩)
    exact ⟨x :: v, by simp [read_all, hv]⟩

/-- The loop of `query` writes every coefficient of both vectors. -/
theorem query_loop_spec {R MF : Type} [Add R] (M : MeanFunction R MF) (P : Posterior R)
    (g : MultiGP R MF) (v : VectorXd R) (n : Nat) (st : List (Option R) × List (Option R))
    (h : loop_over (MultiGP.query_body P g v (M.call g._mean_function v g))
      (List.range' 0 n) (List.replicate n none, List.replicate n none) = some st) :
    st.1.length = n ∧ st.2.length = n ∧
      ∀ (i : Nat), i < n → ∃ gp t0 m, g._gp_models[i]? = some gp ∧
        (P.query gp v).1[0]? = some t0 ∧ (M.call g._mean_function v g)[i]? = some m ∧
        st.1[i]? = some (some (t0 + m)) ∧ st.2[i]? = some (some (P.query gp v).2) := by
  have key := loop_over_invariant _
    (fun k (st : List (Option R) × List (Option R)) =>
      st.1.length = n ∧ st.2.length = n ∧
      ∀ (i : Nat), i < k → ∃ gp t0 m, g._gp_models[i]? = some gp ∧
        (P.query gp v).1[0]? = some t0 ∧ (M.call g._mean_function v g)[i]? = some m ∧
        st.1[i]? = some (some (t0 + m)) ∧ st.2[i]? = some (some (P.query gp v).2))
    n 0 _ st ⟨by simp, by simp, fun i hi => by omega⟩ ?_ h
  · simpa using key
  · intro k t t2 _ hk hinv hbody
    obtain ⟨hl1, hl2, hprev⟩ := hinv
    unfold MultiGP.query_body at hbody
    cases hgp : g._gp_models[k]? with
    | none => simp [hgp] at hbody
    | some gp =>
      simp only [hgp, Option.bind_eq_some, write_at_eq_some] at hbody
      obtain ⟨sigma, ⟨hks, hsigma⟩, hrest⟩ := hbody
      cases ht0 : (P.query gp v).1[0]? with
      | none => simp [ht0] at hrest
      | some t0 =>
        cases hm : (M.call g._mean_function v g)[k]? with
        | none => simp [ht0, hm] at hrest
        | some m =>
          simp only [ht0, hm, Option.map_eq_some', write_at_eq_some] at hrest
          obtain ⟨mu, ⟨hkm, hmu⟩, ht2⟩ := hrest
          subst ht2
          refine ⟨by simp [hmu, hl1], by simp [hsigma, hl2], ?_⟩
          intro i hi
          rcases Nat.lt_or_ge i k with hik | hik
          · obtain ⟨gp1, t1, m1, h1, h2, h3, h4, h5⟩ := hprev i hik
            refine ⟨gp1, t1, m1, h1, h2, h3, ?_, ?_⟩
            · simp only [hmu]
              rw [List.getElem?_set_ne (by omega)]
              exact h4
            · simp only [hsigma]
              rw [List.getElem?_set_ne (by omega)]
              exact h5
          · have hik2 : i = k := by omega
            subst hik2
            refine ⟨gp, t0, m, hgp, ht0, hm, ?_, ?_⟩
            · simp only [hmu]
              exact List.getElem?_set_self hkm
            · simp only [hsigma]
              exact List.getElem?_set_self hks

/-- When `query(v)` returns: for a `dim_out` that is not negative, when each of the first
`dim_out` scalar GPs exists and has a first coefficient in the mean it returns, and the
mean vector has a coefficient for it. -/
theorem query_succeeds {R MF : Type} [Add R] (M : MeanFunction R MF) (P : Posterior R)
    (g : MultiGP R MF) (v : VectorXd R) (hd : 0 ≤ g._dim_out)
    (hwf : ∀ (i : Nat), i < g._dim_out.toNat → ∃ gp t0 m, g._gp_models[i]? = some gp ∧
      (P.query gp v).1[0]? = some t0 ∧ (M.call g._mean_function v g)[i]? = some m) :
    ∃ mu sigma, MultiGP.query M P g v = some (mu, sigma) := by
  have hstep : ∀ (k : Nat) (t : List (Option R) × List (Option R)), 0 ≤ k →
      k < 0 + g._dim_out.toNat →
      (t.1.length = g._dim_out.toNat ∧ t.2.length = g._dim_out.toNat ∧
        ∀ (i : Nat), i < k → (∃ a, t.1[i]? = some (some a)) ∧ ∃ b, t.2[i]? = some (some b)) →
      ∃ t2, MultiGP.query_body P g v (M.call g._mean_function v g) k t = some t2 ∧
        (t2.1.length = g._dim_out.toNat ∧ t2.2.length = g._dim_out.toNat ∧
          ∀ (i : Nat), i < k + 1 →
            (∃ a, t2.1[i]? = some (some a)) ∧ ∃ b, t2.2[i]? = some (some b)) := by
    intro k t _ hk hinv
    obtain ⟨hl1, hl2, hprev⟩ := hinv
    obtain ⟨gp, t0, m, hgp, ht0, hm⟩ := hwf k (by omega)
    have hk1 : k < t.1.length := by omega
    have hk2 : k < t.2.length := by omega
    refine ⟨(t.1.set k (some (t0 + m)), t.2.set k (some (P.query gp v).2)), ?_,
      by simp [hl1], by simp [hl2], ?_⟩
    · unfold MultiGP.query_body
      simp only [hgp, ht0, hm]
      rw [(write_at_eq_some _ _ _ _).mpr ⟨hk2, rfl⟩]
      simp only [Option.some_bind]
      rw [(write_at_eq_some _ _ _ _).mpr ⟨hk1, rfl⟩]
      rfl
    · intro i hi
      rcases Nat.lt_or_ge i k with hik | hik
      · obtain ⟨⟨a, ha⟩, b, hb⟩ := hprev i hik
        exact ⟨⟨a, by simp only; rw [List.getElem?_set_ne (by omega)]; exact ha⟩,
          b, by simp only; rw [List.getElem?_set_ne (by omega)]; exact hb⟩
      · have hik2 : i = k := by omega
        subst hik2
        exact ⟨⟨t0 + m, List.getElem?_set_self hk1⟩,
          (P.query gp v).2, List.getElem?_set_self hk2⟩
  obtain ⟨st, hst, hl1, hl2, hall⟩ := loop_over_succeeds
    (MultiGP.query_body P g v (M.call g._mean_function v g))
    (fun k (t : List (Option R) × List (Option R)) =>
      t.1.length = g._dim_out.toNat ∧ t.2.length = g._dim_out.toNat ∧
        ∀ (i : Nat), i < k → (∃ a, t.1[i]? = some (some a)) ∧ ∃ b, t.2[i]? = some (some b))
    g._dim_out.toNat 0 (List.replicate g._dim_out.toNat none, List.replicate g._dim_out.toNat none)
    ⟨by simp, by simp, fun i hi => by omega⟩ hstep
  simp only [Nat.zero_add] at hall
  obtain ⟨mu, hmu⟩ := read_all_succeeds st.1 (fun i hi => (hall i (by omega)).1)
  obtain ⟨sigma, hsigma⟩ := read_all_succeeds st.2 (fun i hi => (hall i (by omega)).2)
  refine ⟨mu, sigma, ?_⟩
  unfold MultiGP.query uninitialized
  have hd2 : ¬ g._dim_out < 0 := by omega
  simp only [hd2, if_false, Option.some_bind]
  rw [(par_loop_eq_some _ _ _ _).mpr ⟨hd, hst⟩]
  simp [hmu, hsigma]

/-- C3: when `query(v)` returns `(mu, sigma)`, both vectors have `dim_out` coefficients
and, for every `i < dim_out`, `mu[i]` is the first coefficient of the posterior mean of
scalar GP `i` at `v` plus coefficient `i` of the shared mean function at `v`, and `sigma[i]`
is the posterior variance of scalar GP `i` at `v`. -/
theorem query_components {R MF : Type} [Add R] (M : MeanFunction R MF) (P : Posterior R)
    (g : MultiGP R MF) (v mu sigma : VectorXd R)
    (h : MultiGP.query M P g v = some (mu, sigma)) :
    (mu.length : Int) = g._dim_out ∧ (sigma.length : Int) = g._dim_out ∧
      ∀ (i : Nat), (i : Int) < g._dim_out → ∃ gp t0 m, g._gp_models[i]? = some gp ∧
        (P.query gp v).1[0]? = some t0 ∧ (M.call g._mean_function v g)[i]? = some m ∧
        mu[i]? = some (t0 + m) ∧ sigma[i]? = some (P.query gp v).2 := by
  unfold MultiGP.query uninitialized at h
  by_cases hd : g._dim_out < 0
  · simp [hd] at h
  · simp only [hd, if_false, Option.some_bind, Option.bind_eq_some, par_loop_eq_some,
      Option.map_eq_some'] at h
    obtain ⟨st, ⟨_, hloop⟩, mu2, hmu, sigma2, hsigma, hpair⟩ := h
    cases hpair
    obtain ⟨hl1, hl2, hcomp⟩ := query_loop_spec M P g v _ st hloop
    obtain ⟨hml, hmget⟩ := read_all_getElem _ _ hmu
    obtain ⟨hsl, hsget⟩ := read_all_getElem _ _ hsigma
    refine ⟨by rw [hml, hl1]; omega, by rw [hsl, hl2]; omega, ?_⟩
    intro i hi
    obtain ⟨gp, t0, m, h1, h2, h3, h4, h5⟩ := hcomp i (by omega)
    exact ⟨gp, t0, m, h1, h2, h3, hmget i _ h4, hsget i _ h5⟩

/-- C3 on example data: at the training input `[2]` the fitted example returns the
observation `[10, 11]` with variances `[0, 0]`. -/
theorem query_components_witness :
    MultiGP.query (constant_mean 2) lookup_posterior ex_fitted [2] = some ([10, 11], [0, 0]) ∧
    (([10, 11] : VectorXd Int).length : Int) = ex_fitted._dim_out ∧
    (([0, 0] : VectorXd Int).length : Int) = ex_fitted._dim_out ∧
      ∀ (i : Nat), (i : Int) < ex_fitted._dim_out → ∃ gp t0 m,
        ex_fitted._gp_models[i]? = some gp ∧
        (lookup_posterior.query gp [2]).1[0]? = some t0 ∧
        ((constant_mean 2).call ex_fitted._mean_function [2] ex_fitted)[i]? = some m ∧
        ([10, 11] : VectorXd Int)[i]? = some (t0 + m) ∧
        ([0, 0] : VectorXd Int)[i]? = some (lookup_posterior.query gp [2]).2 :=
  ⟨by decide, query_components (constant_mean 2) lookup_posterior ex_fitted [2] [10, 11] [0, 0]
    (by decide)⟩

/-- A loop on a pair of states whose body treats the two components separately is the pair
of the two loops: it fails when one of them fails. -/
theorem loop_over_pair {α β : Type} (b1 : Nat → α → Option α) (b2 : Nat → β → Option β) :
    ∀ (idx : List Nat) (a : α) (b : β),
      loop_over (fun i (st : α × β) =>
          (b2 i st.2).bind fun y => (b1 i st.1).map fun x => (x, y)) idx (a, b)
        = (loop_over b1 idx a).bind fun x => (loop_over b2 idx b).map fun y => (x, y) := by
  intro idx
  induction idx with
  | nil =>
    intro a b
    simp [loop_over]
  | cons i rest ih =>
    intro a b
    simp only [loop_over]
    cases h2 : b2 i b with
    | none =>
      cases h1 : b1 i a with
      | none => simp
      | some x =>
        cases hx : loop_over b1 rest x <;> simp
    | some y =>
      cases h1 : b1 i a with
      | none => simp
      | some x => simp [ih]

/-- Two loops whose bodies agree on the indices they run over agree. -/
theorem loop_over_congr {σ : Type} (b1 b2 : Nat → σ → Option σ) :
    ∀ (idx : List Nat) (s : σ), (∀ (i : Nat) (t : σ), i ∈ idx → b1 i t = b2 i t) →
      loop_over b1 idx s = loop_over b2 idx s := by
  intro idx
  induction idx with
  | nil =>
    intro s _
    rfl
  | cons i rest ih =>
    intro s h
    simp only [loop_over]
    rw [h i s (by simp)]
    cases hb : b2 i s with
    | none => rfl
    | some t =>
      simp only [Option.some_bind]
      exact ih t (fun j u hj => h j u (by simp [hj]))

/-- C4: when the `query` of every scalar GP of the MultiGP agrees at `v` with its own `mu`
and `sigma`, `MultiGP::query(v)` is the pair of `MultiGP::mu(v)` and `MultiGP::sigma(v)`:
it returns exactly when both do, and then the two vectors are theirs. -/
theorem query_eq_mu_sigma {R MF : Type} [Add R] (M : MeanFunction R MF) (P : Posterior R)
    (g : MultiGP R MF) (v : VectorXd R)
    (hP : ∀ (gp : GP R), gp ∈ g._gp_models → P.query gp v = (P.mu gp v, P.sigma gp v)) :
    MultiGP.query M P g v =
      (MultiGP.mu M P g v).bind fun mu =>
        (MultiGP.sigma P g v).map fun sigma => (mu, sigma) := by
  unfold MultiGP.query MultiGP.mu MultiGP.sigma uninitialized
  by_cases hd : g._dim_out < 0
  · simp [hd]
  · simp only [hd, if_false, Option.some_bind, par_loop]
    have hbody : ∀ (idx : List Nat) (s : List (Option R) × List (Option R)),
        loop_over (MultiGP.query_body P g v (M.call g._mean_function v g)) idx s
          = loop_over (fun i (st : List (Option R) × List (Option R)) =>
              (MultiGP.sigma_body P g v i st.2).bind fun y =>
                (MultiGP.mu_body P g v (M.call g._mean_function v g) i st.1).map
                  fun x => (x, y)) idx s := by
      intro idx s
      apply loop_over_congr
      intro i st _
      unfold MultiGP.query_body MultiGP.sigma_body MultiGP.mu_body
      cases hgp : g._gp_models[i]? with
      | none => simp
      | some gp =>
        have hmem : gp ∈ g._gp_models := List.getElem?_mem hgp
        simp only [hP gp hmem]
        cases hw : write_at st.2 i (P.sigma gp v) with
        | none => simp
        | some sigma =>
          simp only [Option.some_bind]
          cases ht0 : (P.mu gp v)[0]? with
          | none => simp
          | some t0 =>
            cases hm : (M.call g._mean_function v g)[i]? with
            | none => simp
            | some m => simp
    rw [hbody, loop_over_pair (MultiGP.mu_body P g v (M.call g._mean_function v g))
      (MultiGP.sigma_body P g v)]
    cases h1 : loop_over (MultiGP.mu_body P g v (M.call g._mean_function v g))
        (List.range' 0 (g._dim_out.toNat - 0)) (List.replicate g._dim_out.toNat none) with
    | none => simp
    | some a =>
      simp only [Option.some_bind]
      cases h2 : loop_over (MultiGP.sigma_body P g v)
          (List.range' 0 (g._dim_out.toNat - 0)) (List.replicate g._dim_out.toNat none) with
      | none =>
        cases hr : read_all a <;> simp
      | some b => simp

/-- C4 on example data: the interpolating posterior has `query = (mu, sigma)`, and the three
methods agree at `[2]`. -/
theorem query_eq_mu_sigma_witness :
    (∀ (gp : GP Int), gp ∈ ex_fitted._gp_models →
      lookup_posterior.query gp [2] = (lookup_posterior.mu gp [2], lookup_posterior.sigma gp [2])) ∧
    MultiGP.mu (constant_mean 2) lookup_posterior ex_fitted [2] = some [10, 11] ∧
    MultiGP.sigma lookup_posterior ex_fitted [2] = some [0, 0] ∧
    MultiGP.query (constant_mean 2) lookup_posterior ex_fitted [2] =
      (MultiGP.mu (constant_mean 2) lookup_posterior ex_fitted [2]).bind fun mu =>
        (MultiGP.sigma lookup_posterior ex_fitted [2]).map fun sigma => (mu, sigma) :=
  ⟨fun _ _ => rfl, by decide, by decide,
    query_eq_mu_sigma (constant_mean 2) lookup_posterior ex_fitted [2] (fun _ _ => rfl)⟩

/-- When `mu(v)` returns: for a `dim_out` that is not negative, when each of the first
`dim_out` scalar GPs exists and has a first coefficient in its posterior mean, and the mean
vector has a coefficient for it. Coefficient `i` of the result is their sum. -/
theorem mu_succeeds {R MF : Type} [Add R] (M : MeanFunction R MF) (P : Posterior R)
    (g : MultiGP R MF) (v : VectorXd R) (hd : 0 ≤ g._dim_out)
    (hwf : ∀ (i : Nat), i < g._dim_out.toNat → ∃ gp t0 m, g._gp_models[i]? = some gp ∧
      (P.mu gp v)[0]? = some t0 ∧ (M.call g._mean_function v g)[i]? = some m) :
    ∃ mu, MultiGP.mu M P g v = some mu ∧ mu.length = g._dim_out.toNat ∧
      ∀ (i : Nat), i < g._dim_out.toNat → ∃ gp t0 m, g._gp_models[i]? = some gp ∧
        (P.mu gp v)[0]? = some t0 ∧ (M.call g._mean_function v g)[i]? = some m ∧
        mu[i]? = some (t0 + m) := by
  have hstep : ∀ (k : Nat) (t : List (Option R)), 0 ≤ k → k < 0 + g._dim_out.toNat →
      (t.length = g._dim_out.toNat ∧
        ∀ (i : Nat), i < k → ∃ gp t0 m, g._gp_models[i]? = some gp ∧
          (P.mu gp v)[0]? = some t0 ∧ (M.call g._mean_function v g)[i]? = some m ∧
          t[i]? = some (some (t0 + m))) →
      ∃ t2, MultiGP.mu_body P g v (M.call g._mean_function v g) k t = some t2 ∧
        (t2.length = g._dim_out.toNat ∧
          ∀ (i : Nat), i < k + 1 → ∃ gp t0 m, g._gp_models[i]? = some gp ∧
            (P.mu gp v)[0]? = some t0 ∧ (M.call g._mean_function v g)[i]? = some m ∧
            t2[i]? = some (some (t0 + m))) := by
    intro k t _ hk hinv
    obtain ⟨hl, hprev⟩ := hinv
    obtain ⟨gp, t0, m, hgp, ht0, hm⟩ := hwf k (by omega)
    have hkt : k < t.length := by omega
    refine ⟨t.set k (some (t0 + m)), ?_, by simp [hl], ?_⟩
    · unfold MultiGP.mu_body
      simp only [hgp, ht0, hm]
      exact (write_at_eq_some _ _ _ _).mpr ⟨hkt, rfl⟩
    · intro i hi
      rcases Nat.lt_or_ge i k with hik | hik
      · obtain ⟨gp1, t1, m1, h1, h2, h3, h4⟩ := hprev i hik
        refine ⟨gp1, t1, m1, h1, h2, h3, ?_⟩
        rw [List.getElem?_set_ne (by omega)]
        exact h4
      · have hik2 : i = k := by omega
        subst hik2
        exact ⟨gp, t0, m, hgp, ht0, hm, List.getElem?_set_self hkt⟩
  obtain ⟨st, hst, hl, hall⟩ := loop_over_succeeds
    (MultiGP.mu_body P g v (M.call g._mean_function v g))
    (fun k (t : List (Option R)) => t.length = g._dim_out.toNat ∧
      ∀ (i : Nat), i < k → ∃ gp t0 m, g._gp_models[i]? = some gp ∧
        (P.mu gp v)[0]? = some t0 ∧ (M.call g._mean_function v g)[i]? = some m ∧
        t[i]? = some (some (t0 + m)))
    g._dim_out.toNat 0 (List.replicate g._dim_out.toNat none)
    ⟨by simp, fun i hi => by omega⟩ hstep
  simp only [Nat.zero_add] at hall
  obtain ⟨mu, hmu⟩ := read_all_succeeds st (fun i hi => by
    obtain ⟨_, t0, m, _, _, _, h4⟩ := hall i (by omega)
    exact ⟨t0 + m, h4⟩)
  obtain ⟨hml, hmget⟩ := read_all_getElem _ _ hmu
  refine ⟨mu, ?_, by rw [hml, hl], ?_⟩
  · unfold MultiGP.mu uninitialized
    have hd2 : ¬ g._dim_out < 0 := by omega
    simp only [hd2, if_false, Option.some_bind]
    rw [(par_loop_eq_some _ _ _ _).mpr ⟨hd, hst⟩]
    exact hmu
  · intro i hi
    obtain ⟨gp, t0, m, h1, h2, h3, h4⟩ := hall i hi
    exact ⟨gp, t0, m, h1, h2, h3, hmget i _ h4⟩

/-- C5, as amended: after a successful `compute(S, Y)`, if every scalar GP returns at each
training input the target it was fitted on, if the shared mean function returns at each
training input the same vector for the fitted MultiGP as it did for the MultiGP `g4` it
received inside `compute`, and if on every coefficient `a` of an observation and the
coefficient `b` of the mean at its sample the subtraction followed by the addition is exact,
`(a - b) + b = a` in the arithmetic of the scalar type, then `mu(S[j])` returns a vector of
`dim_out` coefficients that are those of `Y[j]`. -/
theorem mu_roundtrip_same_mean {R MF : Type} [Sub R] [Add R] (C : Cholesky R)
    (M : MeanFunction R MF)
    (P : Posterior R) (g g2 g4 : MultiGP R MF) (S Y : List (VectorXd R)) (ck : Bool)
    (s0 y0 : VectorXd R)
    (hC : MultiGP.compute C M g S Y ck = some g2)
    (hs0 : S.head? = some s0) (hy0 : Y.head? = some y0)
    (hg4 : MultiGP.compute_begin M g s0 y0 Y = some g4)
    (hmean : ∀ (s : VectorXd R), s ∈ S →
      M.call g2._mean_function s g2 = M.call g4._mean_function s g4)
    (hgp : ∀ (gp : GP R), gp ∈ g2._gp_models → ∀ (j : Nat), j < S.length →
      (S[j]?).map (P.mu gp) = gp.observations[j]?)
    (hexact : ∀ (j i : Nat) (s yj : VectorXd R) (a b : R), S[j]? = some s →
      Y[j]? = some yj → yj[i]? = some a → (M.call g4._mean_function s g4)[i]? = some b →
      (a - b) + b = a) :
    ∀ (j : Nat) (s yj : VectorXd R), S[j]? = some s → Y[j]? = some yj →
      ∃ mu, MultiGP.mu M P g2 s = some mu ∧ (mu.length : Int) = g2._dim_out ∧
        ∀ (i : Nat), (i : Int) < g2._dim_out → mu[i]? = yj[i]? := by
  intro j s yj hs hyj
  cases S with
  | nil => simp at hs0
  | cons s1 St =>
    cases Y with
    | nil => simp at hy0
    | cons y1 Yt =>
      simp only [List.head?_cons, Option.some.injEq] at hs0 hy0
      subst hs0 hy0
      obtain ⟨hl, g4b, obs, hg4b, hrows, hg2⟩ := compute_spec C M g g2 s1 y1 St Yt ck hC
      rw [hg4] at hg4b
      cases hg4b
      obtain ⟨hlen4, hd4⟩ := compute_begin_length M g g4 s1 y1 _ hg4
      have hd2 : g2._dim_out = (y1.length : Int) := by rw [hg2]; exact hd4
      have hjS : j < (s1 :: St).length := (List.getElem?_eq_some.mp hs).1
      have hsmem : s ∈ s1 :: St := List.getElem?_mem hs
      have hwf : ∀ (i : Nat), i < g2._dim_out.toNat → ∃ gp t0 m,
          g2._gp_models[i]? = some gp ∧ (P.mu gp s)[0]? = some t0 ∧
          (M.call g2._mean_function s g2)[i]? = some m ∧ yj[i]? = some (t0 + m) := by
        intro i hi
        have hi2 : i < y1.length := by rw [hd2] at hi; simpa using hi
        obtain ⟨col, hcol, _, hcrows⟩ := hrows.2.2 i hi2
        obtain ⟨s2, y2, r, hs2, hy2, hr, hcj⟩ := hcrows j (by simpa [hl] using hjS)
        rw [hs] at hs2
        rw [hyj] at hy2
        cases hs2
        cases hy2
        obtain ⟨a, b, ha, hb, hab⟩ := (residual_eq_some _ _ _ _).mp hr
        have hgpi : g2._gp_models[i]? = some ⟨s1 :: St, col⟩ := by
          rw [hg2]
          simp [List.getElem?_map, hcol]
        have hmu := hgp _ (List.getElem?_mem hgpi) j hjS
        simp only [hs, Option.map_some', hcj] at hmu
        simp only [Option.some.injEq] at hmu
        refine ⟨_, a - b, b, hgpi, ?_, ?_, ?_⟩
        · rw [hmu, hab]
          rfl
        · rw [hmean s hsmem]
          exact hb
        · rw [ha, hexact j i s yj a b hs hyj ha hb]
      obtain ⟨mu, hmu, hml, hmc⟩ := mu_succeeds M P g2 s (by rw [hd2]; omega)
        (fun i hi => by
          obtain ⟨gp, t0, m, h1, h2, h3, _⟩ := hwf i hi
          exact ⟨gp, t0, m, h1, h2, h3⟩)
      refine ⟨mu, hmu, by rw [hml, hd2]; simp, ?_⟩
      intro i hi
      have hi2 : i < g2._dim_out.toNat := by omega
      obtain ⟨gp, t0, m, h1, h2, h3, h4⟩ := hmc i hi2
      obtain ⟨gp2, t02, m2, h12, h22, h32, h42⟩ := hwf i hi2
      rw [h1] at h12
      cases h12
      rw [h2] at h22
      rw [h3] at h32
      cases h22
      cases h32
      rw [h4, h42]

/-- C5 on example data, with the constant mean 2: `mu` at the training inputs returns the
observations. -/
theorem mu_roundtrip_same_mean_witness :
    MultiGP.compute always_fits (constant_mean 2) (MultiGP.new0 (constant_mean 2))
      ex_samples ex_observations true = some ex_fitted ∧
    MultiGP.compute_begin (constant_mean 2) (MultiGP.new0 (constant_mean 2)) [1] [5, 6]
      ex_observations = some ex_begin ∧
    (∀ (s : VectorXd Int), s ∈ ex_samples →
      (constant_mean 2).call ex_fitted._mean_function s ex_fitted
        = (constant_mean 2).call ex_begin._mean_function s ex_begin) ∧
    (∀ (gp : GP Int), gp ∈ ex_fitted._gp_models → ∀ (j : Nat), j < ex_samples.length →
      (ex_samples[j]?).map (lookup_posterior.mu gp) = gp.observations[j]?) ∧
    MultiGP.mu (constant_mean 2) lookup_posterior ex_fitted [2] = some [10, 11] ∧
    ∀ (j : Nat) (s yj : VectorXd Int), ex_samples[j]? = some s → ex_observations[j]? = some yj →
      ∃ mu, MultiGP.mu (constant_mean 2) lookup_posterior ex_fitted s = some mu ∧
        (mu.length : Int) = ex_fitted._dim_out ∧
        ∀ (i : Nat), (i : Int) < ex_fitted._dim_out → mu[i]? = yj[i]? :=
  ⟨by decide, by decide, by decide, by decide, by decide,
    mu_roundtrip_same_mean always_fits (constant_mean 2) lookup_posterior
      (MultiGP.new0 (constant_mean 2))
      ex_fitted ex_begin ex_samples ex_observations true [1] [5, 6]
      (by decide) (by decide) (by decide) (by decide) (by decide) (by decide)
      (fun _ _ _ _ a b _ _ _ _ => Int.sub_add_cancel a b)⟩

/-- C5 fails as stated, in two ways. With a mean function that reads `nb_samples()` of the
MultiGP it is given, `compute` subtracts the mean 0 (the scalar GPs hold no sample yet),
each scalar GP returns at each training input the target it was fitted on, and `mu` at the
first training input adds the mean 2 (two samples now): it returns `[7, 8]`, not the
observation `[5, 6]`. And in doubles with the constant mean 0.1, which does not read the
MultiGP: the target of the observation 0.01 is `0.01 - 0.1`, rounded, the scalar GP returns
it, and `mu` adds 0.1 and rounds again: it returns `0x1.47ae147ae1478p-7`
(0.009999999999999995), not the observation 0.01, which is `0x1.47ae147ae147bp-7`. -/
theorem mu_roundtrip_counterexample :
    (MultiGP.compute always_fits nb_samples_mean (MultiGP.new0 nb_samples_mean)
      ex_samples ex_observations true = some ex_fitted_nb ∧
    (∀ (gp : GP Int), gp ∈ ex_fitted_nb._gp_models → ∀ (j : Nat), j < ex_samples.length →
      (ex_samples[j]?).map (lookup_posterior.mu gp) = gp.observations[j]?) ∧
    ex_samples[0]? = some [1] ∧ ex_observations[0]? = some [5, 6] ∧
    MultiGP.mu nb_samples_mean lookup_posterior ex_fitted_nb [1] = some [7, 8] ∧
    ¬ (∃ mu, MultiGP.mu nb_samples_mean lookup_posterior ex_fitted_nb [1] = some mu ∧
        ∀ (i : Nat), (i : Int) < ex_fitted_nb._dim_out →
          mu[i]? = ([5, 6] : VectorXd Int)[i]?)) ∧
    (MultiGP.compute always_fits (double_constant_mean Double.tenth)
      (MultiGP.new0 (double_constant_mean Double.tenth))
      ex_double_samples ex_double_observations true = some ex_double_fitted ∧
    (∀ (gp : GP Double), gp ∈ ex_double_fitted._gp_models →
      ∀ (j : Nat), j < ex_double_samples.length →
        (ex_double_samples[j]?).map (double_lookup_posterior.mu gp) = gp.observations[j]?) ∧
    ex_double_samples[1]? = some [Double.of_int 1] ∧
    ex_double_observations[1]? = some [Double.hundredth] ∧
    Double.hundredth - Double.tenth = Double.finite true 6485183463413515 (-56) ∧
    Double.finite true 6485183463413515 (-56) + Double.tenth
      = Double.finite false 5764607523034232 (-59) ∧
    MultiGP.mu (double_constant_mean Double.tenth) double_lookup_posterior ex_double_fitted
      [Double.of_int 1] = some [Double.finite false 5764607523034232 (-59)] ∧
    MultiGP.mu (double_constant_mean Double.tenth) double_lookup_posterior ex_double_fitted
      [Double.of_int 1] ≠ some [Double.hundredth] ∧
    Double.lt (Double.finite false 5764607523034232 (-59)) Double.hundredth = true) := by
  refine ⟨⟨by decide, by decide, by decide, by decide, by decide, ?_⟩,
    by decide, by decide, by decide, by decide, by decide, by decide, by decide, by decide,
    by decide⟩
  rintro ⟨mu, hmu, hall⟩
  have h78 : MultiGP.mu nb_samples_mean lookup_posterior ex_fitted_nb [1] = some [7, 8] := by
    decide
  rw [h78] at hmu
  cases hmu
  have h0 := hall 0 (by decide)
  revert h0
  decide

/-! ### `compute` followed by `add_sample` -/

/-- The columns of residuals are determined by the samples, the observations and the values
of the mean function: two runs that see the same mean vectors have the same columns. -/
theorem obsRows_unique {R MF : Type} [Sub R] (M : MeanFunction R MF) (ga gb : MultiGP R MF)
    (S Y : List (VectorXd R)) (d k : Nat) (obs1 obs2 : List (List (VectorXd R)))
    (h1 : ObsRows M ga S Y d k obs1) (h2 : ObsRows M gb S Y d k obs2)
    (hmean : ∀ (s : VectorXd R), s ∈ S →
      M.call ga._mean_function s ga = M.call gb._mean_function s gb) :
    obs1 = obs2 := by
  apply List.ext_getElem?
  intro i
  rcases Nat.lt_or_ge i d with hi | hi
  · obtain ⟨c1, hc1, hl1, hr1⟩ := h1.2.2 i hi
    obtain ⟨c2, hc2, hl2, hr2⟩ := h2.2.2 i hi
    rw [hc1, hc2]
    congr 1
    apply List.ext_getElem?
    intro j
    rcases Nat.lt_or_ge j k with hj | hj
    · obtain ⟨s, y, r, hs, hy, hr, hcj⟩ := hr1 j hj
      obtain ⟨s2, y2, r2, hs2, hy2, hr2b, hcj2⟩ := hr2 j hj
      rw [hs] at hs2
      rw [hy] at hy2
      cases hs2
      cases hy2
      rw [hmean s (List.getElem?_mem hs), hr2b] at hr
      cases hr
      rw [hcj, hcj2]
    · rw [List.getElem?_eq_none (by omega), List.getElem?_eq_none (by omega)]
  · rw [List.getElem?_eq_none (by rw [h1.1]; exact hi),
      List.getElem?_eq_none (by rw [h2.1]; exact hi)]

/-- Every observation treated by `compute` has at least `dim_out` coefficients. -/
theorem obsRows_obs_length {R MF : Type} [Sub R] (M : MeanFunction R MF) (g : MultiGP R MF)
    (S Y : List (VectorXd R)) (d : Nat) (obs : List (List (VectorXd R)))
    (h : ObsRows M g S Y d Y.length obs) :
    ∀ (y : VectorXd R), y ∈ Y → d ≤ y.length := by
  intro y hy
  obtain ⟨j, hj⟩ := List.mem_iff_getElem?.mp hy
  have hjl : j < Y.length := (List.getElem?_eq_some.mp hj).1
  rcases Nat.eq_zero_or_pos d with hd | hd
  · omega
  · obtain ⟨col, _, _, hr⟩ := h.2.2 (d - 1) (by omega)
    obtain ⟨s, y2, r, _, hy2, hres, _⟩ := hr j hjl
    rw [hj] at hy2
    cases hy2
    obtain ⟨a, b, ha, _, _⟩ := (residual_eq_some _ _ _ _).mp hres
    have := (List.getElem?_eq_some.mp ha).1
    omega

/-- The MultiGP at the start of `compute` depends on the observations only through the
field in which they are saved. -/
theorem compute_begin_obs {R MF : Type} (M : MeanFunction R MF) (g g4 : MultiGP R MF)
    (s0 y0 : VectorXd R) (Y Y2 : List (VectorXd R))
    (h : MultiGP.compute_begin M g s0 y0 Y = some g4) :
    MultiGP.compute_begin M g s0 y0 Y2 = some { g4 with _observations := Y2 } ∧
      g4._dim_in = (s0.length : Int) ∧ g4._observations = Y := by
  rw [compute_begin_eq] at h
  cases h
  rw [compute_begin_eq]
  exact ⟨rfl, rfl, rfl⟩

/-- On a MultiGP that already has the dimensions of the data and as many scalar GPs, the
start of `compute` only saves the observations. -/
theorem compute_begin_fixed {R MF : Type} (M : MeanFunction R MF) (g : MultiGP R MF)
    (s0 y0 : VectorXd R) (Y2 : List (VectorXd R))
    (h1 : g._dim_in = (s0.length : Int)) (h2 : g._dim_out = (y0.length : Int))
    (h3 : g._gp_models.length = y0.length) :
    MultiGP.compute_begin M g s0 y0 Y2 = some { g with _observations := Y2 } := by
  rw [compute_begin_eq]
  obtain ⟨ms, di, dout, mf, ob⟩ := g
  simp only at h1 h2 h3
  subst h1 h2
  simp [h3]

/-- For a shared mean function whose value does not depend on the MultiGP it is called
with, after `compute(S, Y)` and `add_sample(x, y)` on at least one output: the columns of
residuals of the extended data, against the mean function of the fitted MultiGP called with
any MultiGP, fitted on the extended samples, are the scalar GPs that `add_sample` left. -/
theorem extended_models {R MF : Type} [Sub R] (C : Cholesky R) (M : MeanFunction R MF)
    (g g2 g3 gX : MultiGP R MF) (s0 y0 : VectorXd R) (St Yt : List (VectorXd R))
    (x y : VectorXd R) (ck : Bool) (obsB : List (List (VectorXd R)))
    (hM : ∀ (mf : MF) (v : VectorXd R) (ga gb : MultiGP R MF), M.call mf v ga = M.call mf v gb)
    (hC : MultiGP.compute C M g (s0 :: St) (y0 :: Yt) ck = some g2)
    (hout : g2._gp_models ≠ [])
    (hA : MultiGP.add_sample C M g2 x y = some g3)
    (hmf : gX._mean_function = g2._mean_function)
    (hrowsB : ObsRows M gX (s0 :: (St ++ [x])) (y0 :: (Yt ++ [y])) y0.length
      ((Yt ++ [y]).length + 1) obsB) :
    obsB.map (fun o => GP.mk (s0 :: (St ++ [x])) o) = g3._gp_models := by
  obtain ⟨hl, g4, obs, hg4, hrows, hg2⟩ := compute_spec C M g g2 s0 y0 St Yt ck hC
  obtain ⟨hlen4, hd4⟩ := compute_begin_length M g g4 s0 y0 _ hg4
  obtain ⟨g1, ms, hg1, hg3, _, hmeanlen, hmslen, hms1, _⟩ :=
    add_sample_spec C M g2 g3 x y hA
  rw [add_sample_dims_nonempty M g2 x y hout] at hg1
  split at hg1
  · cases hg1
    have hd2 : g2._dim_out = (y0.length : Int) := by rw [hg2]; exact hd4
    have hmf2 : g2._mean_function = g4._mean_function := by rw [hg2]
    rw [hg3]
    simp only
    apply List.ext_getElem?
    intro i
    rcases Nat.lt_or_ge i y0.length with hi | hi
    · obtain ⟨colB, hcolB, hlB, hrB⟩ := hrowsB.2.2 i hi
      obtain ⟨col, hcol, hlA, hrA⟩ := hrows.2.2 i hi
      obtain ⟨gp, r, hgp, hr, hmsi⟩ := hms1 i (by rw [hd2]; simpa using hi)
      have hgp2 : g2._gp_models[i]? = some ⟨s0 :: St, col⟩ := by
        rw [hg2]
        simp [List.getElem?_map, hcol]
      rw [hgp2] at hgp
      cases hgp
      rw [hmsi, List.getElem?_map, hcolB]
      simp only [Option.map_some', Option.some.injEq, GP.mk.injEq,
        List.cons_append, true_and]
      apply List.ext_getElem?
      intro j
      rcases Nat.lt_or_ge j (Yt.length + 1) with hj | hj
      · obtain ⟨sB, yB, rB, hsB, hyB, hresB, hcB⟩ := hrB j (by simp; omega)
        obtain ⟨sA, yA, rA, hsA, hyA, hresA, hcA⟩ := hrA j hj
        have hsB2 : (s0 :: (St ++ [x]))[j]? = (s0 :: St)[j]? := by
          rw [← List.cons_append, List.getElem?_append_left (by simp; omega)]
        have hyB2 : (y0 :: (Yt ++ [y]))[j]? = (y0 :: Yt)[j]? := by
          rw [← List.cons_append, List.getElem?_append_left (by simp; omega)]
        rw [hsB2, hsA] at hsB
        rw [hyB2, hyA] at hyB
        have e1 : sA = sB := Option.some.inj hsB
        have e2 : yA = yB := Option.some.inj hyB
        rw [← e1, ← e2, hmf, hmf2, hM _ sA _ g4, hresA] at hresB
        have e3 : rA = rB := Option.some.inj hresB
        rw [hcB, List.getElem?_append_left (by omega), hcA, e3]
      · rcases Nat.eq_or_lt_of_le hj with hje | hjl
        · subst hje
          obtain ⟨sB, yB, rB, hsB, hyB, hresB, hcB⟩ := hrB (Yt.length + 1) (by simp)
          have hsB2 : (s0 :: (St ++ [x]))[Yt.length + 1]? = some x := by
            rw [← List.cons_append, List.getElem?_append_right (by simp [hl])]
            simp [hl]
          have hyB2 : (y0 :: (Yt ++ [y]))[Yt.length + 1]? = some y := by
            rw [← List.cons_append, List.getElem?_append_right (by simp)]
            simp
          rw [hsB2] at hsB
          rw [hyB2] at hyB
          have e1 : x = sB := Option.some.inj hsB
          have e2 : y = yB := Option.some.inj hyB
          rw [hmf2, hM _ x _ g4] at hr
          rw [← e1, ← e2, hmf, hmf2, hM _ x _ g4, hr] at hresB
          have e3 : r = rB := Option.some.inj hresB
          rw [hcB, List.getElem?_append_right (by omega), ← e3]
          simp [hlA]
        · rw [List.getElem?_eq_none (by simp at hlB; omega),
            List.getElem?_eq_none (by simp; omega)]
    · rw [List.getElem?_eq_none (by simp [hrowsB.1]; exact hi),
        List.getElem?_eq_none (by rw [hmslen, hg2]; simpa [hrows.1] using hi)]
  · cases hg1

/-- What `compute(S, Y)` followed by `add_sample(x, y)`, on at least one output, leaves:
the dimensions of the data, the mean function of the fit, the observations with `y`
appended, one scalar GP per output, and the extended sample list in scalar GP 0. -/
theorem extended_fields {R MF : Type} [Sub R] (C : Cholesky R) (M : MeanFunction R MF)
    (g g2 g3 : MultiGP R MF) (s0 y0 : VectorXd R) (St Yt : List (VectorXd R))
    (x y : VectorXd R) (ck : Bool)
    (hC : MultiGP.compute C M g (s0 :: St) (y0 :: Yt) ck = some g2)
    (hout : g2._gp_models ≠ [])
    (hA : MultiGP.add_sample C M g2 x y = some g3) :
    St.length = Yt.length ∧
    g3._dim_in = (s0.length : Int) ∧ g3._dim_out = (y0.length : Int) ∧
    g3._mean_function = g2._mean_function ∧
    g3._observations = y0 :: (Yt ++ [y]) ∧
    g3._gp_models.length = y0.length ∧
    x.length = s0.length ∧ y.length = y0.length ∧
    (∃ g4, MultiGP.compute_begin M g s0 y0 (y0 :: Yt) = some g4 ∧
      g2._mean_function = g4._mean_function ∧
      (∃ obs, ObsRows M g4 (s0 :: St) (y0 :: Yt) y0.length (Yt.length + 1) obs) ∧
      (M.call g2._mean_function x { g2 with _observations := g2._observations ++ [y] }).length
        = y0.length) ∧
    ∃ c rest, g3._gp_models = ⟨s0 :: (St ++ [x]), c⟩ :: rest := by
  obtain ⟨hl, g4, obs, hg4, hrows, hg2⟩ := compute_spec C M g g2 s0 y0 St Yt ck hC
  obtain ⟨hlen4, hd4⟩ := compute_begin_length M g g4 s0 y0 _ hg4
  obtain ⟨_, hdi4, hob4⟩ := compute_begin_obs M g g4 s0 y0 _ (y0 :: (Yt ++ [y])) hg4
  obtain ⟨g1, ms, hg1, hg3, _, hmeanlen, hmslen, hms1, _⟩ :=
    add_sample_spec C M g2 g3 x y hA
  rw [add_sample_dims_nonempty M g2 x y hout] at hg1
  split at hg1
  · rename_i hdims
    cases hg1
    obtain ⟨hxl, hyl⟩ := hdims
    have hd2 : g2._dim_out = (y0.length : Int) := by rw [hg2]; exact hd4
    have hdi2 : g2._dim_in = (s0.length : Int) := by rw [hg2]; exact hdi4
    have hmf2 : g2._mean_function = g4._mean_function := by rw [hg2]
    have hob2 : g2._observations = y0 :: Yt := by rw [hg2]; exact hob4
    have hlen2 : g2._gp_models.length = y0.length := by
      rw [hg2]
      simp [hrows.1]
    have hpos : 0 < y0.length := by
      rcases Nat.eq_zero_or_pos y0.length with h0 | h0
      · exfalso
        apply hout
        exact List.length_eq_zero.mp (hlen2.trans h0)
      · exact h0
    refine ⟨hl, by rw [hg3]; exact hdi2, by rw [hg3]; exact hd2, by rw [hg3],
      by rw [hg3]; simp [hob2], by rw [hg3]; simp only; rw [hmslen, hlen2],
      by rw [hdi2] at hxl; exact_mod_cast hxl, by rw [hd2] at hyl; exact_mod_cast hyl,
      ⟨g4, hg4, hmf2, ⟨obs, hrows⟩, ?_⟩, ?_⟩
    · have hml := hmeanlen.trans hd2
      exact_mod_cast hml
    · obtain ⟨col, hcol, _, _⟩ := hrows.2.2 0 hpos
      obtain ⟨gp, r, hgp, _, hmsi⟩ := hms1 0 (by rw [hd2]; simpa using hpos)
      have hgp2 : g2._gp_models[0]? = some ⟨s0 :: St, col⟩ := by
        rw [hg2]
        simp [List.getElem?_map, hcol]
      rw [hgp2] at hgp
      cases hgp
      rw [hg3]
      simp only
      cases hm : ms with
      | nil => rw [hm] at hmsi; simp at hmsi
      | cons a rest =>
        rw [hm] at hmsi
        simp only [List.getElem?_cons_zero, Option.some.injEq, List.cons_append] at hmsi
        exact ⟨_, rest, by rw [hmsi]⟩
  · cases hg1

/-- For a shared mean function whose value does not depend on the MultiGP it is called
with: after `compute(S, Y)` followed by `add_sample(x, y)`, on at least one output, the
single `compute(S ++ [x], Y ++ [y])`, when it succeeds, leaves the same MultiGP, and
`recompute()`, when it succeeds, changes nothing. -/
theorem compute_add_sample_same_mean {R MF : Type} [Sub R] (C : Cholesky R)
    (M : MeanFunction R MF)
    (g g2 g3 : MultiGP R MF) (s0 y0 : VectorXd R) (St Yt : List (VectorXd R))
    (x y : VectorXd R) (ck : Bool)
    (hM : ∀ (mf : MF) (v : VectorXd R) (ga gb : MultiGP R MF), M.call mf v ga = M.call mf v gb)
    (hC : MultiGP.compute C M g (s0 :: St) (y0 :: Yt) ck = some g2)
    (hout : g2._gp_models ≠ [])
    (hA : MultiGP.add_sample C M g2 x y = some g3) :
    (∀ (gB : MultiGP R MF),
      MultiGP.compute C M g (s0 :: (St ++ [x])) (y0 :: (Yt ++ [y])) ck = some gB → gB = g3) ∧
    (∀ (g5 : MultiGP R MF) (ck2 : Bool),
      MultiGP.compute C M g3 (s0 :: (St ++ [x])) (y0 :: (Yt ++ [y])) ck2 = some g5 →
      g5 = g3) := by
  obtain ⟨hl, hdi3, hd3, hmf3, hob3, hlen3, _, _, ⟨g4, hg4, hmf2, _, _⟩, _⟩ :=
    extended_fields C M g g2 g3 s0 y0 St Yt x y ck hC hout hA
  obtain ⟨hg4b, hdi4, hob4⟩ := compute_begin_obs M g g4 s0 y0 _ (y0 :: (Yt ++ [y])) hg4
  obtain ⟨_, hd4⟩ := compute_begin_length M g g4 s0 y0 _ hg4
  constructor
  · intro gB hB
    obtain ⟨_, g4c, obsB, hg4c, hrowsB, hgBeq⟩ :=
      compute_spec C M g gB s0 y0 (St ++ [x]) (Yt ++ [y]) ck hB
    rw [hg4b] at hg4c
    have e4 : ({ g4 with _observations := y0 :: (Yt ++ [y]) } : MultiGP R MF) = g4c :=
      Option.some.inj hg4c
    have hmodels := extended_models C M g g2 g3 g4c s0 y0 St Yt x y ck obsB hM hC hout hA
      (by rw [← e4, hmf2]) hrowsB
    rw [hgBeq, hmodels, ← e4]
    obtain ⟨ms3, di3, do3, mf3, ob3⟩ := g3
    simp only at hdi3 hd3 hmf3 hob3
    simp only [MultiGP.mk.injEq, true_and]
    exact ⟨by rw [hdi4, hdi3], by rw [hd4, hd3], by rw [hmf3, hmf2], hob3.symm⟩
  · intro g5 ck2 h5
    obtain ⟨_, g4r, obsR, hg4r, hrowsR, hg5eq⟩ :=
      compute_spec C M g3 g5 s0 y0 (St ++ [x]) (Yt ++ [y]) ck2 h5
    have hfix := compute_begin_fixed M g3 s0 y0 (y0 :: (Yt ++ [y])) hdi3 hd3 hlen3
    have hself : ({ g3 with _observations := y0 :: (Yt ++ [y]) } : MultiGP R MF) = g3 := by
      rw [← hob3]
    rw [hself, hg4r] at hfix
    have e4 : g4r = g3 := Option.some.inj hfix
    rw [e4] at hrowsR hg5eq
    have hmodels := extended_models C M g g2 g3 g3 s0 y0 St Yt x y ck obsR hM hC hout hA
      hmf3 hrowsR
    rw [hg5eq, hmodels]

/-- For a shared mean function whose value does not depend on the MultiGP it is called
with: after `compute(S, Y)` followed by `add_sample(x, y)`, on at least one output, the
single `compute(S ++ [x], Y ++ [y])` and `recompute()` succeed when the factorisation of
every fit on the extended samples can be completed. -/
theorem compute_extended_succeeds {R MF : Type} [Sub R] (C : Cholesky R)
    (M : MeanFunction R MF)
    (g g2 g3 : MultiGP R MF) (s0 y0 : VectorXd R) (St Yt : List (VectorXd R))
    (x y : VectorXd R) (ck : Bool)
    (hM : ∀ (mf : MF) (v : VectorXd R) (ga gb : MultiGP R MF), M.call mf v ga = M.call mf v gb)
    (hC : MultiGP.compute C M g (s0 :: St) (y0 :: Yt) ck = some g2)
    (hout : g2._gp_models ≠ [])
    (hA : MultiGP.add_sample C M g2 x y = some g3)
    (hfit : ∀ (gp : GP R) (o : List (VectorXd R)) (b : Bool),
      C.compute_ok gp (s0 :: (St ++ [x])) o b = true) :
    (∃ gB, MultiGP.compute C M g (s0 :: (St ++ [x])) (y0 :: (Yt ++ [y])) ck = some gB) ∧
    (∀ (ck2 : Bool),
      ∃ g5, MultiGP.compute C M g3 (s0 :: (St ++ [x])) (y0 :: (Yt ++ [y])) ck2 = some g5) := by
  obtain ⟨hl, hdi3, hd3, hmf3, hob3, hlen3, _, hyl, ⟨g4, hg4, hmf2, ⟨obs, hrows⟩, hmx⟩, _⟩ :=
    extended_fields C M g g2 g3 s0 y0 St Yt x y ck hC hout hA
  obtain ⟨hg4b, _, _⟩ := compute_begin_obs M g g4 s0 y0 _ (y0 :: (Yt ++ [y])) hg4
  have hrowsY : ObsRows M g4 (s0 :: St) (y0 :: Yt) y0.length (y0 :: Yt).length obs := by
    simpa using hrows
  have hmlen : ∀ (gX : MultiGP R MF) (s : VectorXd R), s ∈ s0 :: (St ++ [x]) →
      (M.call g4._mean_function s gX).length = y0.length := by
    intro gX s hs
    have hs2 : s ∈ (s0 :: St) ∨ s = x := by
      simp only [List.mem_cons, List.mem_append, List.mem_singleton] at hs
      simp only [List.mem_cons]
      tauto
    rcases hs2 with hs2 | hs2
    · obtain ⟨j, hj⟩ := List.mem_iff_getElem?.mp hs2
      have hjl : j < (s0 :: St).length := (List.getElem?_eq_some.mp hj).1
      obtain ⟨s3, hs3, hm⟩ := hrows.2.1 j (by simpa [hl] using hjl)
      rw [hj] at hs3
      cases hs3
      rw [hM _ s _ g4]
      exact hm
    · subst hs2
      rw [← hmf2, hM _ s _ { g2 with _observations := g2._observations ++ [y] }]
      exact hmx
  have hylen : ∀ (y2 : VectorXd R), y2 ∈ y0 :: (Yt ++ [y]) → y0.length ≤ y2.length := by
    intro y2 hy2
    have hy3 : y2 ∈ (y0 :: Yt) ∨ y2 = y := by
      simp only [List.mem_cons, List.mem_append, List.mem_singleton] at hy2
      simp only [List.mem_cons]
      tauto
    rcases hy3 with hy3 | hy3
    · exact obsRows_obs_length M g4 _ _ _ obs hrowsY y2 hy3
    · rw [hy3, hyl]
  constructor
  · obtain ⟨obsB, _, hB⟩ := compute_succeeds C M g _ s0 y0 (St ++ [x]) (Yt ++ [y]) ck
      (by simp [hl]) hg4b (fun s hs => hmlen _ s hs) hylen
      (fun _ _ _ gp o _ _ => hfit gp o ck)
    exact ⟨_, hB⟩
  · intro ck2
    have hfix := compute_begin_fixed M g3 s0 y0 (y0 :: (Yt ++ [y])) hdi3 hd3 hlen3
    have hself : ({ g3 with _observations := y0 :: (Yt ++ [y]) } : MultiGP R MF) = g3 := by
      rw [← hob3]
    rw [hself] at hfix
    obtain ⟨obsR, _, hR⟩ := compute_succeeds C M g3 g3 s0 y0 (St ++ [x]) (Yt ++ [y]) ck2
      (by simp [hl]) hfix (fun s hs => by rw [hmf3, hmf2]; exact hmlen _ s hs) hylen
      (fun _ _ _ gp o _ _ => hfit gp o ck2)
    exact ⟨_, hR⟩

/-- C6, as amended: let `compute(S, Y)` succeed and leave at least one scalar GP, and let
`add_sample(x, y)` succeed after it. Whenever the single `compute(S ++ [x], Y ++ [y])`
succeeds, it leaves the same stored observations and the same samples in every scalar GP.
When moreover the value of the shared mean function does not depend on the MultiGP it is
called with, the single `compute`, whenever it succeeds, leaves exactly the same MultiGP
(targets included), and a following `recompute()`, whenever it succeeds, returns that
MultiGP unchanged; both succeed when the factorisation of every scalar fit on the extended
samples can be completed. -/
theorem compute_add_sample_eq_compute {R MF : Type} [Sub R] (C : Cholesky R)
    (M : MeanFunction R MF)
    (g g2 g3 : MultiGP R MF) (S Y : List (VectorXd R)) (x y : VectorXd R) (ck : Bool)
    (hC : MultiGP.compute C M g S Y ck = some g2)
    (hout : g2._gp_models ≠ [])
    (hA : MultiGP.add_sample C M g2 x y = some g3) :
    (∀ (gB : MultiGP R MF), MultiGP.compute C M g (S ++ [x]) (Y ++ [y]) ck = some gB →
      gB._observations = g3._observations ∧
      gB._gp_models.map GP.samples = g3._gp_models.map GP.samples) ∧
    ((∀ (mf : MF) (v : VectorXd R) (ga gb : MultiGP R MF), M.call mf v ga = M.call mf v gb) →
      (∀ (gB : MultiGP R MF), MultiGP.compute C M g (S ++ [x]) (Y ++ [y]) ck = some gB →
        gB = g3) ∧
      (∀ (g5 : MultiGP R MF), MultiGP.recompute C M g3 true true = some g5 → g5 = g3) ∧
      ((∀ (gp : GP R) (o : List (VectorXd R)) (b : Bool),
          C.compute_ok gp (S ++ [x]) o b = true) →
        MultiGP.compute C M g (S ++ [x]) (Y ++ [y]) ck = some g3 ∧
        MultiGP.recompute C M g3 true true = some g3)) := by
  cases S with
  | nil => simp [MultiGP.compute] at hC
  | cons s0 St =>
    cases Y with
    | nil => simp [MultiGP.compute] at hC
    | cons y0 Yt =>
      simp only [List.cons_append]
      have hrec : ∀ (o : Option (MultiGP R MF)),
          MultiGP.recompute C M g3 true true = o ↔
            MultiGP.compute C M g3 (s0 :: (St ++ [x])) (y0 :: (Yt ++ [y])) true = o := by
        intro o
        obtain ⟨_, _, _, _, hob3, _, _, _, _, c, rest, hm3⟩ :=
          extended_fields C M g g2 g3 s0 y0 St Yt x y ck hC hout hA
        unfold MultiGP.recompute
        rw [hm3]
        simp only [if_true]
        rw [hob3]
      refine ⟨?_, fun hM => ?_⟩
      · intro gB hB
        obtain ⟨hl, g4, obs, hg4, hrows, hg2⟩ := compute_spec C M g g2 s0 y0 St Yt ck hC
        obtain ⟨hg4b, _, hob4⟩ := compute_begin_obs M g g4 s0 y0 _ (y0 :: (Yt ++ [y])) hg4
        obtain ⟨_, hd4⟩ := compute_begin_length M g g4 s0 y0 _ hg4
        obtain ⟨g1, ms, hg1, hg3, _, _, hmslen, hms1, _⟩ := add_sample_spec C M g2 g3 x y hA
        rw [add_sample_dims_nonempty M g2 x y hout] at hg1
        split at hg1
        · cases hg1
          obtain ⟨_, g4c, obsB, hg4c, hrowsB, hgBeq⟩ :=
            compute_spec C M g gB s0 y0 (St ++ [x]) (Yt ++ [y]) ck hB
          rw [hg4b] at hg4c
          cases hg4c
          have hd2 : g2._dim_out = (y0.length : Int) := by rw [hg2]; exact hd4
          constructor
          · rw [hgBeq, hg3, hg2]
            simp [hob4]
          · apply List.ext_getElem?
            intro i
            rcases Nat.lt_or_ge i y0.length with hi | hi
            · obtain ⟨colB, hcolB, _, _⟩ := hrowsB.2.2 i hi
              obtain ⟨col, hcol, _, _⟩ := hrows.2.2 i hi
              obtain ⟨gp, r, hgp, _, hmsi⟩ := hms1 i (by rw [hd2]; simpa using hi)
              have hgp2 : g2._gp_models[i]? = some ⟨s0 :: St, col⟩ := by
                rw [hg2]
                simp [List.getElem?_map, hcol]
              rw [hgp2] at hgp
              have e1 : (⟨s0 :: St, col⟩ : GP R) = gp := Option.some.inj hgp
              rw [hgBeq, hg3]
              simp only [List.getElem?_map, hcolB, hmsi, Option.map_some', ← e1,
                List.cons_append]
            · rw [List.getElem?_eq_none (by rw [hgBeq]; simp [hrowsB.1]; exact hi),
                List.getElem?_eq_none (by
                  rw [hg3]
                  simp only [List.length_map]
                  rw [hmslen, hg2]
                  simpa [hrows.1] using hi)]
        · cases hg1
      · obtain ⟨h1, h2⟩ :=
          compute_add_sample_same_mean C M g g2 g3 s0 y0 St Yt x y ck hM hC hout hA
        refine ⟨h1, fun g5 h5 => h2 g5 true ((hrec _).mp h5), fun hfit => ?_⟩
        obtain ⟨⟨gB, hB⟩, hR⟩ :=
          compute_extended_succeeds C M g g2 g3 s0 y0 St Yt x y ck hM hC hout hA hfit
        obtain ⟨g5, h5⟩ := hR true
        constructor
        · rw [hB, h1 gB hB]
        · rw [(hrec _).mpr h5, h2 g5 true h5]

/-- C6 on example data, with the constant mean 2: fitting on two samples and adding a third
leaves the MultiGP that fitting on the three leaves, and `recompute()` keeps it. -/
theorem compute_add_sample_eq_compute_witness :
    MultiGP.compute always_fits (constant_mean 2) (MultiGP.new0 (constant_mean 2))
      ex_samples ex_observations true = some ex_fitted ∧
    ex_fitted._gp_models ≠ [] ∧
    MultiGP.add_sample always_fits (constant_mean 2) ex_fitted [3] [7, 8] = some ex_extended ∧
    (∀ (gp : GP Int) (o : List (VectorXd Int)) (b : Bool),
      (always_fits : Cholesky Int).compute_ok gp (ex_samples ++ [[3]]) o b = true) ∧
    MultiGP.compute always_fits (constant_mean 2) (MultiGP.new0 (constant_mean 2))
      (ex_samples ++ [[3]]) (ex_observations ++ [[7, 8]]) true = some ex_extended ∧
    MultiGP.recompute always_fits (constant_mean 2) ex_extended true true = some ex_extended :=
  ⟨by decide, by decide, by decide, fun _ _ _ => rfl,
    ((compute_add_sample_eq_compute always_fits (constant_mean 2)
      (MultiGP.new0 (constant_mean 2))
      ex_fitted ex_extended ex_samples ex_observations [3] [7, 8] true
      (by decide) (by decide) (by decide)).2 (fun _ _ _ _ => rfl)).2.2 (fun _ _ _ => rfl)⟩

/-- C6 fails as stated: with a mean function that reads `nb_samples()` of the MultiGP it is
given, `compute` on two samples subtracts the mean 0 and `add_sample` then subtracts the
mean 2, so the targets are 5, 10, 5 and 6, 11, 6; the single `compute` on the three samples
subtracts 0 throughout, so its targets are 5, 10, 7 and 6, 11, 8; and `recompute()` after
`add_sample` subtracts 3, so it changes the targets to 2, 7, 4 and 3, 8, 5. -/
theorem compute_add_sample_counterexample :
    ((MultiGP.compute always_fits nb_samples_mean (MultiGP.new0 nb_samples_mean)
        ex_samples ex_observations true).bind
      (fun g => MultiGP.add_sample always_fits nb_samples_mean g [3] [7, 8])).map
        (fun g => g._gp_models.map GP.observations)
      = some [[[5], [10], [5]], [[6], [11], [6]]] ∧
    (MultiGP.compute always_fits nb_samples_mean (MultiGP.new0 nb_samples_mean)
        (ex_samples ++ [[3]]) (ex_observations ++ [[7, 8]]) true).map
        (fun g => g._gp_models.map GP.observations)
      = some [[[5], [10], [7]], [[6], [11], [8]]] ∧
    (((MultiGP.compute always_fits nb_samples_mean (MultiGP.new0 nb_samples_mean)
        ex_samples ex_observations true).bind
      (fun g => MultiGP.add_sample always_fits nb_samples_mean g [3] [7, 8])).bind
      (fun g => MultiGP.recompute always_fits nb_samples_mean g true true)).map
        (fun g => g._gp_models.map GP.observations)
      = some [[[2], [7], [4]], [[3], [8], [5]]] ∧
    ((MultiGP.compute always_fits nb_samples_mean (MultiGP.new0 nb_samples_mean)
        ex_samples ex_observations true).bind
      (fun g => MultiGP.add_sample always_fits nb_samples_mean g [3] [7, 8]))
      ≠ MultiGP.compute always_fits nb_samples_mean (MultiGP.new0 nb_samples_mean)
        (ex_samples ++ [[3]]) (ex_observations ++ [[7, 8]]) true ∧
    (((MultiGP.compute always_fits nb_samples_mean (MultiGP.new0 nb_samples_mean)
        ex_samples ex_observations true).bind
      (fun g => MultiGP.add_sample always_fits nb_samples_mean g [3] [7, 8])).bind
      (fun g => MultiGP.recompute always_fits nb_samples_mean g true true))
      ≠ ((MultiGP.compute always_fits nb_samples_mean (MultiGP.new0 nb_samples_mean)
        ex_samples ex_observations true).bind
      (fun g => MultiGP.add_sample always_fits nb_samples_mean g [3] [7, 8])) := by
  decide

/-! ### The invariant of the stored data -/

/-- The invariant behind C7: a MultiGP without scalar GP stores no observation; otherwise
there are `dim_out` scalar GPs, which all hold one and the same sample sequence, as long as
the stored observations. -/
theorem reachable_invariant {R MF : Type} [Sub R] (C : Cholesky R)
    (M : MeanFunction R MF) (g : MultiGP R MF)
    (h : Reachable C M g) :
    (g._gp_models = [] → g._observations = []) ∧
    (g._gp_models ≠ [] → (g._gp_models.length : Int) = g._dim_out) ∧
    ∃ Sx : List (VectorXd R), Sx.length = g._observations.length ∧
      ∀ (gp : GP R), gp ∈ g._gp_models → gp.samples = Sx := by
  induction h with
  | new0 =>
    exact ⟨fun _ => rfl, fun h => absurd rfl h, [], rfl, fun gp hgp => by
      simp [MultiGP.new0] at hgp⟩
  | new di dout g hg =>
    unfold MultiGP.new fresh_gp_models at hg
    by_cases hd : dout < 0
    · simp [hd] at hg
    · simp only [hd, if_false, Option.map_some', Option.some.injEq] at hg
      subst hg
      refine ⟨fun _ => rfl, fun _ => by simp; omega, [], rfl, ?_⟩
      intro gp hgp
      simp only [List.mem_replicate] at hgp
      rw [hgp.2]
      rfl
  | compute g g2 S Y ck _ hC hne _ =>
    cases S with
    | nil => simp [MultiGP.compute] at hC
    | cons s0 St =>
      cases Y with
      | nil => simp [MultiGP.compute] at hC
      | cons y0 Yt =>
        obtain ⟨hl, g4, obs, hg4, hrows, hg2⟩ := compute_spec C M g g2 s0 y0 St Yt ck hC
        obtain ⟨_, hd4⟩ := compute_begin_length M g g4 s0 y0 _ hg4
        obtain ⟨_, _, hob4⟩ := compute_begin_obs M g g4 s0 y0 _ [] hg4
        refine ⟨fun h => absurd h hne, fun _ => ?_, s0 :: St, ?_, ?_⟩
        · rw [hg2]
          simp [hrows.1, hd4]
        · rw [hg2]
          simp [hob4, hl]
        · intro gp hgp
          rw [hg2] at hgp
          simp only [List.mem_map] at hgp
          obtain ⟨o, _, ho⟩ := hgp
          rw [← ho]
  | add_sample g g2 x y _ hA hne ih =>
    obtain ⟨hempty, hcount, Sx, hSx, hall⟩ := ih
    obtain ⟨g1, ms, hg1, hg2, hd0, _, hmslen, hms1, _⟩ := add_sample_spec C M g g2 x y hA
    have hms : g2._gp_models = ms := by rw [hg2]
    by_cases hg : g._gp_models = []
    · rw [add_sample_dims_empty M g x y hg] at hg1
      have hobs := hempty hg
      by_cases hdy : g._dim_out = (y.length : Int)
      · exfalso
        simp only [hdy, ne_eq, not_true_eq_false, if_false, Option.some.injEq] at hg1
        apply hne
        rw [hms]
        apply List.length_eq_zero.mp
        rw [hmslen, ← hg1]
        simp [hg]
      · simp only [hdy, ne_eq, not_false_eq_true, if_true, Option.some.injEq] at hg1
        refine ⟨fun h => absurd h hne, fun _ => ?_, [x], ?_, ?_⟩
        · rw [hg2, ← hg1]
          simp only
          rw [hmslen, ← hg1]
          simp
        · rw [hg2, ← hg1]
          simp [hobs]
        · intro gp hgp
          rw [hms] at hgp
          obtain ⟨i, hi⟩ := List.mem_iff_getElem?.mp hgp
          have hil : i < ms.length := (List.getElem?_eq_some.mp hi).1
          have hil2 : i < g1._dim_out.toNat := by
            rw [hmslen, ← hg1] at hil
            rw [← hg1]
            simpa using hil
          obtain ⟨gp0, r, hgp0, _, hmsi⟩ := hms1 i hil2
          rw [hi] at hmsi
          have e1 : gp = GP.mk (gp0.samples ++ [x]) (gp0.observations ++ [r]) :=
            Option.some.inj hmsi
          have hfresh : gp0 = GP.new (x.length : Int) 1 := by
            rw [← hg1] at hgp0
            simp only [List.getElem?_replicate] at hgp0
            split at hgp0
            · exact (Option.some.inj hgp0).symm
            · cases hgp0
          rw [e1, hfresh]
          rfl
    · rw [add_sample_dims_nonempty M g x y hg] at hg1
      split at hg1
      · cases hg1
        have hcnt := hcount hg
        refine ⟨fun h => absurd h hne, fun _ => ?_, Sx ++ [x], ?_, ?_⟩
        · rw [hg2]
          simp only
          rw [hmslen]
          exact hcnt
        · rw [hg2]
          simp [hSx]
        · intro gp hgp
          rw [hms] at hgp
          obtain ⟨i, hi⟩ := List.mem_iff_getElem?.mp hgp
          have hil : i < ms.length := (List.getElem?_eq_some.mp hi).1
          obtain ⟨gp0, r, hgp0, _, hmsi⟩ := hms1 i (by omega)
          rw [hi] at hmsi
          have e1 : gp = GP.mk (gp0.samples ++ [x]) (gp0.observations ++ [r]) :=
            Option.some.inj hmsi
          rw [e1]
          simp only
          rw [hall gp0 (List.getElem?_mem hgp0)]
      · cases hg1

/-- C7, as amended: in every MultiGP reached from a constructor by successful `compute` and
`add_sample` calls each of which leaves at least one output, every scalar GP holds as many
samples as there are stored observations, all scalar GPs hold the same sample sequence, and
that sequence and its length are what `samples()` and `nb_samples()` return from scalar
GP 0. -/
theorem reachable_samples_observations {R MF : Type} [Sub R] (C : Cholesky R)
    (M : MeanFunction R MF)
    (g : MultiGP R MF) (h : Reachable C M g) :
    (∀ (gp : GP R), gp ∈ g._gp_models →
      gp.samples.length = g._observations.length ∧
      MultiGP.samples g = some gp.samples ∧
      MultiGP.nb_samples g = (gp.samples.length : Int)) ∧
    (∀ (gp1 gp2 : GP R), gp1 ∈ g._gp_models → gp2 ∈ g._gp_models →
      gp1.samples = gp2.samples) ∧
    MultiGP.nb_samples g = (g._observations.length : Int) := by
  obtain ⟨hempty, _, Sx, hSx, hall⟩ := reachable_invariant C M g h
  have hsamples : ∀ (gp : GP R), gp ∈ g._gp_models →
      MultiGP.samples g = some gp.samples ∧
      MultiGP.nb_samples g = (gp.samples.length : Int) := by
    intro gp hgp
    unfold MultiGP.samples MultiGP.nb_samples GP.nb_samples
    cases hm : g._gp_models with
    | nil => rw [hm] at hgp; simp at hgp
    | cons gp0 rest =>
      have h0 : gp0.samples = Sx := hall gp0 (by rw [hm]; simp)
      simp only [h0, hall gp hgp]
      exact ⟨trivial, trivial⟩
  refine ⟨fun gp hgp => ⟨by rw [hall gp hgp, hSx], hsamples gp hgp⟩,
    fun gp1 gp2 h1 h2 => by rw [hall gp1 h1, hall gp2 h2], ?_⟩
  cases hm : g._gp_models with
  | nil =>
    unfold MultiGP.nb_samples
    rw [hm, hempty hm]
    rfl
  | cons gp0 rest =>
    have hmem : gp0 ∈ g._gp_models := by rw [hm]; simp
    rw [(hsamples gp0 hmem).2, hall gp0 hmem, hSx]

/-- C7 on example data: `ex_extended` is reached from `MultiGP()` by `compute` and
`add_sample`. -/
theorem reachable_samples_observations_witness :
    Reachable always_fits (constant_mean 2) ex_extended ∧
    ((∀ (gp : GP Int), gp ∈ ex_extended._gp_models →
      gp.samples.length = ex_extended._observations.length ∧
      MultiGP.samples ex_extended = some gp.samples ∧
      MultiGP.nb_samples ex_extended = (gp.samples.length : Int)) ∧
    (∀ (gp1 gp2 : GP Int), gp1 ∈ ex_extended._gp_models → gp2 ∈ ex_extended._gp_models →
      gp1.samples = gp2.samples) ∧
    MultiGP.nb_samples ex_extended = (ex_extended._observations.length : Int)) :=
  have hr : Reachable always_fits (constant_mean 2) ex_extended :=
    Reachable.add_sample ex_fitted ex_extended [3] [7, 8]
      (Reachable.compute (MultiGP.new0 (constant_mean 2)) ex_fitted ex_samples ex_observations
        true Reachable.new0 (by decide) (by decide))
      (by decide) (by decide)
  ⟨hr, reachable_samples_observations always_fits (constant_mean 2) ex_extended hr⟩

/-- C7 fails as stated: `MultiGP()`, then `compute([[1]], [[]])`, which succeeds and leaves
no output but one stored observation, then `add_sample([4], [7, 8])`, which succeeds and
leaves two outputs: the MultiGP has at least one output and two stored observations, while
each scalar GP, and `nb_samples()`, counts one sample; `recompute()` then fails, on the
assertion of `compute` that compares the two lengths. -/
theorem reachable_samples_counterexample :
    MultiGP.compute always_fits (constant_mean 0) (MultiGP.new0 (constant_mean 0))
      [[1]] [[]] true = some ex_no_output ∧
    MultiGP.add_sample always_fits (constant_mean 0) ex_no_output [4] [7, 8] = some ex_late ∧
    ex_late._gp_models.length = 2 ∧ MultiGP.dim_out ex_late = some 2 ∧
    ex_late._observations.length = 2 ∧
    MultiGP.nb_samples ex_late = 1 ∧
    MultiGP.samples ex_late = some [[4]] ∧
    (∀ (gp : GP Int), gp ∈ ex_late._gp_models → gp.samples.length = 1) ∧
    MultiGP.nb_samples ex_late ≠ (ex_late._observations.length : Int) ∧
    MultiGP.recompute always_fits (constant_mean 0) ex_late true true = none := by
  decide

/-! ### Dimension discovery and the assertions of `add_sample` -/

/-- C8: after a successful `compute(S, Y)` on any MultiGP, `dim_in()` is the length of
`S[0]`, `dim_out()` is the length of `Y[0]`, there are `dim_out()` scalar GPs, and the mean
function is `MeanFunction(dim_out)` when the previous `_dim_out` differed from the length of
`Y[0]` and the previous mean function otherwise. -/
theorem compute_dimension_discovery {R MF : Type} [Sub R] (C : Cholesky R) (M : MeanFunction R MF)
    (g g2 : MultiGP R MF) (S Y : List (VectorXd R)) (ck : Bool)
    (h : MultiGP.compute C M g S Y ck = some g2) :
    ∃ s0 y0, S.head? = some s0 ∧ Y.head? = some y0 ∧ S.length = Y.length ∧
      MultiGP.dim_in g2 = some (s0.length : Int) ∧
      MultiGP.dim_out g2 = some (y0.length : Int) ∧
      MultiGP.dim_out g2 = some (g2._gp_models.length : Int) ∧
      g2._mean_function =
        (if g._dim_out ≠ (y0.length : Int) then M.build y0.length else g._mean_function) := by
  cases S with
  | nil => simp [MultiGP.compute] at h
  | cons s0 St =>
    cases Y with
    | nil => simp [MultiGP.compute] at h
    | cons y0 Yt =>
      obtain ⟨hl, g4, obs, hg4, hrows, hg2⟩ := compute_spec C M g g2 s0 y0 St Yt ck h
      rw [compute_begin_eq] at hg4
      cases hg4
      have hdi : g2._dim_in = (s0.length : Int) := by rw [hg2]
      have hdo : g2._dim_out = (y0.length : Int) := by rw [hg2]
      have hn : g2._gp_models.length = y0.length := by rw [hg2]; simp [hrows.1]
      refine ⟨s0, y0, rfl, rfl, by simp [hl], ?_, ?_, ?_, by rw [hg2]⟩
      · unfold MultiGP.dim_in
        rw [hdi, if_pos (by omega)]
      · unfold MultiGP.dim_out
        rw [hdo, if_pos (by omega)]
      · unfold MultiGP.dim_out
        rw [hdo, if_pos (by omega), hn]

/-- C8 on example data: a MultiGP constructed as `MultiGP(7, 3)` and the default-constructed
one discover the dimensions 1 and 2 of the data. -/
theorem compute_dimension_discovery_witness :
    MultiGP.compute always_fits (constant_mean 2) (MultiGP.new0 (constant_mean 2))
      ex_samples ex_observations true = some ex_fitted ∧
    (∃ s0 y0, ex_samples.head? = some s0 ∧ ex_observations.head? = some y0 ∧
      ex_samples.length = ex_observations.length ∧
      MultiGP.dim_in ex_fitted = some (s0.length : Int) ∧
      MultiGP.dim_out ex_fitted = some (y0.length : Int) ∧
      MultiGP.dim_out ex_fitted = some (ex_fitted._gp_models.length : Int) ∧
      ex_fitted._mean_function =
        (if (MultiGP.new0 (constant_mean 2))._dim_out ≠ (y0.length : Int)
          then (constant_mean 2).build y0.length
          else (MultiGP.new0 (constant_mean 2))._mean_function)) ∧
    (MultiGP.new (constant_mean 2) 7 3).bind
      (fun g => MultiGP.compute always_fits (constant_mean 2) g ex_samples ex_observations true)
      = some ex_fitted :=
  ⟨by decide,
    compute_dimension_discovery always_fits (constant_mean 2)
      (MultiGP.new0 (constant_mean 2)) ex_fitted
      ex_samples ex_observations true (by decide),
    by decide⟩

/-- C9, as amended: on a MultiGP without scalar GP (default-constructed, or constructed
with `dim_out = 0`), a successful `add_sample(x, y)` with the length of `y` different from
`_dim_out` makes as many scalar GPs as `y` has coefficients, each a fresh one extended by
`x` and its target, builds a fresh mean function, and sets `dim_in` and `dim_out` to the
lengths of `x` and `y`. On a MultiGP that holds scalar GPs, a `y` whose length differs from
`_dim_out` is rejected by the assertion instead. -/
theorem add_sample_dimension_discovery {R MF : Type} [Sub R] (C : Cholesky R)
    (M : MeanFunction R MF)
    (g g2 : MultiGP R MF) (x y : VectorXd R)
    (he : g._gp_models = []) (hd : g._dim_out ≠ (y.length : Int))
    (hA : MultiGP.add_sample C M g x y = some g2) :
    (MultiGP.dim_in g2 = some (x.length : Int) ∧
      MultiGP.dim_out g2 = some (y.length : Int) ∧
      g2._mean_function = M.build y.length ∧
      g2._gp_models.length = y.length ∧
      g2._observations = g._observations ++ [y] ∧
      ∀ (i : Nat), i < y.length → ∃ r, g2._gp_models[i]? =
        some (GP.mk ((GP.new (x.length : Int) 1).samples ++ [x])
          ((GP.new (x.length : Int) 1).observations ++ [r]))) ∧
    (∀ (g3 : MultiGP R MF), g3._gp_models ≠ [] → (y.length : Int) ≠ g3._dim_out →
      MultiGP.add_sample C M g3 x y = none) := by
  constructor
  · obtain ⟨g1, ms, hg1, hg2, _, _, hmslen, hms1, _⟩ := add_sample_spec C M g g2 x y hA
    rw [add_sample_dims_empty M g x y he] at hg1
    simp only [hd, ne_eq, not_false_eq_true, if_true, Option.some.injEq] at hg1
    subst hg1
    simp only [List.length_replicate, Int.toNat_ofNat] at hmslen hms1
    have hdi : g2._dim_in = (x.length : Int) := by rw [hg2]
    have hdo : g2._dim_out = (y.length : Int) := by rw [hg2]
    refine ⟨?_, ?_, by rw [hg2], by rw [hg2]; exact hmslen, by rw [hg2], ?_⟩
    · unfold MultiGP.dim_in
      rw [hdi, if_pos (by omega)]
    · unfold MultiGP.dim_out
      rw [hdo, if_pos (by omega)]
    · intro i hi
      obtain ⟨gp, r, hgp, _, hmsi⟩ := hms1 i hi
      simp only [List.getElem?_replicate, hi, if_true, Option.some.injEq] at hgp
      refine ⟨r, ?_⟩
      rw [hg2]
      simp only
      rw [hmsi, ← hgp]
  · intro g3 hne hy
    unfold MultiGP.add_sample
    rw [add_sample_dims_nonempty M g3 x y hne]
    simp [hy]

/-- C9 on example data: the default-constructed MultiGP receives its first sample through
`add_sample` and gets two scalar GPs. -/
theorem add_sample_dimension_discovery_witness :
    (MultiGP.new0 (constant_mean 0))._gp_models = [] ∧
    (MultiGP.new0 (constant_mean 0))._dim_out ≠ ((([7, 8] : VectorXd Int).length : Nat) : Int) ∧
    MultiGP.add_sample always_fits (constant_mean 0) (MultiGP.new0 (constant_mean 0)) [4] [7, 8]
      = some ex_first ∧
    ((MultiGP.dim_in ex_first = some (([4] : VectorXd Int).length : Int) ∧
      MultiGP.dim_out ex_first = some (([7, 8] : VectorXd Int).length : Int) ∧
      ex_first._mean_function = (constant_mean 0).build ([7, 8] : VectorXd Int).length ∧
      ex_first._gp_models.length = ([7, 8] : VectorXd Int).length ∧
      ex_first._observations = (MultiGP.new0 (constant_mean 0))._observations ++ [[7, 8]] ∧
      ∀ (i : Nat), i < ([7, 8] : VectorXd Int).length → ∃ r, ex_first._gp_models[i]? =
        some (GP.mk ((GP.new (([4] : VectorXd Int).length : Int) 1).samples ++ [[4]])
          ((GP.new (([4] : VectorXd Int).length : Int) 1).observations ++ [r]))) ∧
    (∀ (g3 : MultiGP Int Int), g3._gp_models ≠ [] →
      (([7, 8] : VectorXd Int).length : Int) ≠ g3._dim_out →
      MultiGP.add_sample always_fits (constant_mean 0) g3 [4] [7, 8] = none)) :=
  ⟨by decide, by decide, by decide,
    add_sample_dimension_discovery always_fits (constant_mean 0) (MultiGP.new0 (constant_mean 0))
      ex_first [4] [7, 8] (by decide) (by decide) (by decide)⟩

/-- C9 fails as stated: `MultiGP(1, 2)` has received no sample and is configured with two
scalar GPs; a first sample with an observation of length 1 is not answered by a resize:
`add_sample` fails on its assertion. -/
theorem add_sample_dimension_counterexample :
    MultiGP.new (constant_mean 0) 1 2
      = some { _gp_models := [⟨[], []⟩, ⟨[], []⟩], _dim_in := 1, _dim_out := 2,
               _mean_function := 2, _observations := [] } ∧
    (([7] : VectorXd Int).length : Int) ≠ 2 ∧
    MultiGP.add_sample always_fits (constant_mean 0)
      { _gp_models := [⟨[], []⟩, ⟨[], []⟩], _dim_in := 1, _dim_out := 2,
        _mean_function := 2, _observations := [] } [4] [7] = none := by
  decide

/-- C10, as amended: on a MultiGP that holds `dim_out` scalar GPs, at least one,
`add_sample(x, y)` fails exactly when the length of `x` differs from `dim_in`, or the length
of `y` differs from `dim_out`, or the vector returned by the mean function at `x` does not
have `dim_out` coefficients, or the incremental update of one of the scalar GPs, with `x`
and its residual, fails; otherwise it succeeds. When it succeeds it appends exactly one
observation, `y`, and keeps the dimensions and the number of scalar GPs. -/
theorem add_sample_fails_iff {R MF : Type} [Sub R] (C : Cholesky R) (M : MeanFunction R MF)
    (g : MultiGP R MF) (x y : VectorXd R)
    (hne : g._gp_models ≠ []) (hn : (g._gp_models.length : Int) = g._dim_out) :
    (MultiGP.add_sample C M g x y = none ↔
      ((x.length : Int) ≠ g._dim_in ∨ (y.length : Int) ≠ g._dim_out ∨
        ((M.call g._mean_function x
          { g with _observations := g._observations ++ [y] }).length : Int) ≠ g._dim_out ∨
        ∃ (i : Nat) (gp : GP R) (r : VectorXd R), g._gp_models[i]? = some gp ∧
          residual y (M.call g._mean_function x
            { g with _observations := g._observations ++ [y] }) i = some r ∧
          gp.add_sample C x r = none)) ∧
    (∀ (g2 : MultiGP R MF), MultiGP.add_sample C M g x y = some g2 →
      g2._observations = g._observations ++ [y] ∧ g2._dim_in = g._dim_in ∧
      g2._dim_out = g._dim_out ∧ g2._gp_models.length = g._gp_models.length) := by
  have hfail : ∀ (gp : GP R) (r : VectorXd R),
      gp.add_sample C x r = none ↔ ¬ C.add_sample_ok gp x r = true := by
    intro gp r
    unfold GP.add_sample
    by_cases hok : C.add_sample_ok gp x r = true
    · simp [hok]
    · simp [hok]
  constructor
  · constructor
    · intro hnone
      by_contra hcon
      simp only [not_or, not_not, not_exists, not_and] at hcon
      obtain ⟨hx, hy, hm, hs⟩ := hcon
      have hg1 : MultiGP.add_sample_dims M g x y = some g := by
        rw [add_sample_dims_nonempty M g x y hne, if_pos ⟨hx, hy⟩]
      obtain ⟨g2, hg2⟩ := add_sample_succeeds C M g g x y hg1 hy hn hm
        (fun i gp r hgp hr => by
          by_contra hok
          exact hs i gp r hgp hr ((hfail gp r).mpr hok))
      rw [hnone] at hg2
      cases hg2
    · intro hcases
      cases hres : MultiGP.add_sample C M g x y with
      | none => rfl
      | some g2 =>
        exfalso
        obtain ⟨g1, ms, hg1, _, _, hmeanlen, _, _, _⟩ := add_sample_spec C M g g2 x y hres
        rw [add_sample_dims_nonempty M g x y hne] at hg1
        split at hg1
        · rename_i hdims
          have hg1b : MultiGP.add_sample_dims M g x y = some g := by
            rw [add_sample_dims_nonempty M g x y hne, if_pos hdims]
          cases hg1
          rcases hcases with hc | hc | hc | ⟨i, gp, r, hgp, hr, hc⟩
          · exact hc hdims.1
          · exact hc hdims.2
          · exact hc hmeanlen
          · have hi : i < g._dim_out.toNat := by
              have hil : i < g._gp_models.length := (List.getElem?_eq_some.mp hgp).1
              omega
            exact (hfail gp r).mp hc
              (add_sample_updates C M g g g2 x y hres hg1b i gp r hi hgp hr)
        · cases hg1
  · intro g2 hres
    obtain ⟨g1, ms, hg1, hg2, _, _, hmslen, _, _⟩ := add_sample_spec C M g g2 x y hres
    rw [add_sample_dims_nonempty M g x y hne] at hg1
    split at hg1
    · cases hg1
      rw [hg2]
      exact ⟨rfl, rfl, rfl, hmslen⟩
    · cases hg1

/-- C10 on example data: the fitted example accepts a sample of the right dimensions and
rejects one whose observation is too short; with a kernel without noise it rejects a sample
that it already holds. -/
theorem add_sample_fails_iff_witness :
    ex_fitted._gp_models ≠ [] ∧ (ex_fitted._gp_models.length : Int) = ex_fitted._dim_out ∧
    MultiGP.add_sample always_fits (constant_mean 2) ex_fitted [3] [7, 8] = some ex_extended ∧
    MultiGP.add_sample always_fits (constant_mean 2) ex_fitted [3] [7] = none ∧
    MultiGP.add_sample always_fits (constant_mean 2) ex_fitted [3, 3] [7, 8] = none ∧
    MultiGP.add_sample distinct_fits (constant_mean 2) ex_fitted [3] [7, 8] = some ex_extended ∧
    MultiGP.add_sample distinct_fits (constant_mean 2) ex_fitted [2] [7, 8] = none ∧
    (MultiGP.add_sample distinct_fits (constant_mean 2) ex_fitted [2] [7, 8] = none ↔
      ((([2] : VectorXd Int).length : Int) ≠ ex_fitted._dim_in ∨
        (([7, 8] : VectorXd Int).length : Int) ≠ ex_fitted._dim_out ∨
        (((constant_mean 2).call ex_fitted._mean_function [2]
          { ex_fitted with _observations := ex_fitted._observations ++ [[7, 8]] }).length
            : Int) ≠ ex_fitted._dim_out ∨
        ∃ (i : Nat) (gp : GP Int) (r : VectorXd Int), ex_fitted._gp_models[i]? = some gp ∧
          residual [7, 8] ((constant_mean 2).call ex_fitted._mean_function [2]
            { ex_fitted with _observations := ex_fitted._observations ++ [[7, 8]] }) i
            = some r ∧
          gp.add_sample distinct_fits [2] r = none)) :=
  ⟨by decide, by decide, by decide, by decide, by decide, by decide, by decide,
    (add_sample_fails_iff distinct_fits (constant_mean 2) ex_fitted [2] [7, 8] (by decide)
      (by decide)).1⟩

/-- C10 fails as stated, in two ways. `MultiGP(1, 1)` holds one scalar GP, the sample has
length `dim_in = 1` and the observation length `dim_out = 1`, and yet `add_sample` fails, on
its third assertion: the mean function returned a vector of two coefficients. And with
numerics in which the incremental update of a scalar GP fails on a sample that it already
holds, `add_sample` of the sample `[2]` fails on the fitted example although the three
assertions pass: the failure is that of the scalar `add_sample`. -/
theorem add_sample_fails_counterexample :
    (MultiGP.new two_mean 1 1
      = some { _gp_models := [⟨[], []⟩], _dim_in := 1, _dim_out := 1,
               _mean_function := 1, _observations := [] } ∧
    (([4] : VectorXd Int).length : Int) = 1 ∧ (([7] : VectorXd Int).length : Int) = 1 ∧
    MultiGP.add_sample always_fits two_mean
      { _gp_models := [⟨[], []⟩], _dim_in := 1, _dim_out := 1,
        _mean_function := 1, _observations := [] } [4] [7] = none) ∧
    (ex_fitted._gp_models ≠ [] ∧
    (([2] : VectorXd Int).length : Int) = ex_fitted._dim_in ∧
    (([7, 8] : VectorXd Int).length : Int) = ex_fitted._dim_out ∧
    (((constant_mean 2).call ex_fitted._mean_function [2]
      { ex_fitted with _observations := ex_fitted._observations ++ [[7, 8]] }).length : Int)
        = ex_fitted._dim_out ∧
    ex_fitted._gp_models[0]? = some ⟨[[1], [2]], [[3], [8]]⟩ ∧
    GP.add_sample distinct_fits ⟨[[1], [2]], [[3], [8]]⟩ [2] [5] = none ∧
    MultiGP.add_sample distinct_fits (constant_mean 2) ex_fitted [2] [7, 8] = none) := by
  decide

/-! ### The loop body of `BOptimizer::optimize` -/

/-- What `eval_and_add` leaves: the model and the counters are untouched; exactly one history
grows by the input, and the last element that the loop body reads next is there. -/
theorem eval_and_add_spec {R Model : Type} (P : Policies R Model) (bo : BOptimizer R Model)
    (x : VectorXd R) :
    (BOptimizer.eval_and_add P bo x).1._model = bo._model ∧
    (BOptimizer.eval_and_add P bo x).1._current_iteration = bo._current_iteration ∧
    (BOptimizer.eval_and_add P bo x).1._total_iterations = bo._total_iterations ∧
    ((BOptimizer.eval_and_add P bo x).2 = true →
      ∃ y, P.sfun x = some y ∧
        (BOptimizer.eval_and_add P bo x).1._samples = bo._samples ++ [x] ∧
        (BOptimizer.eval_and_add P bo x).1._observations = bo._observations ++ [y] ∧
        (BOptimizer.eval_and_add P bo x).1._bl_samples = bo._bl_samples) ∧
    ((BOptimizer.eval_and_add P bo x).2 = false →
      P.sfun x = none ∧
        (BOptimizer.eval_and_add P bo x).1._samples = bo._samples ∧
        (BOptimizer.eval_and_add P bo x).1._observations = bo._observations ∧
        (BOptimizer.eval_and_add P bo x).1._bl_samples = bo._bl_samples ++ [x]) := by
  unfold BOptimizer.eval_and_add
  cases h : P.sfun x with
  | none => simp
  | some y => simp

/-- The two increments succeed exactly when neither counter is `INT_MAX`; both counters are
then one higher and nothing else has changed. -/
theorem increment_done {R Model : Type} (run r : Run R Model)
    (h : BOptimizer.increment run = Outcome.done r) :
    r = { run with
          bo := { run.bo with
            _current_iteration := run.bo._current_iteration + 1
            _total_iterations := run.bo._total_iterations + 1 } } ∧
      run.bo._current_iteration < INT_MAX ∧ run.bo._total_iterations < INT_MAX := by
  unfold BOptimizer.increment at h
  by_cases h1 : INT_MAX ≤ run.bo._current_iteration
  · simp [h1] at h
  · by_cases h2 : INT_MAX ≤ run.bo._total_iterations
    · simp [h1, h2] at h
    · simp only [h1, h2, if_false, Outcome.done.injEq] at h
      exact ⟨h.symm, by omega, by omega⟩

/-- The two increments, when they fail, leave the calls and the draws as they were. -/
theorem increment_run {R Model : Type} (run : Run R Model) :
    (BOptimizer.increment run).run.calls = run.calls ∧
    (BOptimizer.increment run).run.draws = run.draws ∧
    (BOptimizer.increment run).run.bo._model = run.bo._model := by
  unfold BOptimizer.increment
  by_cases h1 : INT_MAX ≤ run.bo._current_iteration
  · simp [h1, Outcome.run]
  · by_cases h2 : INT_MAX ≤ run.bo._total_iterations
    · simp [h1, h2, Outcome.run]
    · simp [h1, h2, Outcome.run]

/-- A completed execution of the loop body, call by call: the random start, the inner
optimizer with `bounded = true`, the objective, the stats hook (shown the optimizer with
the histories already extended and the model not yet), the one call that extends the
surrogate, and the hyper-parameter optimisation when its condition holds; then both
counters are incremented. -/
theorem iteration_done_spec {R Model : Type} (T : Model_t R Model) (P : Policies R Model)
    (run r : Run R Model) (h : BOptimizer.iteration T P run = Outcome.done r) :
    ∃ (upd : Call R Model) (m : Model),
      r.calls = run.calls ++
        [Call.random_vector P.dim_in,
         Call.acqui_optimizer (P.random_vector run.draws P.dim_in) true,
         Call.eval (BOptimizer.propose P run).2,
         Call.update_stats
           (BOptimizer.eval_and_add P run.bo (BOptimizer.propose P run).2).1
           (!(BOptimizer.eval_and_add P run.bo (BOptimizer.propose P run).2).2),
         upd] ++
        (if 0 < P.hp_period ∧ Int.tmod run.bo._current_iteration P.hp_period = 0
          then [Call.optimize_hyperparams] else []) ∧
      ((BOptimizer.eval_and_add P run.bo (BOptimizer.propose P run).2).2 = false →
        ∃ b, (BOptimizer.eval_and_add P run.bo (BOptimizer.propose P run).2).1._bl_samples.getLast?
            = some b ∧
          upd = Call.add_bl_sample b P.noise ∧
          T.add_bl_sample run.bo._model b P.noise = Outcome.done m) ∧
      ((BOptimizer.eval_and_add P run.bo (BOptimizer.propose P run).2).2 = true →
        ∃ s y, (BOptimizer.eval_and_add P run.bo (BOptimizer.propose P run).2).1._samples.getLast?
            = some s ∧
          (BOptimizer.eval_and_add P run.bo (BOptimizer.propose P run).2).1._observations.getLast?
            = some y ∧
          upd = Call.add_sample s y P.noise ∧
          T.add_sample run.bo._model s y P.noise = Outcome.done m) ∧
      r.bo._samples = (BOptimizer.eval_and_add P run.bo (BOptimizer.propose P run).2).1._samples ∧
      r.bo._observations =
        (BOptimizer.eval_and_add P run.bo (BOptimizer.propose P run).2).1._observations ∧
      r.bo._bl_samples =
        (BOptimizer.eval_and_add P run.bo (BOptimizer.propose P run).2).1._bl_samples ∧
      r.bo._current_iteration = run.bo._current_iteration + 1 ∧
      r.bo._total_iterations = run.bo._total_iterations + 1 ∧
      r.draws = run.draws + 1 ∧
      run.bo._current_iteration < INT_MAX ∧ run.bo._total_iterations < INT_MAX := by
  obtain ⟨hm, hci, hti, _, _⟩ :=
    eval_and_add_spec P run.bo (BOptimizer.propose P run).2
  unfold BOptimizer.iteration BOptimizer.update_model BOptimizer.evaluate at h
  simp only [BOptimizer.propose, Outcome.bind] at h hm hci hti ⊢
  generalize hea : BOptimizer.eval_and_add P run.bo
    (P.acqui_optimizer run.bo._model run.bo._current_iteration
      (P.random_vector run.draws P.dim_in) true) = ea at h hm hci hti ⊢
  obtain ⟨bo1, added⟩ := ea
  simp only at h hm hci hti ⊢
  cases added with
  | false =>
    simp only [Bool.not_false, if_true] at h ⊢
    cases hb : bo1._bl_samples.getLast? with
    | none => simp [hb] at h
    | some b =>
      simp only [hb] at h
      cases hu : T.add_bl_sample bo1._model b P.noise with
      | failed m0 => simp [hu] at h
      | done m =>
        simp only [hu, BOptimizer.hyperparams] at h
        by_cases hc : 0 < P.hp_period ∧ Int.tmod bo1._current_iteration P.hp_period = 0
        · simp only [hc, and_self, if_true] at h
          cases hh : T.optimize_hyperparams m with
          | failed m0 => simp [hh] at h
          | done m2 =>
            simp only [hh] at h
            obtain ⟨h, hlt1, hlt2⟩ := increment_done _ _ h
            subst h
            rw [hci] at hc
            rw [hm] at hu
            refine ⟨Call.add_bl_sample b P.noise, m, ?_, ?_, ?_, ?_⟩
            · simp [hc]
            · intro _
              exact ⟨b, rfl, rfl, hu⟩
            · intro hcon
              cases hcon
            · simp only [hci, hti] at hlt1 hlt2
              simp [hci, hti, hlt1, hlt2]
        · simp only [hc, if_false] at h
          obtain ⟨h, hlt1, hlt2⟩ := increment_done _ _ h
          subst h
          rw [hci] at hc
          rw [hm] at hu
          refine ⟨Call.add_bl_sample b P.noise, m, ?_, ?_, ?_, ?_⟩
          · simp [hc]
          · intro _
            exact ⟨b, rfl, rfl, hu⟩
          · intro hcon
            cases hcon
          · simp only [hci, hti] at hlt1 hlt2
            simp [hci, hti, hlt1, hlt2]
  | true =>
    simp only [Bool.not_true, Bool.false_eq_true, if_false] at h ⊢
    cases hs : bo1._samples.getLast? with
    | none => simp [hs] at h
    | some s =>
      cases hy : bo1._observations.getLast? with
      | none => simp [hs, hy] at h
      | some y =>
        simp only [hs, hy] at h
        cases hu : T.add_sample bo1._model s y P.noise with
        | failed m0 => simp [hu] at h
        | done m =>
          simp only [hu, BOptimizer.hyperparams] at h
          by_cases hc : 0 < P.hp_period ∧ Int.tmod bo1._current_iteration P.hp_period = 0
          · simp only [hc, and_self, if_true] at h
            cases hh : T.optimize_hyperparams m with
            | failed m0 => simp [hh] at h
            | done m2 =>
              simp only [hh] at h
              obtain ⟨h, hlt1, hlt2⟩ := increment_done _ _ h
              subst h
              rw [hci] at hc
              rw [hm] at hu
              refine ⟨Call.add_sample s y P.noise, m, ?_, ?_, ?_, ?_⟩
              · simp [hc]
              · intro hcon
                cases hcon
              · intro _
                exact ⟨s, y, rfl, rfl, rfl, hu⟩
              · simp only [hci, hti] at hlt1 hlt2
                simp [hci, hti, hlt1, hlt2]
          · simp only [hc, if_false] at h
            obtain ⟨h, hlt1, hlt2⟩ := increment_done _ _ h
            subst h
            rw [hci] at hc
            rw [hm] at hu
            refine ⟨Call.add_sample s y P.noise, m, ?_, ?_, ?_, ?_⟩
            · simp [hc]
            · intro hcon
              cases hcon
            · intro _
              exact ⟨s, y, rfl, rfl, rfl, hu⟩
            · simp only [hci, hti] at hlt1 hlt2
              simp [hci, hti, hlt1, hlt2]

/-- The remainder of C++ is zero exactly when the mathematical one is. -/
theorem tmod_eq_zero_iff_emod (t p : Int) : Int.tmod t p = 0 ↔ t % p = 0 := by
  rw [← Int.dvd_iff_tmod_eq_zero, Int.dvd_iff_emod_eq_zero]

/-- C11: in a completed loop iteration that starts with the current-iteration counter `t`,
`optimize_hyperparams()` is among the calls of the iteration if and only if `hp_period > 0`
and `t mod hp_period = 0`; it is then called once. So it is never called when
`hp_period <= 0`, and it is called in the iteration `t = 0` when `hp_period > 0`. -/
theorem optimize_hyperparams_iff {R Model : Type} [DecidableEq R] [DecidableEq Model]
    (T : Model_t R Model) (P : Policies R Model)
    (run r : Run R Model) (h : BOptimizer.iteration T P run = Outcome.done r) :
    (Call.optimize_hyperparams ∈ r.calls.drop run.calls.length ↔
      (0 < P.hp_period ∧ run.bo._current_iteration % P.hp_period = 0)) ∧
    (r.calls.drop run.calls.length).count Call.optimize_hyperparams ≤ 1 ∧
    (P.hp_period ≤ 0 → Call.optimize_hyperparams ∉ r.calls.drop run.calls.length) ∧
    (0 < P.hp_period → run.bo._current_iteration = 0 →
      Call.optimize_hyperparams ∈ r.calls.drop run.calls.length) := by
  obtain ⟨upd, m, hcalls, hbl, hok, _⟩ := iteration_done_spec T P run r h
  have hupd : upd ≠ Call.optimize_hyperparams := by
    cases hadd : (BOptimizer.eval_and_add P run.bo (BOptimizer.propose P run).2).2 with
    | false =>
      obtain ⟨b, _, hu, _⟩ := hbl hadd
      rw [hu]
      simp
    | true =>
      obtain ⟨s, y, _, _, hu, _⟩ := hok hadd
      rw [hu]
      simp
  have hiff : Call.optimize_hyperparams ∈ r.calls.drop run.calls.length ↔
      (0 < P.hp_period ∧ run.bo._current_iteration % P.hp_period = 0) := by
    rw [hcalls, List.append_assoc, List.drop_left, ← tmod_eq_zero_iff_emod]
    by_cases hc : 0 < P.hp_period ∧ Int.tmod run.bo._current_iteration P.hp_period = 0
    · simp [hc]
    · simp only [hc, if_false, List.append_nil, iff_false]
      simp [hupd.symm]
  refine ⟨hiff, ?_, ?_, ?_⟩
  · rw [hcalls, List.append_assoc, List.drop_left]
    by_cases hc : 0 < P.hp_period ∧ Int.tmod run.bo._current_iteration P.hp_period = 0
    · simp [hc, List.count_cons, hupd]
    · simp [hc, List.count_cons, hupd]
  · intro hp hmem
    have := (hiff.mp hmem).1
    omega
  · intro hp ht
    apply hiff.mpr
    rw [ht]
    exact ⟨hp, by simp⟩

/-- C11 on example data: with `hp_period = 2` the iteration with counter 0 calls
`optimize_hyperparams()`. -/
theorem optimize_hyperparams_iff_witness :
    BOptimizer.iteration (counting_model 10) (example_policies 3 2) example_run0
      = Outcome.done example_run1 ∧
    ((Call.optimize_hyperparams ∈ example_run1.calls.drop example_run0.calls.length ↔
      (0 < (example_policies 3 2).hp_period ∧
        example_run0.bo._current_iteration % (example_policies 3 2).hp_period = 0)) ∧
    (example_run1.calls.drop example_run0.calls.length).count Call.optimize_hyperparams ≤ 1 ∧
    ((example_policies 3 2).hp_period ≤ 0 →
      Call.optimize_hyperparams ∉ example_run1.calls.drop example_run0.calls.length) ∧
    (0 < (example_policies 3 2).hp_period → example_run0.bo._current_iteration = 0 →
      Call.optimize_hyperparams ∈ example_run1.calls.drop example_run0.calls.length)) :=
  ⟨by decide,
    optimize_hyperparams_iff (counting_model 10) (example_policies 3 2) example_run0
      example_run1 (by decide)⟩

/-- The calls of one execution of the loop body, however it ends: the random start, the
inner optimizer, the objective and the stats hook come first; the stats hook is shown the
optimizer as `eval_and_add` left it; what follows is nothing, or the one call that extends
the surrogate, or that call and `optimize_hyperparams()`. -/
theorem iteration_spec {R Model : Type} (T : Model_t R Model) (P : Policies R Model)
    (run : Run R Model) :
    ∃ rest, (BOptimizer.iteration T P run).run.calls = run.calls ++
        [Call.random_vector P.dim_in,
         Call.acqui_optimizer (P.random_vector run.draws P.dim_in) true,
         Call.eval (BOptimizer.propose P run).2,
         Call.update_stats
           (BOptimizer.eval_and_add P run.bo (BOptimizer.propose P run).2).1
           (!(BOptimizer.eval_and_add P run.bo (BOptimizer.propose P run).2).2)] ++ rest ∧
      (rest = [] ∨ ∃ upd, upd.is_update = true ∧
        (rest = [upd] ∨ rest = [upd, Call.optimize_hyperparams])) := by
  unfold BOptimizer.iteration BOptimizer.update_model BOptimizer.evaluate
  simp only [BOptimizer.propose, Outcome.bind]
  generalize BOptimizer.eval_and_add P run.bo
    (P.acqui_optimizer run.bo._model run.bo._current_iteration
      (P.random_vector run.draws P.dim_in) true) = ea
  obtain ⟨bo1, added⟩ := ea
  cases added with
  | false =>
    simp only [Bool.not_false, if_true]
    cases hb : bo1._bl_samples.getLast? with
    | none => exact ⟨[], by simp [Outcome.run], Or.inl rfl⟩
    | some b =>
      simp only
      cases hu : T.add_bl_sample bo1._model b P.noise with
      | failed m0 =>
        exact ⟨[Call.add_bl_sample b P.noise], by simp [Outcome.run],
          Or.inr ⟨Call.add_bl_sample b P.noise, rfl, Or.inl rfl⟩⟩
      | done m =>
        simp only [BOptimizer.hyperparams]
        by_cases hc : 0 < P.hp_period ∧ Int.tmod bo1._current_iteration P.hp_period = 0
        · simp only [hc, and_self, if_true]
          cases hh : T.optimize_hyperparams m with
          | failed m0 =>
            exact ⟨[Call.add_bl_sample b P.noise, Call.optimize_hyperparams],
              by simp [Outcome.run], Or.inr ⟨Call.add_bl_sample b P.noise, rfl, Or.inr rfl⟩⟩
          | done m2 =>
            exact ⟨[Call.add_bl_sample b P.noise, Call.optimize_hyperparams],
              by rw [(increment_run _).1]; simp, Or.inr ⟨Call.add_bl_sample b P.noise, rfl, Or.inr rfl⟩⟩
        · simp only [hc, if_false]
          exact ⟨[Call.add_bl_sample b P.noise],
            by rw [(increment_run _).1]; simp, Or.inr ⟨Call.add_bl_sample b P.noise, rfl, Or.inl rfl⟩⟩
  | true =>
    simp only [Bool.not_true, Bool.false_eq_true, if_false]
    cases hs : bo1._samples.getLast? with
    | none => exact ⟨[], by simp [Outcome.run], Or.inl rfl⟩
    | some s =>
      cases hy : bo1._observations.getLast? with
      | none => exact ⟨[], by simp [Outcome.run], Or.inl rfl⟩
      | some y =>
        simp only
        cases hu : T.add_sample bo1._model s y P.noise with
        | failed m0 =>
          exact ⟨[Call.add_sample s y P.noise], by simp [Outcome.run],
            Or.inr ⟨Call.add_sample s y P.noise, rfl, Or.inl rfl⟩⟩
        | done m =>
          simp only [BOptimizer.hyperparams]
          by_cases hc : 0 < P.hp_period ∧ Int.tmod bo1._current_iteration P.hp_period = 0
          · simp only [hc, and_self, if_true]
            cases hh : T.optimize_hyperparams m with
            | failed m0 =>
              exact ⟨[Call.add_sample s y P.noise, Call.optimize_hyperparams],
                by simp [Outcome.run], Or.inr ⟨Call.add_sample s y P.noise, rfl, Or.inr rfl⟩⟩
            | done m2 =>
              exact ⟨[Call.add_sample s y P.noise, Call.optimize_hyperparams],
                by rw [(increment_run _).1]; simp, Or.inr ⟨Call.add_sample s y P.noise, rfl, Or.inr rfl⟩⟩
          · simp only [hc, if_false]
            exact ⟨[Call.add_sample s y P.noise],
              by rw [(increment_run _).1]; simp, Or.inr ⟨Call.add_sample s y P.noise, rfl, Or.inl rfl⟩⟩

/-- C12, as amended: in every execution of the loop body the stats hook is run once, after
the evaluation has been added to the optimizer's histories and before the surrogate is
extended. The optimizer that the hook is shown has one point more in its sample and
blacklist histories than at the start of the iteration, and still the model of the start of
the iteration; no call of the iteration before the hook extends the surrogate, and the call
that does comes after the hook. -/
theorem update_stats_before_update {R Model : Type} (T : Model_t R Model)
    (P : Policies R Model) (run : Run R Model) :
    ∃ (before after : List (Call R Model)) (shown : BOptimizer R Model) (blacklisted : Bool),
      (BOptimizer.iteration T P run).run.calls =
        run.calls ++ before ++ [Call.update_stats shown blacklisted] ++ after ∧
      (∀ (c : Call R Model), c ∈ before → c.is_update = false) ∧
      (∀ (c : Call R Model) (bo : BOptimizer R Model) (b : Bool),
        c ∈ before ++ after → c ≠ Call.update_stats bo b) ∧
      shown._model = run.bo._model ∧
      shown._samples.length + shown._bl_samples.length
        = run.bo._samples.length + run.bo._bl_samples.length + 1 ∧
      (∀ (r : Run R Model), BOptimizer.iteration T P run = Outcome.done r →
        after.countP Call.is_update = 1) := by
  obtain ⟨rest, hcalls, hrest⟩ := iteration_spec T P run
  obtain ⟨hm, _, _, hadd, hbl⟩ := eval_and_add_spec P run.bo (BOptimizer.propose P run).2
  refine ⟨[Call.random_vector P.dim_in,
      Call.acqui_optimizer (P.random_vector run.draws P.dim_in) true,
      Call.eval (BOptimizer.propose P run).2], rest,
    (BOptimizer.eval_and_add P run.bo (BOptimizer.propose P run).2).1,
    !(BOptimizer.eval_and_add P run.bo (BOptimizer.propose P run).2).2,
    by rw [hcalls]; simp, ?_, ?_, hm, ?_, ?_⟩
  · intro c hc
    simp only [List.mem_cons, List.mem_singleton, List.not_mem_nil, or_false] at hc
    rcases hc with hc | hc | hc <;> rw [hc] <;> rfl
  · intro c bo b hc hcon
    subst hcon
    simp only [List.mem_append, List.mem_cons, List.mem_singleton, List.not_mem_nil,
      or_false] at hc
    rcases hc with (hc | hc | hc) | hc
    · cases hc
    · cases hc
    · cases hc
    · rcases hrest with h0 | ⟨upd, hupd, h1 | h2⟩
      · rw [h0] at hc
        cases hc
      · rw [h1] at hc
        simp only [List.mem_singleton] at hc
        rw [← hc] at hupd
        cases hupd
      · rw [h2] at hc
        simp only [List.mem_cons, List.mem_singleton, List.not_mem_nil, or_false] at hc
        rcases hc with hc | hc
        · rw [← hc] at hupd
          cases hupd
        · cases hc
  · cases h : (BOptimizer.eval_and_add P run.bo (BOptimizer.propose P run).2).2 with
    | true =>
      obtain ⟨y, _, hS, _, hB⟩ := hadd h
      rw [hS, hB]
      simp
      omega
    | false =>
      obtain ⟨_, hS, _, hB⟩ := hbl h
      rw [hS, hB]
      simp
      omega
  · intro r hr
    obtain ⟨upd, m, hc2, hbl2, hok2, _⟩ := iteration_done_spec T P run r hr
    rw [hr] at hcalls
    simp only [Outcome.run] at hcalls
    rw [hc2] at hcalls
    have hupd : upd.is_update = true := by
      cases hadd2 : (BOptimizer.eval_and_add P run.bo (BOptimizer.propose P run).2).2 with
      | false =>
        obtain ⟨b, _, hu, _⟩ := hbl2 hadd2
        rw [hu]
        rfl
      | true =>
        obtain ⟨s, y, _, _, hu, _⟩ := hok2 hadd2
        rw [hu]
        rfl
    have hrest2 : rest = [upd] ++
        (if 0 < P.hp_period ∧ Int.tmod run.bo._current_iteration P.hp_period = 0
          then [Call.optimize_hyperparams] else []) := by
      simp only [List.append_assoc, List.append_cancel_left_eq, List.cons_append,
        List.nil_append, List.cons.injEq, true_and] at hcalls
      simp only [List.singleton_append]
      exact hcalls.symm
    rw [hrest2]
    by_cases hc : 0 < P.hp_period ∧ Int.tmod run.bo._current_iteration P.hp_period = 0
    · have hhp : (Call.optimize_hyperparams : Call R Model).is_update = false := rfl
      simp [hc, List.countP_cons, hupd, hhp]
    · simp [hc, List.countP_cons, hupd]

/-- C12 fails as stated: in the first iteration of the example the stats hook is the fifth
call and `add_sample` the sixth; the optimizer shown to the hook has one point in its
histories while its model (a pair of counters) holds none. -/
theorem update_stats_counterexample :
    BOptimizer.iteration (counting_model 10) (example_policies 3 2) example_run0
      = Outcome.done example_run1 ∧
    example_run1.calls[4]? = some (Call.update_stats example_shown false) ∧
    example_run1.calls[5]? = some (Call.add_sample [1] [1] 0) ∧
    example_shown._model.1 + example_shown._model.2 = 0 ∧
    example_shown._samples.length + example_shown._bl_samples.length = 1 := by
  decide

/-- C13: in a completed loop iteration exactly one call extends the surrogate. When the
evaluation was blacklisted it is `add_bl_sample` with the last blacklisted input and the
configured noise; otherwise it is `add_sample` with the last sample, the last observation
and the configured noise. -/
theorem one_incremental_update {R Model : Type} (T : Model_t R Model) (P : Policies R Model)
    (run r : Run R Model) (h : BOptimizer.iteration T P run = Outcome.done r) :
    ∃ upd, (r.calls.drop run.calls.length).filter Call.is_update = [upd] ∧
      ((BOptimizer.evaluate P (BOptimizer.propose P run).1 (BOptimizer.propose P run).2).2
          = true →
        ∃ b, r.bo._bl_samples.getLast? = some b ∧ upd = Call.add_bl_sample b P.noise) ∧
      ((BOptimizer.evaluate P (BOptimizer.propose P run).1 (BOptimizer.propose P run).2).2
          = false →
        ∃ s y, r.bo._samples.getLast? = some s ∧ r.bo._observations.getLast? = some y ∧
          upd = Call.add_sample s y P.noise) := by
  obtain ⟨upd, m, hcalls, hbl, hok, hS, hY, hB, _⟩ := iteration_done_spec T P run r h
  have hflag : (BOptimizer.evaluate P (BOptimizer.propose P run).1
      (BOptimizer.propose P run).2).2
        = !(BOptimizer.eval_and_add P run.bo (BOptimizer.propose P run).2).2 := rfl
  have hupd : upd.is_update = true := by
    cases hadd : (BOptimizer.eval_and_add P run.bo (BOptimizer.propose P run).2).2 with
    | false =>
      obtain ⟨b, _, hu, _⟩ := hbl hadd
      rw [hu]
      rfl
    | true =>
      obtain ⟨s, y, _, _, hu, _⟩ := hok hadd
      rw [hu]
      rfl
  refine ⟨upd, ?_, ?_, ?_⟩
  · rw [hcalls, List.append_assoc, List.drop_left]
    have hhp : (Call.optimize_hyperparams : Call R Model).is_update = false := rfl
    have h1 : (Call.random_vector P.dim_in : Call R Model).is_update = false := rfl
    have h2 : (Call.acqui_optimizer (P.random_vector run.draws P.dim_in) true :
      Call R Model).is_update = false := rfl
    have h3 : (Call.eval (BOptimizer.propose P run).2 : Call R Model).is_update = false := rfl
    have h4 : (Call.update_stats
      (BOptimizer.eval_and_add P run.bo (BOptimizer.propose P run).2).1
      (!(BOptimizer.eval_and_add P run.bo (BOptimizer.propose P run).2).2)).is_update
        = false := rfl
    by_cases hc : 0 < P.hp_period ∧ Int.tmod run.bo._current_iteration P.hp_period = 0
    · simp [hc, List.filter_cons, hupd, hhp, h1, h2, h3, h4]
    · simp [hc, List.filter_cons, hupd, h1, h2, h3, h4]
  · intro hb
    rw [hflag] at hb
    have hadd : (BOptimizer.eval_and_add P run.bo (BOptimizer.propose P run).2).2 = false := by
      simpa using hb
    obtain ⟨b, hlast, hu, _⟩ := hbl hadd
    exact ⟨b, by rw [hB]; exact hlast, hu⟩
  · intro hb
    rw [hflag] at hb
    have hadd : (BOptimizer.eval_and_add P run.bo (BOptimizer.propose P run).2).2 = true := by
      simpa using hb
    obtain ⟨s, y, hls, hly, hu, _⟩ := hok hadd
    exact ⟨s, y, by rw [hS]; exact hls, by rw [hY]; exact hly, hu⟩

/-- C13 on example data: the first iteration of the example adds the sample `[1]` by
`add_sample`. -/
theorem one_incremental_update_witness :
    BOptimizer.iteration (counting_model 10) (example_policies 3 2) example_run0
      = Outcome.done example_run1 ∧
    (example_run1.calls.drop example_run0.calls.length).filter Call.is_update
      = [Call.add_sample [1] [1] 0] ∧
    ∃ upd, (example_run1.calls.drop example_run0.calls.length).filter Call.is_update = [upd] ∧
      ((BOptimizer.evaluate (example_policies 3 2)
          (BOptimizer.propose (example_policies 3 2) example_run0).1
          (BOptimizer.propose (example_policies 3 2) example_run0).2).2 = true →
        ∃ b, example_run1.bo._bl_samples.getLast? = some b ∧
          upd = Call.add_bl_sample b (example_policies 3 2).noise) ∧
      ((BOptimizer.evaluate (example_policies 3 2)
          (BOptimizer.propose (example_policies 3 2) example_run0).1
          (BOptimizer.propose (example_policies 3 2) example_run0).2).2 = false →
        ∃ s y, example_run1.bo._samples.getLast? = some s ∧
          example_run1.bo._observations.getLast? = some y ∧
          upd = Call.add_sample s y (example_policies 3 2).noise) :=
  ⟨by decide, by decide,
    one_incremental_update (counting_model 10) (example_policies 3 2) example_run0
      example_run1 (by decide)⟩

/-- C14, as amended: when the incremental surrogate update of a loop iteration fails
(`add_sample` or `add_bl_sample`, called with the new point and the model of the start of
the iteration), the loop of `optimize` does not recover: it ends at once with that failure.
The failed call is the last call made, no `compute` and no `optimize_hyperparams` is called
in the iteration, and the counters are not incremented. -/
theorem update_failure_propagates {R Model : Type} (T : Model_t R Model)
    (P : Policies R Model) (run : Run R Model) (fuel : Nat)
    (hstop : P.stop run.bo = false)
    (hfail :
      (∃ y m, P.sfun (BOptimizer.propose P run).2 = some y ∧
        T.add_sample run.bo._model (BOptimizer.propose P run).2 y P.noise
          = Outcome.failed m) ∨
      (∃ m, P.sfun (BOptimizer.propose P run).2 = none ∧
        T.add_bl_sample run.bo._model (BOptimizer.propose P run).2 P.noise
          = Outcome.failed m)) :
    ∃ r upd, BOptimizer.loop T P (fuel + 1) run = some (Outcome.failed r) ∧
      r.calls.getLast? = some upd ∧ upd.is_update = true ∧
      (∀ (c : Call R Model), c ∈ r.calls.drop run.calls.length →
        c.is_compute = false ∧ c ≠ Call.optimize_hyperparams) ∧
      r.bo._current_iteration = run.bo._current_iteration ∧
      r.bo._total_iterations = run.bo._total_iterations := by
  unfold BOptimizer.loop
  simp only [hstop, Bool.false_eq_true, if_false]
  unfold BOptimizer.iteration BOptimizer.update_model BOptimizer.evaluate
  simp only [BOptimizer.propose, Outcome.bind] at hfail ⊢
  unfold BOptimizer.eval_and_add
  rcases hfail with ⟨y, m, hy, hadd⟩ | ⟨m, hy, hadd⟩
  · simp only [hy, Bool.not_true, Bool.false_eq_true, if_false, List.getLast?_concat, hadd]
    refine ⟨_, Call.add_sample (P.acqui_optimizer run.bo._model run.bo._current_iteration
      (P.random_vector run.draws P.dim_in) true) y P.noise, rfl, by simp, rfl, ?_, rfl, rfl⟩
    intro c hc
    simp only [List.append_assoc, List.drop_left, List.cons_append, List.nil_append,
      List.singleton_append, List.mem_cons, List.mem_singleton, List.not_mem_nil,
      or_false] at hc
    rcases hc with hc | hc | hc | hc | hc | hc <;> rw [hc] <;> exact ⟨rfl, by simp⟩
  · simp only [hy, Bool.not_false, if_true, List.getLast?_concat, hadd]
    refine ⟨_, Call.add_bl_sample (P.acqui_optimizer run.bo._model run.bo._current_iteration
      (P.random_vector run.draws P.dim_in) true) P.noise, rfl, by simp, rfl, ?_, rfl, rfl⟩
    intro c hc
    simp only [List.append_assoc, List.drop_left, List.cons_append, List.nil_append,
      List.singleton_append, List.mem_cons, List.mem_singleton, List.not_mem_nil,
      or_false] at hc
    rcases hc with hc | hc | hc | hc | hc | hc <;> rw [hc] <;> exact ⟨rfl, by simp⟩

/-- C14 on example data: the counting surrogate with capacity 0 refuses the first sample,
and the loop ends with that failure. -/
theorem update_failure_propagates_witness :
    (example_policies 3 2).stop example_run0.bo = false ∧
    ((∃ y m, (example_policies 3 2).sfun
          (BOptimizer.propose (example_policies 3 2) example_run0).2 = some y ∧
        (counting_model 0).add_sample example_run0.bo._model
          (BOptimizer.propose (example_policies 3 2) example_run0).2 y
          (example_policies 3 2).noise = Outcome.failed m) ∨
      (∃ m, (example_policies 3 2).sfun
          (BOptimizer.propose (example_policies 3 2) example_run0).2 = none ∧
        (counting_model 0).add_bl_sample example_run0.bo._model
          (BOptimizer.propose (example_policies 3 2) example_run0).2
          (example_policies 3 2).noise = Outcome.failed m)) ∧
    BOptimizer.loop (counting_model 0) (example_policies 3 2) 10 example_run0
      = some (Outcome.failed example_failed) ∧
    ∃ r upd, BOptimizer.loop (counting_model 0) (example_policies 3 2) (9 + 1) example_run0
        = some (Outcome.failed r) ∧
      r.calls.getLast? = some upd ∧ upd.is_update = true ∧
      (∀ (c : Call Int (Nat × Nat)), c ∈ r.calls.drop example_run0.calls.length →
        c.is_compute = false ∧ c ≠ Call.optimize_hyperparams) ∧
      r.bo._current_iteration = example_run0.bo._current_iteration ∧
      r.bo._total_iterations = example_run0.bo._total_iterations :=
  ⟨by decide, Or.inl ⟨[1], (0, 0), by decide, by decide⟩, by decide,
    update_failure_propagates (counting_model 0) (example_policies 3 2) example_run0 9
      (by decide) (Or.inl ⟨[1], (0, 0), by decide, by decide⟩)⟩

/-- C14 fails as stated: with a surrogate whose `add_sample` fails on the first sample,
`optimize` does not recover: it ends with the failure, the failed `add_sample` is its last
call, and it has called no `compute`. -/
theorem update_failure_counterexample :
    BOptimizer.optimize (counting_model 0) (example_policies 3 2) 10 example_bo true
      = some (Outcome.failed example_failed) ∧
    example_failed.calls.getLast? = some (Call.add_sample [1] [1] 0) ∧
    example_failed.calls.any Call.is_compute = false ∧
    (counting_model 0).add_sample example_bo._model [1] [1] 0 = Outcome.failed (0, 0) := by
  decide

/-- No call of the loop body is a `compute` of the surrogate or the construction of a
model. -/
theorem iteration_no_compute {R Model : Type} (T : Model_t R Model) (P : Policies R Model)
    (run : Run R Model) :
    ∃ new, (BOptimizer.iteration T P run).run.calls = run.calls ++ new ∧
      ∀ (c : Call R Model), c ∈ new →
        c.is_compute = false ∧ ∀ (a b : Int), c ≠ Call.model_new a b := by
  obtain ⟨rest, hcalls, hrest⟩ := iteration_spec T P run
  refine ⟨_, by rw [hcalls, List.append_assoc], ?_⟩
  intro c hc
  have hupd : ∀ (u : Call R Model), u.is_update = true →
      u.is_compute = false ∧ ∀ (a b : Int), u ≠ Call.model_new a b := by
    intro u hu
    cases u <;> first
      | exact absurd hu Bool.false_ne_true
      | exact ⟨rfl, fun a b hab => by cases hab⟩
  simp only [List.mem_append, List.mem_cons, List.mem_singleton, List.not_mem_nil,
    or_false] at hc
  rcases hc with (hc | hc | hc | hc) | hc
  · rw [hc]; exact ⟨rfl, by simp⟩
  · rw [hc]; exact ⟨rfl, by simp⟩
  · rw [hc]; exact ⟨rfl, by simp⟩
  · rw [hc]; exact ⟨rfl, by simp⟩
  · rcases hrest with h0 | ⟨upd, hu, h1 | h2⟩
    · rw [h0] at hc
      cases hc
    · rw [h1] at hc
      simp only [List.mem_singleton] at hc
      rw [hc]
      exact hupd upd hu
    · rw [h2] at hc
      simp only [List.mem_cons, List.mem_singleton, List.not_mem_nil, or_false] at hc
      rcases hc with hc | hc
      · rw [hc]
        exact hupd upd hu
      · rw [hc]
        exact ⟨rfl, by simp⟩

/-- The loop of `optimize` keeps the calls made before it and adds no `compute` of the
surrogate and no construction of a model. -/
theorem loop_no_compute {R Model : Type} (T : Model_t R Model) (P : Policies R Model) :
    ∀ (fuel : Nat) (run : Run R Model) (out : Outcome (Run R Model)),
      BOptimizer.loop T P fuel run = some out →
      ∃ new, out.run.calls = run.calls ++ new ∧
        ∀ (c : Call R Model), c ∈ new →
          c.is_compute = false ∧ ∀ (a b : Int), c ≠ Call.model_new a b := by
  intro fuel
  induction fuel with
  | zero =>
    intro run out h
    simp [BOptimizer.loop] at h
  | succ n ih =>
    intro run out h
    unfold BOptimizer.loop at h
    by_cases hs : P.stop run.bo = true
    · simp only [hs, if_true, Option.some.injEq] at h
      subst h
      refine ⟨[Call.stop true], rfl, ?_⟩
      intro c hc
      simp only [List.mem_singleton] at hc
      rw [hc]
      exact ⟨rfl, by simp⟩
    · simp only [hs, Bool.false_eq_true, if_false] at h
      obtain ⟨new, hnew, hall⟩ := iteration_no_compute T P
        { run with calls := run.calls ++ [Call.stop false] }
      cases hit : BOptimizer.iteration T P
          { run with calls := run.calls ++ [Call.stop false] } with
      | failed r =>
        rw [hit] at h hnew
        simp only [Option.some.injEq] at h
        subst h
        simp only [Outcome.run] at hnew ⊢
        refine ⟨Call.stop false :: new, by rw [hnew]; simp, ?_⟩
        intro c hc
        simp only [List.mem_cons] at hc
        rcases hc with hc | hc
        · rw [hc]
          exact ⟨rfl, by simp⟩
        · exact hall c hc
      | done r =>
        rw [hit] at h hnew
        simp only at h
        simp only [Outcome.run] at hnew
        obtain ⟨new2, hnew2, hall2⟩ := ih r out h
        refine ⟨Call.stop false :: new ++ new2, by rw [hnew2, hnew]; simp, ?_⟩
        intro c hc
        simp only [List.cons_append, List.mem_cons, List.mem_append] at hc
        rcases hc with hc | hc | hc
        · rw [hc]
          exact ⟨rfl, by simp⟩
        · exact hall c hc
        · exact hall2 c hc

/-- C15: let `bo1` be the optimizer after `_init`. When its observation history is not
empty, `optimize` calls the `compute` of the model, on the sample history, the observation
history, the noise vector of as many entries as there are observations, each the configured
noise, and the blacklist: when that call returns, the loop starts from the model it leaves;
when it fails, `optimize` ends with that failure; in both cases the call is the first call
of `optimize` and no other `compute` and no construction of a model follows. When the
history is empty the model is replaced by `model_t(dim_in, dim_out)` with the dimensions
declared by the objective and the loop starts from it: no `compute` is called at all. -/
theorem optimize_builds_surrogate {R Model : Type} (T : Model_t R Model)
    (P : Policies R Model) (fuel : Nat) (bo : BOptimizer R Model) (reset : Bool) :
    ((P.init reset bo)._observations ≠ [] →
      (∀ (m : Model),
        T.compute (P.init reset bo)._model (P.init reset bo)._samples
          (P.init reset bo)._observations
          (List.replicate (P.init reset bo)._observations.length P.noise)
          (P.init reset bo)._bl_samples = Outcome.done m →
        BOptimizer.optimize T P fuel bo reset =
          BOptimizer.loop T P fuel
            { bo := { P.init reset bo with _model := m }
              calls := [Call.model_compute (P.init reset bo)._samples
                (P.init reset bo)._observations
                (List.replicate (P.init reset bo)._observations.length P.noise)
                (P.init reset bo)._bl_samples]
              draws := 0 }) ∧
      (∀ (m : Model),
        T.compute (P.init reset bo)._model (P.init reset bo)._samples
          (P.init reset bo)._observations
          (List.replicate (P.init reset bo)._observations.length P.noise)
          (P.init reset bo)._bl_samples = Outcome.failed m →
        BOptimizer.optimize T P fuel bo reset =
          some (Outcome.failed
            { bo := { P.init reset bo with _model := m }
              calls := [Call.model_compute (P.init reset bo)._samples
                (P.init reset bo)._observations
                (List.replicate (P.init reset bo)._observations.length P.noise)
                (P.init reset bo)._bl_samples]
              draws := 0 })) ∧
      (∀ (out : Outcome (Run R Model)), BOptimizer.optimize T P fuel bo reset = some out →
        ∃ rest,
          out.run.calls = Call.model_compute (P.init reset bo)._samples
            (P.init reset bo)._observations
            (List.replicate (P.init reset bo)._observations.length P.noise)
            (P.init reset bo)._bl_samples :: rest ∧
          (∀ (c : Call R Model), c ∈ rest →
            c.is_compute = false ∧ ∀ (a b : Int), c ≠ Call.model_new a b))) ∧
    ((P.init reset bo)._observations = [] →
      BOptimizer.optimize T P fuel bo reset =
        BOptimizer.loop T P fuel
          { bo := { P.init reset bo with _model := T.make P.dim_in P.dim_out }
            calls := [Call.model_new P.dim_in P.dim_out]
            draws := 0 } ∧
      (∀ (out : Outcome (Run R Model)), BOptimizer.optimize T P fuel bo reset = some out →
        ∃ rest, out.run.calls = Call.model_new P.dim_in P.dim_out :: rest ∧
          (∀ (c : Call R Model), c ∈ rest →
            c.is_compute = false ∧ ∀ (a b : Int), c ≠ Call.model_new a b))) := by
  constructor
  · intro hne
    have hemp : (P.init reset bo)._observations.isEmpty = false := by
      cases hY : (P.init reset bo)._observations with
      | nil => exact absurd hY hne
      | cons a l => rfl
    refine ⟨?_, ?_, ?_⟩
    · intro m hm
      unfold BOptimizer.optimize BOptimizer.build_model
      simp only [hemp, if_true, List.nil_append, hm]
    · intro m hm
      unfold BOptimizer.optimize BOptimizer.build_model
      simp only [hemp, if_true, List.nil_append, hm]
    · intro out h
      unfold BOptimizer.optimize BOptimizer.build_model at h
      simp only [hemp, if_true, List.nil_append] at h
      cases hcomp : T.compute (P.init reset bo)._model (P.init reset bo)._samples
          (P.init reset bo)._observations
          (List.replicate (P.init reset bo)._observations.length P.noise)
          (P.init reset bo)._bl_samples with
      | failed m =>
        rw [hcomp] at h
        simp only [Option.some.injEq] at h
        subst h
        exact ⟨[], rfl, fun c hc => by cases hc⟩
      | done m =>
        rw [hcomp] at h
        simp only at h
        obtain ⟨new, hnew, hall⟩ := loop_no_compute T P fuel _ out h
        exact ⟨new, hnew, hall⟩
  · intro he
    have hemp : (P.init reset bo)._observations.isEmpty = true := by
      rw [he]
      rfl
    have hopt : BOptimizer.optimize T P fuel bo reset =
        BOptimizer.loop T P fuel
          { bo := { P.init reset bo with _model := T.make P.dim_in P.dim_out }
            calls := [Call.model_new P.dim_in P.dim_out]
            draws := 0 } := by
      unfold BOptimizer.optimize BOptimizer.build_model
      simp only [hemp, Bool.true_eq_false, if_false, List.nil_append]
    refine ⟨hopt, ?_⟩
    intro out h
    rw [hopt] at h
    obtain ⟨new, hnew, hall⟩ := loop_no_compute T P fuel _ out h
    exact ⟨new, hnew, hall⟩

/-- C15 on example data: with one observation in the history after `_init`, `optimize`
calls `compute` on the histories and the loop starts from the model that it leaves, here
the counters `(1, 0)`; with empty histories the run starts with a fresh model. -/
theorem optimize_builds_surrogate_witness :
    ((example_policies 0 2).init false example_shown)._observations ≠ [] ∧
    (counting_model 10).compute ((example_policies 0 2).init false example_shown)._model
      [[1]] [[1]] [0] [] = Outcome.done (1, 0) ∧
    BOptimizer.optimize (counting_model 10) (example_policies 0 2) 10 example_shown false
      = some (Outcome.done
          { bo := { example_shown with _model := (1, 0) }
            calls := [Call.model_compute [[1]] [[1]] [0] [], Call.stop true]
            draws := 0 }) ∧
    BOptimizer.optimize (counting_model 10) (example_policies 0 2) 10 example_shown false =
      BOptimizer.loop (counting_model 10) (example_policies 0 2) 10
        { bo := { (example_policies 0 2).init false example_shown with _model := (1, 0) }
          calls := [Call.model_compute
            ((example_policies 0 2).init false example_shown)._samples
            ((example_policies 0 2).init false example_shown)._observations
            (List.replicate
              ((example_policies 0 2).init false example_shown)._observations.length
              (example_policies 0 2).noise)
            ((example_policies 0 2).init false example_shown)._bl_samples]
          draws := 0 } ∧
    ((example_policies 3 2).init true example_bo)._observations = [] ∧
    BOptimizer.optimize (counting_model 0) (example_policies 3 2) 10 example_bo true =
      BOptimizer.loop (counting_model 0) (example_policies 3 2) 10
        { bo := { (example_policies 3 2).init true example_bo with
                    _model := (counting_model 0).make (example_policies 3 2).dim_in
                      (example_policies 3 2).dim_out }
          calls := [Call.model_new (example_policies 3 2).dim_in
            (example_policies 3 2).dim_out]
          draws := 0 } :=
  ⟨by decide, by decide, by decide,
    ((optimize_builds_surrogate (counting_model 10) (example_policies 0 2) 10 example_shown
      false).1 (by decide)).1 (1, 0) (by decide),
    by decide,
    ((optimize_builds_surrogate (counting_model 0) (example_policies 3 2) 10 example_bo
      true).2 (by decide)).1⟩

/-- The calls of a completed execution of the loop body: no evaluation of the stop
predicate, one evaluation of the objective, one call of the inner optimizer, with
`bounded = true`; both counters are one higher. -/
theorem iteration_done_counts {R Model : Type} (T : Model_t R Model) (P : Policies R Model)
    (run r : Run R Model) (h : BOptimizer.iteration T P run = Outcome.done r) :
    ∃ new, r.calls = run.calls ++ new ∧
      new.countP Call.is_stop = 0 ∧ new.countP Call.is_eval = 1 ∧
      new.countP Call.is_acqui_optimizer = 1 ∧
      new.countP Call.is_bounded_acqui_optimizer = 1 ∧
      r.bo._current_iteration = run.bo._current_iteration + 1 ∧
      r.bo._total_iterations = run.bo._total_iterations + 1 := by
  obtain ⟨upd, m, hcalls, hbl, hok, _, _, _, hci, hti, _⟩ := iteration_done_spec T P run r h
  refine ⟨_, by rw [hcalls, List.append_assoc], ?_, ?_, ?_, ?_, hci, hti⟩ <;>
    cases hadd : (BOptimizer.eval_and_add P run.bo (BOptimizer.propose P run).2).2 with
    | false =>
      obtain ⟨b, _, hu, _⟩ := hbl hadd
      subst hu
      by_cases hc : 0 < P.hp_period ∧ Int.tmod run.bo._current_iteration P.hp_period = 0 <;>
        simp [hc, List.countP_cons, Call.is_stop, Call.is_eval, Call.is_acqui_optimizer,
          Call.is_bounded_acqui_optimizer]
    | true =>
      obtain ⟨s, y, _, _, hu, _⟩ := hok hadd
      subst hu
      by_cases hc : 0 < P.hp_period ∧ Int.tmod run.bo._current_iteration P.hp_period = 0 <;>
        simp [hc, List.countP_cons, Call.is_stop, Call.is_eval, Call.is_acqui_optimizer,
          Call.is_bounded_acqui_optimizer]

/-- The unrolled loop after `k` completed executions of the body: `k` evaluations of the
stop predicate, of the objective and of the inner optimizer (all with `bounded = true`),
and both counters `k` higher. -/
theorem iterations_counts {R Model : Type} (T : Model_t R Model) (P : Policies R Model) :
    ∀ (k : Nat) (run r : Run R Model), BOptimizer.iterations T P k run = Outcome.done r →
      ∃ new, r.calls = run.calls ++ new ∧
        new.countP Call.is_stop = k ∧ new.countP Call.is_eval = k ∧
        new.countP Call.is_acqui_optimizer = k ∧
        new.countP Call.is_bounded_acqui_optimizer = k ∧
        r.bo._current_iteration = run.bo._current_iteration + k ∧
        r.bo._total_iterations = run.bo._total_iterations + k := by
  intro k
  induction k with
  | zero =>
    intro run r h
    simp only [BOptimizer.iterations, Outcome.done.injEq] at h
    subst h
    exact ⟨[], by simp, rfl, rfl, rfl, rfl, by simp, by simp⟩
  | succ k ih =>
    intro run r h
    simp only [BOptimizer.iterations] at h
    cases hit : BOptimizer.iteration T P
        { run with calls := run.calls ++ [Call.stop false] } with
    | failed r1 =>
      rw [hit] at h
      simp [Outcome.bind] at h
    | done r1 =>
      rw [hit] at h
      simp only [Outcome.bind] at h
      obtain ⟨new1, hc1, hs1, he1, ha1, hb1, hci1, hti1⟩ :=
        iteration_done_counts T P _ r1 hit
      obtain ⟨new2, hc2, hs2, he2, ha2, hb2, hci2, hti2⟩ := ih r1 r h
      simp only at hc1 hci1 hti1
      refine ⟨Call.stop false :: new1 ++ new2, by rw [hc2, hc1]; simp, ?_, ?_, ?_, ?_, ?_, ?_⟩
      · simp only [List.cons_append, List.countP_cons, List.countP_append, hs1, hs2,
          Call.is_stop, if_true]
        omega
      · simp only [List.cons_append, List.countP_cons, List.countP_append, he1, he2,
          Call.is_eval, Bool.false_eq_true, if_false]
        omega
      · simp only [List.cons_append, List.countP_cons, List.countP_append, ha1, ha2,
          Call.is_acqui_optimizer, Bool.false_eq_true, if_false]
        omega
      · simp only [List.cons_append, List.countP_cons, List.countP_append, hb1, hb2,
          Call.is_bounded_acqui_optimizer, Bool.false_eq_true, if_false]
        omega
      · rw [hci2, hci1]
        push_cast
        omega
      · rw [hti2, hti1]
        push_cast
        omega

/-- The loop of `optimize` follows the unrolled loop as long as the stop predicate answers
`false`. -/
theorem loop_unroll {R Model : Type} (T : Model_t R Model) (P : Policies R Model) :
    ∀ (k fuel : Nat) (run rk : Run R Model),
      BOptimizer.iterations T P k run = Outcome.done rk →
      (∀ (j : Nat) (r : Run R Model), j < k →
        BOptimizer.iterations T P j run = Outcome.done r → P.stop r.bo = false) →
      BOptimizer.loop T P (fuel + k) run = BOptimizer.loop T P fuel rk := by
  intro k
  induction k with
  | zero =>
    intro fuel run rk h _
    simp only [BOptimizer.iterations, Outcome.done.injEq] at h
    subst h
    rfl
  | succ k ih =>
    intro fuel run rk h hfirst
    have hs : P.stop run.bo = false := hfirst 0 run (by omega) rfl
    simp only [BOptimizer.iterations] at h
    cases hit : BOptimizer.iteration T P
        { run with calls := run.calls ++ [Call.stop false] } with
    | failed r1 =>
      rw [hit] at h
      simp [Outcome.bind] at h
    | done r1 =>
      rw [hit] at h
      simp only [Outcome.bind] at h
      have hfuel : fuel + (k + 1) = (fuel + k) + 1 := by omega
      rw [hfuel, BOptimizer.loop]
      simp only [hs, Bool.false_eq_true, if_false, hit]
      apply ih fuel r1 rk h
      intro j r hj hr
      apply hfirst (j + 1) r (by omega)
      simp only [BOptimizer.iterations, hit, Outcome.bind]
      exact hr

/-- What the statements before the loop leave when they succeed: one call, which is no
evaluation of the stop predicate or of the objective and no call of the inner optimizer;
the histories and the counters of the optimizer are untouched. -/
theorem build_model_done {R Model : Type} (T : Model_t R Model) (P : Policies R Model)
    (bo1 : BOptimizer R Model) (run0 : Run R Model)
    (h : BOptimizer.build_model T P { bo := bo1, calls := [], draws := 0 }
      = Outcome.done run0) :
    (∃ c, run0.calls = [c] ∧ c.is_stop = false ∧ c.is_eval = false ∧
      c.is_acqui_optimizer = false ∧ c.is_bounded_acqui_optimizer = false) ∧
    run0.bo._current_iteration = bo1._current_iteration ∧
    run0.bo._total_iterations = bo1._total_iterations ∧
    run0.bo._samples = bo1._samples ∧ run0.bo._observations = bo1._observations ∧
    run0.bo._bl_samples = bo1._bl_samples := by
  unfold BOptimizer.build_model at h
  by_cases hemp : bo1._observations.isEmpty = false
  · simp only [hemp, if_true, List.nil_append] at h
    cases hcomp : T.compute bo1._model bo1._samples bo1._observations
        (List.replicate bo1._observations.length P.noise) bo1._bl_samples with
    | failed m =>
      rw [hcomp] at h
      cases h
    | done m =>
      rw [hcomp] at h
      simp only [Outcome.done.injEq] at h
      subst h
      exact ⟨⟨_, rfl, rfl, rfl, rfl, rfl⟩, rfl, rfl, rfl, rfl, rfl⟩
  · have hemp2 : bo1._observations.isEmpty = true := by
      simpa using hemp
    simp only [hemp2, Bool.true_eq_false, if_false, List.nil_append,
      Outcome.done.injEq] at h
    subst h
    exact ⟨⟨_, rfl, rfl, rfl, rfl, rfl⟩, rfl, rfl, rfl, rfl, rfl⟩

/-- The loop of `optimize` when the stop predicate first answers `true` on its `(k + 1)`-th
evaluation: with any bound above `k` the loop returns after `k` executions of the body. -/
theorem loop_iterations {R Model : Type} (T : Model_t R Model) (P : Policies R Model)
    (k fuel : Nat) (run rk : Run R Model)
    (hk : BOptimizer.iterations T P k run = Outcome.done rk)
    (hfirst : ∀ (j : Nat) (r : Run R Model), j < k →
      BOptimizer.iterations T P j run = Outcome.done r → P.stop r.bo = false)
    (hstop : P.stop rk.bo = true) (hfuel : k < fuel) :
    BOptimizer.loop T P fuel run
      = some (Outcome.done { rk with calls := rk.calls ++ [Call.stop true] }) := by
  obtain ⟨f, hf⟩ : ∃ f, fuel = (f + 1) + k := ⟨fuel - k - 1, by omega⟩
  rw [hf, loop_unroll T P k (f + 1) run rk hk hfirst]
  unfold BOptimizer.loop
  simp [hstop]

/-- C16: let the statements of `optimize` before the loop succeed, let the body then be
executed `k` times with the stop predicate answering `false` before each execution, and let
the stop predicate answer `true` after the `k`-th (its `(k + 1)`-th evaluation). Then, with
any bound above `k`, `optimize` returns. Among all its calls there are `k + 1` evaluations
of the stop predicate, `k` evaluations of the objective (one per execution of the body) and
`k` calls of the inner optimizer, each with `bounded = true`; both counters are `k` higher
than after `_init`, and their difference is after every execution of the body what it was
after `_init`. -/
theorem optimize_iterations {R Model : Type} (T : Model_t R Model) (P : Policies R Model)
    (k fuel : Nat) (bo : BOptimizer R Model) (reset : Bool) (run0 rk : Run R Model)
    (hbuild : BOptimizer.build_model T P { bo := P.init reset bo, calls := [], draws := 0 }
      = Outcome.done run0)
    (hk : BOptimizer.iterations T P k run0 = Outcome.done rk)
    (hfirst : ∀ (j : Nat) (r : Run R Model), j < k →
      BOptimizer.iterations T P j run0 = Outcome.done r → P.stop r.bo = false)
    (hstop : P.stop rk.bo = true) (hfuel : k < fuel) :
    BOptimizer.optimize T P fuel bo reset
      = some (Outcome.done { rk with calls := rk.calls ++ [Call.stop true] }) ∧
    (rk.calls ++ [Call.stop true]).countP Call.is_stop = k + 1 ∧
    (rk.calls ++ [Call.stop true]).countP Call.is_eval = k ∧
    (rk.calls ++ [Call.stop true]).countP Call.is_acqui_optimizer = k ∧
    (rk.calls ++ [Call.stop true]).countP Call.is_bounded_acqui_optimizer = k ∧
    rk.bo._current_iteration = (P.init reset bo)._current_iteration + k ∧
    rk.bo._total_iterations = (P.init reset bo)._total_iterations + k ∧
    (∀ (j : Nat) (r : Run R Model), BOptimizer.iterations T P j run0 = Outcome.done r →
      r.bo._total_iterations - r.bo._current_iteration
        = (P.init reset bo)._total_iterations - (P.init reset bo)._current_iteration) := by
  obtain ⟨⟨c, hc0, hcs, hce, hca, hcb⟩, hci0, hti0, _⟩ :=
    build_model_done T P (P.init reset bo) run0 hbuild
  obtain ⟨new, hc, hs, he, ha, hb, hci, hti⟩ := iterations_counts T P k run0 rk hk
  refine ⟨?_, ?_, ?_, ?_, ?_, ?_, ?_, ?_⟩
  · unfold BOptimizer.optimize
    rw [hbuild]
    exact loop_iterations T P k fuel run0 rk hk hfirst hstop hfuel
  · rw [hc, hc0]
    have h1 : (Call.stop true : Call R Model).is_stop = true := rfl
    simp only [List.countP_append, List.countP_cons, List.countP_nil, hs, hcs, h1,
      Bool.false_eq_true, if_false, if_true]
    omega
  · rw [hc, hc0]
    have h1 : (Call.stop true : Call R Model).is_eval = false := rfl
    simp only [List.countP_append, List.countP_cons, List.countP_nil, he, hce, h1,
      Bool.false_eq_true, if_false]
    omega
  · rw [hc, hc0]
    have h1 : (Call.stop true : Call R Model).is_acqui_optimizer = false := rfl
    simp only [List.countP_append, List.countP_cons, List.countP_nil, ha, hca, h1,
      Bool.false_eq_true, if_false]
    omega
  · rw [hc, hc0]
    have h1 : (Call.stop true : Call R Model).is_bounded_acqui_optimizer = false := rfl
    simp only [List.countP_append, List.countP_cons, List.countP_nil, hb, hcb, h1,
      Bool.false_eq_true, if_false]
    omega
  · rw [hci, hci0]
  · rw [hti, hti0]
  · intro j r hr
    obtain ⟨_, _, _, _, _, _, hcj, htj⟩ := iterations_counts T P j run0 r hr
    rw [hcj, htj, hci0, hti0]
    omega

/-- C16 on example data: the stop predicate `3 <= _current_iteration` answers `true` on its
fourth evaluation; `optimize` executes the body three times. -/
theorem optimize_iterations_witness :
    BOptimizer.build_model (counting_model 10) (example_policies 3 2)
      { bo := (example_policies 3 2).init true example_bo, calls := [], draws := 0 }
      = Outcome.done example_run0 ∧
    BOptimizer.iterations (counting_model 10) (example_policies 3 2) 3 example_run0
      = Outcome.done example_run3 ∧
    (example_policies 3 2).stop example_run3.bo = true ∧
    (BOptimizer.optimize (counting_model 10) (example_policies 3 2) 10 example_bo true
      = some (Outcome.done
          { example_run3 with calls := example_run3.calls ++ [Call.stop true] }) ∧
    (example_run3.calls ++ [Call.stop true]).countP Call.is_stop = 3 + 1 ∧
    (example_run3.calls ++ [Call.stop true]).countP Call.is_eval = 3 ∧
    (example_run3.calls ++ [Call.stop true]).countP Call.is_acqui_optimizer = 3 ∧
    (example_run3.calls ++ [Call.stop true]).countP Call.is_bounded_acqui_optimizer = 3 ∧
    example_run3.bo._current_iteration
      = ((example_policies 3 2).init true example_bo)._current_iteration + (3 : Nat) ∧
    example_run3.bo._total_iterations
      = ((example_policies 3 2).init true example_bo)._total_iterations + (3 : Nat) ∧
    (∀ (j : Nat) (r : Run Int (Nat × Nat)),
      BOptimizer.iterations (counting_model 10) (example_policies 3 2) j example_run0
        = Outcome.done r →
      r.bo._total_iterations - r.bo._current_iteration
        = ((example_policies 3 2).init true example_bo)._total_iterations
          - ((example_policies 3 2).init true example_bo)._current_iteration)) :=
  ⟨by decide, by decide, by decide,
    optimize_iterations (counting_model 10) (example_policies 3 2) 3 10 example_bo true
      example_run0 example_run3 (by decide) (by decide)
      (fun j r hj hr => by
        have hr2 : r = (BOptimizer.iterations (counting_model 10) (example_policies 3 2) j
            example_run0).run := by
          rw [hr]
          rfl
        rw [hr2]
        have hj3 : j = 0 ∨ j = 1 ∨ j = 2 := by omega
        rcases hj3 with h0 | h1 | h2
        · subst h0
          decide
        · subst h1
          decide
        · subst h2
          decide)
      (by decide) (by decide)⟩

/-! ### `init::RandomSampling` -/

/-- A new sample always comes out: its coordinates are the next `dim_in` draws, in order. -/
theorem new_sample_eq {R : Type} (rand : Nat → R) (dim_in draws : Nat) :
    RandomSampling.new_sample rand dim_in draws
      = some ((List.range dim_in).map (fun i => rand (draws + i)), draws + dim_in) := by
  have hstep : ∀ (k : Nat) (t : List (Option R) × Nat), 0 ≤ k → k < 0 + dim_in →
      (t.1.length = dim_in ∧ t.2 = draws + k ∧
        ∀ (i : Nat), i < k → t.1[i]? = some (some (rand (draws + i)))) →
      ∃ t2, (fun i (st : List (Option R) × Nat) =>
          (write_at st.1 i (rand st.2)).map fun v => (v, st.2 + 1)) k t = some t2 ∧
        (t2.1.length = dim_in ∧ t2.2 = draws + (k + 1) ∧
          ∀ (i : Nat), i < k + 1 → t2.1[i]? = some (some (rand (draws + i)))) := by
    intro k t _ hk hinv
    obtain ⟨hl, hd, hprev⟩ := hinv
    have hkt : k < t.1.length := by omega
    refine ⟨(t.1.set k (some (rand t.2)), t.2 + 1), ?_, by simp [hl], by simp only; omega, ?_⟩
    · simp only
      rw [(write_at_eq_some _ _ _ _).mpr ⟨hkt, rfl⟩]
      rfl
    · intro i hi
      simp only
      rcases Nat.lt_or_ge i k with hik | hik
      · rw [List.getElem?_set_ne (by omega)]
        exact hprev i hik
      · have hik2 : i = k := by omega
        subst hik2
        rw [List.getElem?_set_self hkt, hd]
  obtain ⟨st, hst, hl, hd, hall⟩ := loop_over_succeeds
    (fun i (st : List (Option R) × Nat) =>
      (write_at st.1 i (rand st.2)).map fun v => (v, st.2 + 1))
    (fun k (t : List (Option R) × Nat) => t.1.length = dim_in ∧ t.2 = draws + k ∧
      ∀ (i : Nat), i < k → t.1[i]? = some (some (rand (draws + i))))
    dim_in 0 (List.replicate dim_in none, draws)
    ⟨by simp, by simp, fun i hi => by omega⟩ hstep
  simp only [Nat.zero_add] at hd hall
  have hread : read_all st.1 = some ((List.range dim_in).map (fun i => rand (draws + i))) := by
    rw [read_all_eq_some]
    apply List.ext_getElem?
    intro i
    rcases Nat.lt_or_ge i dim_in with hi | hi
    · rw [hall i hi]
      simp [List.getElem?_map, List.getElem?_range hi]
    · rw [List.getElem?_eq_none (by omega), List.getElem?_eq_none (by simp; omega)]
  unfold RandomSampling.new_sample uninitialized for_loop
  have hneg : ¬ ((dim_in : Int) < 0) := by omega
  simp only [hneg, if_false, Option.some_bind, Int.toNat_ofNat, Nat.sub_zero, hst, hread,
    Option.map_some', hd]

/-- The calls made for a longer list of samples. -/
theorem calls_for_append {R : Type} (feval : VectorXd R → VectorXd R)
    (xs : List (VectorXd R)) (x : VectorXd R) :
    RandomSampling.calls_for feval (xs ++ [x]) =
      RandomSampling.calls_for feval xs ++
        [InitCall.feval x, InitCall.add_new_sample x (feval x)] := by
  induction xs with
  | nil => rfl
  | cons a l ih => simp [RandomSampling.calls_for, ih]

/-- C17: `RandomSampling` always returns. It makes `max(nb_samples, 0)` calls of
`add_new_sample`; before each, and only then, it evaluates the objective once, at the input
that it then adds, and the observation added is the value of the objective there. Each
added input has `dim_in` coordinates, each of them a draw of `tools::rand(0, 1)`, hence in
`[0, 1]` when the draws are. -/
theorem random_sampling_spec {R Opt : Type} [LE R] [Zero R] [One R] (rand : Nat → R)
    (nb_samples : Int) (dim_in : Nat) (feval : VectorXd R → VectorXd R)
    (add_new_sample : Opt → VectorXd R → VectorXd R → Opt) (run : SamplingRun R Opt)
    (hrand : ∀ (n : Nat), 0 ≤ rand n ∧ rand n ≤ 1) :
    ∃ (xs : List (VectorXd R)) (r : SamplingRun R Opt),
      RandomSampling.run rand nb_samples dim_in feval add_new_sample run = some r ∧
      (xs.length : Int) = max nb_samples 0 ∧
      r.calls = run.calls ++ RandomSampling.calls_for feval xs ∧
      r.opt = xs.foldl (fun o x => add_new_sample o x (feval x)) run.opt ∧
      ∀ (x : VectorXd R), x ∈ xs → x.length = dim_in ∧
        ∀ (c : R), c ∈ x → (∃ n, c = rand n) ∧ 0 ≤ c ∧ c ≤ 1 := by
  have hstep : ∀ (k : Nat) (t : SamplingRun R Opt), 0 ≤ k → k < 0 + nb_samples.toNat →
      (∃ xs : List (VectorXd R), xs.length = k ∧
        t.calls = run.calls ++ RandomSampling.calls_for feval xs ∧
        t.opt = xs.foldl (fun o x => add_new_sample o x (feval x)) run.opt ∧
        ∀ (x : VectorXd R), x ∈ xs → x.length = dim_in ∧
          ∀ (c : R), c ∈ x → (∃ n, c = rand n) ∧ 0 ≤ c ∧ c ≤ 1) →
      ∃ t2, RandomSampling.body rand dim_in feval add_new_sample k t = some t2 ∧
        (∃ xs : List (VectorXd R), xs.length = k + 1 ∧
          t2.calls = run.calls ++ RandomSampling.calls_for feval xs ∧
          t2.opt = xs.foldl (fun o x => add_new_sample o x (feval x)) run.opt ∧
          ∀ (x : VectorXd R), x ∈ xs → x.length = dim_in ∧
            ∀ (c : R), c ∈ x → (∃ n, c = rand n) ∧ 0 ≤ c ∧ c ≤ 1) := by
    intro k t _ _ hinv
    obtain ⟨xs, hlen, hcalls, hopt, hall⟩ := hinv
    unfold RandomSampling.body
    rw [new_sample_eq]
    refine ⟨_, rfl, xs ++ [(List.range dim_in).map (fun i => rand (t.draws + i))],
      by simp [hlen], ?_, ?_, ?_⟩
    · simp only
      rw [hcalls, calls_for_append, List.append_assoc]
    · simp only
      rw [List.foldl_append, ← hopt]
      rfl
    · intro x hx
      simp only [List.mem_append, List.mem_singleton] at hx
      rcases hx with hx | hx
      · exact hall x hx
      · subst hx
        refine ⟨by simp, ?_⟩
        intro c hc
        simp only [List.mem_map, List.mem_range] at hc
        obtain ⟨i, _, hi⟩ := hc
        rw [← hi]
        exact ⟨⟨_, rfl⟩, hrand _⟩
  obtain ⟨r, hr, xs, hlen, hcalls, hopt, hall⟩ := loop_over_succeeds
    (RandomSampling.body rand dim_in feval add_new_sample)
    (fun k (t : SamplingRun R Opt) => ∃ xs : List (VectorXd R), xs.length = k ∧
      t.calls = run.calls ++ RandomSampling.calls_for feval xs ∧
      t.opt = xs.foldl (fun o x => add_new_sample o x (feval x)) run.opt ∧
      ∀ (x : VectorXd R), x ∈ xs → x.length = dim_in ∧
        ∀ (c : R), c ∈ x → (∃ n, c = rand n) ∧ 0 ≤ c ∧ c ≤ 1)
    nb_samples.toNat 0 run
    ⟨[], rfl, by simp [RandomSampling.calls_for], rfl, fun x hx => by cases hx⟩ hstep
  refine ⟨xs, r, ?_, ?_, hcalls, hopt, hall⟩
  · unfold RandomSampling.run for_loop
    rw [Nat.sub_zero]
    exact hr
  · rw [hlen]
    simp only [Nat.zero_add]
    omega

/-- C17 on example data: two samples of dimension 3 from draws that alternate between 0
and 1, for an objective that returns the first coordinate. -/
theorem random_sampling_spec_witness :
    (∀ (n : Nat), (0 : Int) ≤ ((n % 2 : Nat) : Int) ∧ ((n % 2 : Nat) : Int) ≤ 1) ∧
    (RandomSampling.run (fun n => ((n % 2 : Nat) : Int)) 2 3 (fun x => [x.headD 0])
      BOptimizer.add_new_sample
      { opt := example_bo, calls := [], draws := 0 }).map (fun r => (r.opt, r.calls))
      = some ({ example_bo with _samples := [[0, 1, 0], [1, 0, 1]],
                                _observations := [[0], [1]] },
          [InitCall.feval [0, 1, 0], InitCall.add_new_sample [0, 1, 0] [0],
           InitCall.feval [1, 0, 1], InitCall.add_new_sample [1, 0, 1] [1]]) ∧
    ∃ (xs : List (VectorXd Int)) (r : SamplingRun Int (BOptimizer Int (Nat × Nat))),
      RandomSampling.run (fun n => ((n % 2 : Nat) : Int)) 2 3 (fun x => [x.headD 0])
        BOptimizer.add_new_sample { opt := example_bo, calls := [], draws := 0 } = some r ∧
      (xs.length : Int) = max 2 0 ∧
      r.calls = ([] : List (InitCall Int)) ++
        RandomSampling.calls_for (fun x => [x.headD 0]) xs ∧
      r.opt = xs.foldl (fun o x => BOptimizer.add_new_sample o x [x.headD 0]) example_bo ∧
      ∀ (x : VectorXd Int), x ∈ xs → x.length = 3 ∧
        ∀ (c : Int), c ∈ x → (∃ n, c = ((n % 2 : Nat) : Int)) ∧ 0 ≤ c ∧ c ≤ 1 :=
  ⟨fun n => by omega, by decide,
    random_sampling_spec (fun n => ((n % 2 : Nat) : Int)) 2 3 (fun x => [x.headD 0])
      BOptimizer.add_new_sample { opt := example_bo, calls := [], draws := 0 }
      (fun n => by
        show (0 : Int) ≤ ((n % 2 : Nat) : Int) ∧ ((n % 2 : Nat) : Int) ≤ 1
        omega)⟩

/-! ### `opt::GridSearch` -/

/-- The grid has `bins + 1` points, the point number `k` being `k / bins`. -/
theorem grid_getElem {K : Type} [LinearOrderedField K] (bins k : Nat) (hk : k ≤ bins) :
    (GridSearch.grid bins : List (VectorXd K)).length = bins + 1 ∧
    (GridSearch.grid bins : List (VectorXd K))[k]? = some [(k : K) / (bins : K)] := by
  unfold GridSearch.grid
  refine ⟨by simp, ?_⟩
  rw [List.getElem?_map, List.getElem?_range (by omega)]
  rfl

/-- C18: for a one-dimensional objective and `bins >= 1`, grid search evaluates the
objective `bins + 1` times, once at each point `k / bins` of the uniform grid, and returns
a point of that grid at which the objective is maximal over the grid; for the objective
`3 v + 5` it returns the point 1 (so with 20 bins, after 21 evaluations). -/
theorem grid_search_spec {K : Type} [LinearOrderedField K] (f : VectorXd K → K) (bins : Nat)
    (hb : 1 ≤ bins) :
    (GridSearch.evaluations f bins).length = bins + 1 ∧
    (∀ (k : Nat), k ≤ bins →
      (GridSearch.evaluations f bins)[k]? = some (f [(k : K) / (bins : K)])) ∧
    (∃ x, GridSearch.search f bins = some x ∧ x ∈ GridSearch.grid bins ∧
      ∀ (p : VectorXd K), p ∈ GridSearch.grid bins → f p ≤ f x) ∧
    GridSearch.search (acqui_mono : VectorXd K → K) bins = some [1] ∧
    (GridSearch.evaluations (acqui_mono : VectorXd K → K) bins).length = bins + 1 := by
  have hlen : ∀ (g : VectorXd K → K), (GridSearch.evaluations g bins).length = bins + 1 := by
    intro g
    simp [GridSearch.evaluations, GridSearch.grid]
  have hne : ∀ (g : VectorXd K → K), GridSearch.evaluations g bins ≠ [] := by
    intro g hnil
    have := hlen g
    rw [hnil] at this
    simp at this
  have hval : ∀ (g : VectorXd K → K) (k : Nat), k ≤ bins →
      (GridSearch.evaluations g bins)[k]? = some (g [(k : K) / (bins : K)]) := by
    intro g k hk
    unfold GridSearch.evaluations
    rw [List.getElem?_map, (grid_getElem bins k hk).2]
    rfl
  refine ⟨hlen f, hval f, ?_, ?_, hlen _⟩
  · obtain ⟨v, hlt, hget, hmax, _⟩ := max_element_spec (GridSearch.evaluations f bins) (hne f)
    rw [hlen f] at hlt
    have hi := (grid_getElem (K := K) bins (max_element (GridSearch.evaluations f bins))
      (by omega)).2
    have hv := hval f _ (Nat.le_of_lt_succ hlt)
    rw [hget] at hv
    refine ⟨_, hi, List.getElem?_mem hi, ?_⟩
    intro p hp
    obtain ⟨j, hj⟩ := List.mem_iff_getElem?.mp hp
    have hjv : (GridSearch.evaluations f bins)[j]? = some (f p) := by
      unfold GridSearch.evaluations
      rw [List.getElem?_map, hj]
      rfl
    have := hmax j (f p) hjv
    rw [Option.some.inj hv] at this
    exact this
  · obtain ⟨v, hlt, hget, hmax, _⟩ :=
      max_element_spec (GridSearch.evaluations (acqui_mono : VectorXd K → K) bins) (hne _)
    rw [hlen _] at hlt
    have hbK : (0 : K) < (bins : K) := by exact_mod_cast hb
    have hv := hval (acqui_mono : VectorXd K → K) _ (Nat.le_of_lt_succ hlt)
    rw [hget] at hv
    have hlast := hmax bins _ (hval (acqui_mono : VectorXd K → K) bins (Nat.le_refl _))
    rw [Option.some.inj hv] at hlast
    simp only [acqui_mono, List.headD_cons] at hlast
    have hle : (bins : K) / (bins : K)
        ≤ ((max_element (GridSearch.evaluations (acqui_mono : VectorXd K → K) bins) : Nat) : K)
          / (bins : K) := by
      linarith
    have hle2 : (bins : K)
        ≤ ((max_element (GridSearch.evaluations (acqui_mono : VectorXd K → K) bins) : Nat) : K) :=
      (div_le_div_iff_of_pos_right hbK).mp hle
    have hle3 : bins ≤ max_element (GridSearch.evaluations (acqui_mono : VectorXd K → K) bins) := by
      exact_mod_cast hle2
    have heq : max_element (GridSearch.evaluations (acqui_mono : VectorXd K → K) bins) = bins := by
      omega
    unfold GridSearch.search
    rw [heq, (grid_getElem bins bins (Nat.le_refl _)).2, div_self (ne_of_gt hbK)]

/-- C18 on the data of `test_grid_search_mono_dim`: 20 bins, the objective `3 v + 5` on the
rationals: 21 evaluations, and the result is the point 1. -/
theorem grid_search_spec_witness :
    1 ≤ 20 ∧
    GridSearch.search (acqui_mono : VectorXd ℚ → ℚ) 20 = some [1] ∧
    (GridSearch.evaluations (acqui_mono : VectorXd ℚ → ℚ) 20).length = 20 + 1 :=
  ⟨by decide,
    (grid_search_spec (acqui_mono : VectorXd ℚ → ℚ) 20 (by decide)).2.2.2⟩

/-! ### The fan-out of MultiGP is independent of the order -/

/-- A loop whose bodies for two different indices can be exchanged gives the same result
over every permutation of its indices. -/
theorem loop_over_perm {σ : Type} (body : Nat → σ → Option σ)
    (hcomm : ∀ (i j : Nat) (s : σ), i ≠ j →
      (body i s).bind (body j) = (body j s).bind (body i))
    (l1 l2 : List Nat) (h : l1.Perm l2) :
    ∀ (s : σ), loop_over body l1 s = loop_over body l2 s := by
  induction h with
  | nil =>
    intro s
    rfl
  | cons x _ ih =>
    intro s
    simp only [loop_over]
    cases hb : body x s with
    | none => rfl
    | some t => exact ih t
  | swap x y l =>
    intro s
    simp only [loop_over]
    by_cases hxy : x = y
    · subst hxy
      rfl
    · have h1 := hcomm y x s (fun h => hxy h.symm)
      cases hy : body y s with
      | none =>
        rw [hy] at h1
        cases hx : body x s with
        | none => rfl
        | some t =>
          rw [hx] at h1
          simp only [Option.none_bind, Option.some_bind] at h1 ⊢
          rw [← h1]
          rfl
      | some u =>
        rw [hy] at h1
        cases hx : body x s with
        | none =>
          rw [hx] at h1
          simp only [Option.none_bind, Option.some_bind] at h1 ⊢
          rw [h1]
          rfl
        | some t =>
          rw [hx] at h1
          simp only [Option.some_bind] at h1 ⊢
          rw [h1]
  | trans _ _ ih1 ih2 =>
    intro s
    rw [ih1 s, ih2 s]

/-- Two in-place updates of different elements can be exchanged: each reads and writes its
own element only. -/
theorem update_at_comm {α : Type} (F : Nat → α → Option α) (i j : Nat) (l : List α)
    (h : i ≠ j) :
    (update_at l i (F i)).bind (fun l2 => update_at l2 j (F j))
      = (update_at l j (F j)).bind (fun l2 => update_at l2 i (F i)) := by
  unfold update_at
  cases hi : l[i]? with
  | none =>
    cases hj : l[j]? with
    | none => simp [hi, hj]
    | some b =>
      cases hFj : F j b with
      | none => simp [hi, hj, hFj]
      | some b2 => simp [hi, hj, hFj, List.getElem?_set_ne (Ne.symm h)]
  | some a =>
    cases hFi : F i a with
    | none =>
      cases hj : l[j]? with
      | none => simp [hi, hj, hFi]
      | some b =>
        cases hFj : F j b with
        | none => simp [hi, hj, hFi, hFj]
        | some b2 => simp [hi, hj, hFi, hFj, List.getElem?_set_ne (Ne.symm h)]
    | some a2 =>
      cases hj : l[j]? with
      | none => simp [hi, hj, hFi, List.getElem?_set_ne h]
      | some b =>
        cases hFj : F j b with
        | none => simp [hi, hj, hFi, hFj, List.getElem?_set_ne h]
        | some b2 =>
          simp [hi, hj, hFi, hFj, List.getElem?_set_ne h, List.getElem?_set_ne (Ne.symm h)]
          exact List.set_comm _ _ _ h

/-- The loop of in-place updates gives the same result over every permutation of its
indices. -/
theorem loop_update_at_perm {α : Type} (F : Nat → α → Option α) (l1 l2 : List Nat)
    (h : l1.Perm l2) (s : List α) :
    loop_over (fun i o => update_at o i (F i)) l1 s
      = loop_over (fun i o => update_at o i (F i)) l2 s :=
  loop_over_perm _ (fun i j t hij => update_at_comm F i j t hij) l1 l2 h s

/-- The body of the loop of `mu` is an in-place update of coefficient `i` by a value that
does not depend on the vector. -/
theorem mu_body_eq {R MF : Type} [Add R] (P : Posterior R) (g : MultiGP R MF)
    (v mv : VectorXd R) :
    MultiGP.mu_body P g v mv = fun i mu => update_at mu i (fun _ =>
      match g._gp_models[i]? with
      | none => none
      | some gp =>
        match (P.mu gp v)[0]?, mv[i]? with
        | some t0, some m => some (some (t0 + m))
        | _, _ => none) := by
  funext i mu
  unfold MultiGP.mu_body write_at update_at
  cases hgp : g._gp_models[i]? with
  | none => cases hmu : mu[i]? <;> simp [hgp, hmu]
  | some gp =>
    cases ht : (P.mu gp v)[0]? with
    | none => cases hmu : mu[i]? <;> simp [hgp, hmu, ht]
    | some t0 =>
      cases hm : mv[i]? with
      | none => cases hmu : mu[i]? <;> simp [hgp, hmu, ht, hm]
      | some m => cases hmu : mu[i]? <;> simp [hgp, hmu, ht, hm]

/-- The body of the loop of `sigma` is an in-place update of coefficient `i`. -/
theorem sigma_body_eq {R MF : Type} (P : Posterior R) (g : MultiGP R MF) (v : VectorXd R) :
    MultiGP.sigma_body P g v = fun i sigma => update_at sigma i (fun _ =>
      match g._gp_models[i]? with
      | none => none
      | some gp => some (some (P.sigma gp v))) := by
  funext i sigma
  unfold MultiGP.sigma_body write_at update_at
  cases hgp : g._gp_models[i]? with
  | none => cases hs : sigma[i]? <;> simp [hgp, hs]
  | some gp => cases hs : sigma[i]? <;> simp [hgp, hs]

/-- The body of the loop of `query` treats the two vectors separately, each by an in-place
update of coefficient `i`. -/
theorem query_body_eq {R MF : Type} [Add R] (P : Posterior R) (g : MultiGP R MF)
    (v mv : VectorXd R) :
    MultiGP.query_body P g v mv = fun i (st : List (Option R) × List (Option R)) =>
      ((fun i sigma => update_at sigma i (fun _ =>
          match g._gp_models[i]? with
          | none => none
          | some gp => some (some (P.query gp v).2))) i st.2).bind fun y =>
        ((fun i mu => update_at mu i (fun _ =>
          match g._gp_models[i]? with
          | none => none
          | some gp =>
            match (P.query gp v).1[0]?, mv[i]? with
            | some t0, some m => some (some (t0 + m))
            | _, _ => none)) i st.1).map fun x => (x, y) := by
  funext i st
  unfold MultiGP.query_body write_at update_at
  cases hgp : g._gp_models[i]? with
  | none => cases hs : st.2[i]? <;> simp [hgp, hs]
  | some gp =>
    cases hs : st.2[i]? with
    | none => simp [hgp, hs]
    | some a =>
      cases ht : (P.query gp v).1[0]? with
      | none => cases hmu : st.1[i]? <;> simp [hgp, hs, ht, hmu]
      | some t0 =>
        cases hm : mv[i]? with
        | none => cases hmu : st.1[i]? <;> simp [hgp, hs, ht, hm, hmu]
        | some m => cases hmu : st.1[i]? <;> simp [hgp, hs, ht, hm, hmu]

/-- The loop of `query` gives the same result over every permutation of its indices. -/
theorem query_loop_perm {R MF : Type} [Add R] (P : Posterior R) (g : MultiGP R MF)
    (v mv : VectorXd R) (l1 l2 : List Nat) (h : l1.Perm l2)
    (st : List (Option R) × List (Option R)) :
    loop_over (MultiGP.query_body P g v mv) l1 st
      = loop_over (MultiGP.query_body P g v mv) l2 st := by
  obtain ⟨a, b⟩ := st
  rw [query_body_eq]
  refine (loop_over_pair
    (fun i mu => update_at mu i (fun _ =>
      match g._gp_models[i]? with
      | none => none
      | some gp =>
        match (P.query gp v).1[0]?, mv[i]? with
        | some t0, some m => some (some (t0 + m))
        | _, _ => none))
    (fun i sigma => update_at sigma i (fun _ =>
      match g._gp_models[i]? with
      | none => none
      | some gp => some (some (P.query gp v).2))) l1 a b).trans ?_
  refine Eq.trans ?_ (loop_over_pair
    (fun i mu => update_at mu i (fun _ =>
      match g._gp_models[i]? with
      | none => none
      | some gp =>
        match (P.query gp v).1[0]?, mv[i]? with
        | some t0, some m => some (some (t0 + m))
        | _, _ => none))
    (fun i sigma => update_at sigma i (fun _ =>
      match g._gp_models[i]? with
      | none => none
      | some gp => some (some (P.query gp v).2))) l2 a b).symm
  rw [loop_update_at_perm _ l1 l2 h, loop_update_at_perm _ l1 l2 h]

/-- The loop of `mu` gives the same result over every permutation of its indices. -/
theorem mu_loop_perm {R MF : Type} [Add R] (P : Posterior R) (g : MultiGP R MF)
    (v mv : VectorXd R) (l1 l2 : List Nat) (h : l1.Perm l2) (s : List (Option R)) :
    loop_over (MultiGP.mu_body P g v mv) l1 s = loop_over (MultiGP.mu_body P g v mv) l2 s := by
  rw [mu_body_eq]
  exact loop_update_at_perm _ l1 l2 h s

/-- The loop of `sigma` gives the same result over every permutation of its indices. -/
theorem sigma_loop_perm {R MF : Type} (P : Posterior R) (g : MultiGP R MF)
    (v : VectorXd R) (l1 l2 : List Nat) (h : l1.Perm l2) (s : List (Option R)) :
    loop_over (MultiGP.sigma_body P g v) l1 s = loop_over (MultiGP.sigma_body P g v) l2 s := by
  rw [sigma_body_eq]
  exact loop_update_at_perm _ l1 l2 h s

/-- C19: the fan-out of `compute`, `add_sample`, `query`, `mu` and `sigma` over the outputs
is independent of the order: whatever permutation of `0, ..., dim_out - 1` the scheduler
chooses, each method leaves the same MultiGP and returns the same vectors (and fails in the
same cases) as with the indices in increasing order. -/
theorem fan_out_order_independent {R MF : Type} [Sub R] [Add R]
    (schedule : Nat → List Nat)
    (hperm : ∀ (n : Nat), (schedule n).Perm (List.range' 0 n))
    (C : Cholesky R) (M : MeanFunction R MF) (P : Posterior R) (g : MultiGP R MF)
    (S Y : List (VectorXd R)) (ck : Bool) (x y v : VectorXd R) :
    MultiGP.compute_in schedule C M g S Y ck = MultiGP.compute C M g S Y ck ∧
    MultiGP.add_sample_in schedule C M g x y = MultiGP.add_sample C M g x y ∧
    MultiGP.query_in schedule M P g v = MultiGP.query M P g v ∧
    MultiGP.mu_in schedule M P g v = MultiGP.mu M P g v ∧
    MultiGP.sigma_in schedule P g v = MultiGP.sigma P g v := by
  have hpar : ∀ (α : Type) (F : Nat → α → Option α) (e : Int) (s : List α),
      par_loop_in schedule e (fun i o => update_at o i (F i)) s
        = par_loop 0 e (fun i o => update_at o i (F i)) s := by
    intro α F e s
    unfold par_loop_in par_loop
    rw [Nat.sub_zero, loop_update_at_perm F _ _ (hperm e.toNat)]
  refine ⟨?_, ?_, ?_, ?_, ?_⟩
  · unfold MultiGP.compute_in MultiGP.compute
    simp only [hpar]
  · unfold MultiGP.add_sample_in MultiGP.add_sample
    simp only [hpar]
  · unfold MultiGP.query_in MultiGP.query par_loop_in par_loop
    simp only [Nat.sub_zero, query_loop_perm P g v _ _ _ (hperm g._dim_out.toNat)]
  · unfold MultiGP.mu_in MultiGP.mu par_loop_in par_loop
    simp only [Nat.sub_zero, mu_loop_perm P g v _ _ _ (hperm g._dim_out.toNat)]
  · unfold MultiGP.sigma_in MultiGP.sigma par_loop_in par_loop
    simp only [Nat.sub_zero, sigma_loop_perm P g v _ _ (hperm g._dim_out.toNat)]

/-- C19 on example data: with the two outputs treated from the last to the first, `compute`,
`add_sample`, `query`, `mu` and `sigma` on a fitted model give what they give in increasing
order; the sample added in reverse order leaves the expected model. -/
theorem fan_out_order_independent_witness :
    (∀ (n : Nat), ((fun n => (List.range' 0 n).reverse) n).Perm (List.range' 0 n)) ∧
    MultiGP.add_sample_in (fun n => (List.range' 0 n).reverse) always_fits (constant_mean 2)
      ex_fitted [3] [7, 8] = some ex_extended ∧
    (MultiGP.compute_in (fun n => (List.range' 0 n).reverse) always_fits (constant_mean 2)
        ex_fitted ex_samples ex_observations true
      = MultiGP.compute always_fits (constant_mean 2) ex_fitted ex_samples ex_observations true ∧
    MultiGP.add_sample_in (fun n => (List.range' 0 n).reverse) always_fits (constant_mean 2)
        ex_fitted [3] [7, 8]
      = MultiGP.add_sample always_fits (constant_mean 2) ex_fitted [3] [7, 8] ∧
    MultiGP.query_in (fun n => (List.range' 0 n).reverse) (constant_mean 2) lookup_posterior
        ex_fitted [2]
      = MultiGP.query (constant_mean 2) lookup_posterior ex_fitted [2] ∧
    MultiGP.mu_in (fun n => (List.range' 0 n).reverse) (constant_mean 2) lookup_posterior
        ex_fitted [2]
      = MultiGP.mu (constant_mean 2) lookup_posterior ex_fitted [2] ∧
    MultiGP.sigma_in (fun n => (List.range' 0 n).reverse) lookup_posterior ex_fitted [2]
      = MultiGP.sigma lookup_posterior ex_fitted [2]) :=
  ⟨fun n => List.reverse_perm _, by decide,
    fan_out_order_independent (fun n => (List.range' 0 n).reverse)
      (fun n => List.reverse_perm _) always_fits (constant_mean 2) lookup_posterior
      ex_fitted ex_samples ex_observations true [3] [7, 8] [2]⟩

/-! ### The structural invariant of MultiGP -/

/-- A successful `par::loop` of in-place updates keeps the length of the vector. -/
theorem par_loop_update_at_length {α : Type} (F : Nat → α → Option α) (e : Int)
    (l l2 : List α) (h : par_loop 0 e (fun i o => update_at o i (F i)) l = some l2) :
    l2.length = l.length := by
  rw [par_loop_eq_some] at h
  exact loop_update_at_length F _ 0 l l2 h.2

/-- After a successful `compute` the number of scalar GPs is `dim_out`. -/
theorem compute_nb_models {R MF : Type} [Sub R] (C : Cholesky R)
    (M : MeanFunction R MF) (g g2 : MultiGP R MF)
    (S Y : List (VectorXd R)) (ck : Bool) (h : MultiGP.compute C M g S Y ck = some g2) :
    (g2._gp_models.length : Int) = g2._dim_out := by
  unfold MultiGP.compute at h
  cases S with
  | nil => simp at h
  | cons s0 St =>
    cases Y with
    | nil => simp at h
    | cons y0 Yt =>
      simp only at h
      split at h
      · cases h
      · simp only [Option.bind_eq_some, Option.map_eq_some'] at h
        obtain ⟨g4, hg4, obs, _, ms, hms, hg2⟩ := h
        obtain ⟨hlen4, hd4⟩ := compute_begin_length M g g4 s0 y0 _ hg4
        have hlen := par_loop_update_at_length _ _ _ _ hms
        rw [← hg2]
        simp only
        rw [hlen, hlen4, hd4]

/-- After a successful `add_sample` on a MultiGP that is in its default state or has
`dim_out` scalar GPs, the number of scalar GPs is `dim_out`. -/
theorem add_sample_nb_models {R MF : Type} [Sub R] (C : Cholesky R) (M : MeanFunction R MF)
    (g g2 : MultiGP R MF) (x y : VectorXd R)
    (hinv : (g._dim_out = -1 ∧ g._gp_models = []) ∨ (g._gp_models.length : Int) = g._dim_out)
    (h : MultiGP.add_sample C M g x y = some g2) :
    (g2._gp_models.length : Int) = g2._dim_out := by
  obtain ⟨g1, ms, hg1, hg2, _, _, hlen, _, _⟩ := add_sample_spec C M g g2 x y h
  rw [hg2]
  simp only
  rw [hlen]
  by_cases hne : g._gp_models = []
  · rw [add_sample_dims_empty M g x y hne] at hg1
    by_cases hd : g._dim_out = (y.length : Int)
    · simp only [hd, ne_eq, not_true_eq_false, if_false, Option.some.injEq] at hg1
      rw [← hg1]
      simp only
      rcases hinv with ⟨h1, _⟩ | h2
      · omega
      · rw [hne] at h2 ⊢
        rw [← hd]
        exact h2
    · simp only [hd, ne_eq, not_false_eq_true, if_true, Option.some.injEq] at hg1
      rw [← hg1]
      simp
  · rw [add_sample_dims_nonempty M g x y hne] at hg1
    split at hg1
    · cases hg1
      rcases hinv with ⟨_, h1⟩ | h2
      · exact absurd h1 hne
      · exact h2
    · cases hg1

/-- After a successful `recompute` on a MultiGP that is in its default state or has
`dim_out` scalar GPs, the MultiGP is again in its default state or has `dim_out` scalar
GPs. -/
theorem recompute_nb_models {R MF : Type} [Sub R] (C : Cholesky R) (M : MeanFunction R MF)
    (g g2 : MultiGP R MF) (a b : Bool)
    (hinv : (g._dim_out = -1 ∧ g._gp_models = []) ∨ (g._gp_models.length : Int) = g._dim_out)
    (h : MultiGP.recompute C M g a b = some g2) :
    (g2._dim_out = -1 ∧ g2._gp_models = []) ∨ (g2._gp_models.length : Int) = g2._dim_out := by
  unfold MultiGP.recompute at h
  cases hms : g._gp_models with
  | nil =>
    simp only [hms, Option.some.injEq] at h
    rw [← h]
    exact hinv
  | cons gp0 rest =>
    simp only [hms] at h
    cases a with
    | true =>
      simp only [if_true] at h
      exact Or.inr (compute_nb_models C M g g2 _ _ b h)
    | false =>
      simp only [Bool.false_eq_true, if_false, Option.map_eq_some'] at h
      obtain ⟨ms, hloop, hg2⟩ := h
      have hlen := par_loop_update_at_length _ _ _ _ hloop
      rw [← hg2]
      simp only
      rcases hinv with ⟨_, h1⟩ | h2
      · rw [hms] at h1
        cases h1
      · rw [hms] at h2
        exact Or.inr (by rw [hlen]; exact h2)

/-- C20: in every state of a MultiGP reached from `MultiGP()` or from
`MultiGP(dim_in, dim_out)` with `dim_out >= 0` by successful calls of `compute`,
`add_sample` and `recompute`, either the MultiGP is in its default state (`dim_out = -1` and
no scalar GP) or the number of scalar GPs is `dim_out`; and `recompute`, with any flags, on
a MultiGP without scalar GP succeeds and changes nothing. -/
theorem structural_invariant {R MF : Type} [Sub R] (C : Cholesky R) (M : MeanFunction R MF)
    (g : MultiGP R MF) (h : ReachableState C M g) :
    ((g._dim_out = -1 ∧ g._gp_models = []) ∨ (g._gp_models.length : Int) = g._dim_out) ∧
    ∀ (g0 : MultiGP R MF) (update_obs_mean update_full_kernel : Bool),
      g0._gp_models = [] →
      MultiGP.recompute C M g0 update_obs_mean update_full_kernel = some g0 := by
  refine ⟨?_, ?_⟩
  · induction h with
    | new0 => exact Or.inl ⟨rfl, rfl⟩
    | new di dout g hd hg =>
      unfold MultiGP.new fresh_gp_models at hg
      have hd2 : ¬ dout < 0 := by omega
      simp only [hd2, if_false, Option.map_some', Option.some.injEq] at hg
      rw [← hg]
      refine Or.inr ?_
      simp only [List.length_replicate]
      omega
    | compute g g2 S Y ck _ hc _ => exact Or.inr (compute_nb_models C M g g2 S Y ck hc)
    | add_sample g g2 x y _ ha ih => exact Or.inr (add_sample_nb_models C M g g2 x y ih ha)
    | recompute g g2 a b _ hr ih => exact recompute_nb_models C M g g2 a b ih hr
  · intro g0 a b h0
    unfold MultiGP.recompute
    rw [h0]

/-- C20 on example data: the MultiGP reached from `MultiGP()` by `compute` on two samples,
`add_sample` of a third and `recompute()` has its two scalar GPs and `dim_out = 2`. -/
theorem structural_invariant_witness :
    ReachableState always_fits (constant_mean 2) ex_extended ∧
    (((ex_extended._dim_out = -1 ∧ ex_extended._gp_models = []) ∨
        (ex_extended._gp_models.length : Int) = ex_extended._dim_out) ∧
      ∀ (g0 : MultiGP Int Int) (update_obs_mean update_full_kernel : Bool),
        g0._gp_models = [] →
        MultiGP.recompute always_fits (constant_mean 2) g0 update_obs_mean update_full_kernel
          = some g0) :=
  have hreach : ReachableState always_fits (constant_mean 2) ex_extended :=
    ReachableState.recompute ex_extended ex_extended true true
      (ReachableState.add_sample ex_fitted ex_extended [3] [7, 8]
        (ReachableState.compute (MultiGP.new0 (constant_mean 2)) ex_fitted
          ex_samples ex_observations true ReachableState.new0 (by decide))
        (by decide))
      (by decide)
  ⟨hreach, structural_invariant always_fits (constant_mean 2) ex_extended hreach⟩

/-! ### Index safety of the best-so-far accessors -/

end Limbo
